import Mathlib

/-!
# Pangolin video transform kernels

A shallow embedding of the pixel-shuffling kernels of
`components/pango_video/src/drivers/transform.cpp` (tiled and generic
variants of FlipX, FlipXY, Transpose, RotateCW, RotateCCW, and FlipY),
and of the driver around them (the `TransformVideo` constructor, `Process`,
the two grabs, and the factory's resolution of per-stream kinds), followed by
theorems relating the tiled kernels to the generic nested loops and to each
other, and theorems about the driver's descriptors, error paths and kind list.

Modelling conventions.

* A buffer is a function from byte offset (relative to the view's base
  pointer) to byte value.  Source and destination are distinct buffers,
  which is how a non-aliasing destination is expressed.
* `size_t` arithmetic is carried out modulo `2 ^ 64` wherever the source
  relies on wrap-around (the `xout` / `yout` chains of the tiled kernels).
  All other index arithmetic is in range for every image whose rows fit
  in the address space, and is written with plain natural numbers.
* Row indices handed to `rowPtr` / `rowPtrMut` are converted to `int` in the
  source; they are below the image height, so the conversion is the identity
  and is not modelled.
* A driver operation ends normally, with a thrown exception, or in undefined
  behaviour (an out-of-range `operator[]` on a vector); the three are kept apart.
* The scratch tile `T d[TSZ][TSZ]` is a function from (row, column) to an
  element `T`, itself a function from byte index to byte.  Its initial
  contents are a parameter, since the array is uninitialised in the source.
-/

namespace Pangolin

/-! ## Data model -/

/-- Bytes of a buffer, addressed by offset from the base pointer. -/
abbrev Mem := Nat → Nat

/-- One scratch element, `struct { uint8_t d[BPP]; }`: byte index to byte. -/
abbrev T := Nat → Nat

/-- The scratch tile `T d[TSZ][TSZ]`, addressed by (row, column). -/
abbrev Scratch := Nat × Nat → T

/-- An image view: base buffer together with width and height in pixels and
the row pitch in bytes.  Used for both `ImageView` and `MutImageView`. -/
structure ImageView where
  data : Mem
  width : Nat
  height : Nat
  pitch : Nat

/-- Byte offset of the start of row `v`, as computed by `rowPtr` / `rowPtrMut`. -/
def rowPtr (img : ImageView) (v : Nat) : Nat := v * img.pitch

/-- The pair compared by `imageSize() != imageSize()`. -/
def imageSize (img : ImageView) : Nat × Nat := (img.width, img.height)

/-- Errors thrown by the kernels. -/
inductive KernelError where
  | incompatibleImageSizes
  deriving DecidableEq, Repr

/-! ## Machine arithmetic on `size_t` -/

/-- The modulus of `size_t` arithmetic, `2 ^ 64`. -/
def SIZE_MOD : Nat := 18446744073709551616

/-- Wrapping `size_t` addition. -/
def uadd (a b : Nat) : Nat := (a + b) % SIZE_MOD

/-- Wrapping `size_t` subtraction. -/
def usub (a b : Nat) : Nat := (a % SIZE_MOD + SIZE_MOD - b % SIZE_MOD) % SIZE_MOD

/-- Wrapping `size_t` multiplication. -/
def umul (a b : Nat) : Nat := (a * b) % SIZE_MOD

/-! ## Control flow and memory primitives -/

/-- The loop `for (i = lo; i < hi; i += step) s = body i s`.  A zero step
never occurs in the source (steps are `1` or a positive tile size); the model
stops in that case so that it is total. -/
def forLoop {σ : Type} (lo hi step : Nat) (body : Nat → σ → σ) (s : σ) : σ :=
  if _h : lo < hi ∧ 0 < step then forLoop (lo + step) hi step body (body lo s) else s
termination_by hi - lo
decreasing_by omega

/-- Buffer-to-buffer `memcpy(dst + doff, src + soff, n)` between distinct buffers. -/
def memcpy (dst : Mem) (doff : Nat) (src : Mem) (soff n : Nat) : Mem :=
  fun a => if doff ≤ a ∧ a < doff + n then src (soff + (a - doff)) else dst a

/-- The call `memcpy(d[y], src + soff, n)`: byte `i < n` of scratch row `y`
is byte `i % BPP` of element `i / BPP`. -/
def memcpyToRow (BPP : Nat) (d : Scratch) (y : Nat) (src : Mem) (soff n : Nat) : Scratch :=
  fun q b =>
    if q.1 = y ∧ b < BPP ∧ q.2 * BPP + b < n then src (soff + (q.2 * BPP + b)) else d q b

/-- The call `memcpy(dst + doff, d[y] + k, n)`: reads `n` bytes starting at
element `k` of scratch row `y`. -/
def memcpyFromRow (BPP : Nat) (dst : Mem) (doff : Nat) (d : Scratch) (y k n : Nat) : Mem :=
  fun a =>
    if doff ≤ a ∧ a < doff + n then d (y, k + (a - doff) / BPP) ((a - doff) % BPP) else dst a

/-- Assignment `d[p] = v` to one scratch element. -/
def setCell (d : Scratch) (p : Nat × Nat) (v : T) : Scratch :=
  fun q => if q = p then v else d q

/-- `ChainSwap2(a, b)` on two references into the scratch tile:
`t = a; a = b; b = t`. -/
def ChainSwap2 (d : Scratch) (a b : Nat × Nat) : Scratch :=
  let t := d a
  let d1 := setCell d a (d b)
  setCell d1 b t

/-- `ChainSwap4(a, b, c, e)` on four references into the scratch tile:
`t = a; a = b; b = c; c = e; e = t`. -/
def ChainSwap4 (d : Scratch) (a b c e : Nat × Nat) : Scratch :=
  let t := d a
  let d1 := setCell d a (d b)
  let d2 := setCell d1 b (d1 c)
  let d3 := setCell d2 c (d2 e)
  setCell d3 e t

/-- The mutable state of a tiled kernel: scratch tile and destination buffer. -/
structure TileState where
  d : Scratch
  out : Mem

/-- First loop of every tiled kernel: copy the `xspan × yspan` source
sub-rectangle at `(xin, yin)` into the scratch rows. -/
def loadTile (BPP : Nat) (img_in : ImageView) (xin yin xspan yspan : Nat) (d : Scratch) : Scratch :=
  forLoop 0 yspan 1 (fun y d =>
    memcpyToRow BPP d y img_in.data (rowPtr img_in (yin + y) + xin * BPP) (xspan * BPP)) d

/-! ## Row-wise kernels -/

/-- `PitchedImageCopy`. -/
def PitchedImageCopy (img_out img_in : ImageView) (bytes_per_pixel : Nat) :
    Except KernelError ImageView :=
  if imageSize img_out ≠ imageSize img_in then
    Except.error KernelError.incompatibleImageSizes
  else
    Except.ok { img_out with
      data := forLoop 0 img_out.height 1 (fun y o =>
        memcpy o (rowPtr img_out y) img_in.data (rowPtr img_in y)
          (bytes_per_pixel * img_in.width)) img_out.data }

/-- `FlipY`. -/
def FlipY (img_out img_in : ImageView) (bytes_per_pixel : Nat) :
    Except KernelError ImageView :=
  if imageSize img_out ≠ imageSize img_in then
    Except.error KernelError.incompatibleImageSizes
  else
    Except.ok { img_out with
      data := forLoop 0 img_out.height 1 (fun y_out o =>
        let y_in := (img_in.height - 1) - y_out
        memcpy o (rowPtr img_out y_out) img_in.data (rowPtr img_in y_in)
          (bytes_per_pixel * img_in.width)) img_out.data }

/-! ## Tiled kernels

Each kernel is split into the in-scratch permutation (second loop nest of
the tile body), the tile body, and the two loops over tile origins. -/

/-- Second loop nest of `TiledFlipX`: reverse every scratch row. -/
def TiledFlipX_permute (TSZ : Nat) (d : Scratch) : Scratch :=
  forLoop 0 TSZ 1 (fun y d =>
    forLoop 0 (TSZ / 2) 1 (fun x d => ChainSwap2 d (y, x) (y, TSZ - 1 - x)) d) d

/-- Body of the tile loops of `TiledFlipX` for the tile at `(xin, yin)`. -/
def TiledFlipX_tile (BPP TSZ : Nat) (img_out img_in : ImageView) (xin yin : Nat)
    (st : TileState) : TileState :=
  let w := img_in.width
  let h := img_in.height
  let xspan := min TSZ (w - xin)
  let yspan := min TSZ (h - yin)
  let xout := usub (usub w xin) TSZ
  let yout := yin
  let d1 := loadTile BPP img_in xin yin xspan yspan st.d
  let d2 := TiledFlipX_permute TSZ d1
  let o := forLoop 0 yspan 1 (fun y o =>
    memcpyFromRow BPP o
      (rowPtr img_out (yout + y) + umul (usub (uadd xout TSZ) xspan) BPP)
      d2 y (TSZ - xspan) (xspan * BPP)) st.out
  { d := d2, out := o }

/-- `TiledFlipX<BPP, TSZ>`. -/
def TiledFlipX (BPP TSZ : Nat) (d0 : Scratch) (img_out img_in : ImageView) : ImageView :=
  let w := img_in.width
  let h := img_in.height
  let st := forLoop 0 w TSZ (fun xin st =>
    forLoop 0 h TSZ (fun yin st => TiledFlipX_tile BPP TSZ img_out img_in xin yin st) st)
    { d := d0, out := img_out.data }
  { img_out with data := st.out }

/-- Second loop nest of `TiledRotate180`: swap each element of the upper half
with its point reflection. -/
def TiledRotate180_permute (TSZ : Nat) (d : Scratch) : Scratch :=
  forLoop 0 (TSZ / 2) 1 (fun y d =>
    forLoop 0 TSZ 1 (fun x d => ChainSwap2 d (y, x) (TSZ - 1 - y, TSZ - 1 - x)) d) d

/-- Body of the tile loops of `TiledRotate180` for the tile at `(xin, yin)`. -/
def TiledRotate180_tile (BPP TSZ : Nat) (img_out img_in : ImageView) (xin yin : Nat)
    (st : TileState) : TileState :=
  let w := img_in.width
  let h := img_in.height
  let xspan := min TSZ (w - xin)
  let yspan := min TSZ (h - yin)
  let xout := usub (usub w xin) TSZ
  let yout := usub (usub h yin) TSZ
  let d1 := loadTile BPP img_in xin yin xspan yspan st.d
  let d2 := TiledRotate180_permute TSZ d1
  let o := forLoop (TSZ - yspan) TSZ 1 (fun y o =>
    memcpyFromRow BPP o
      (rowPtr img_out (uadd yout y) + umul (usub (uadd xout TSZ) xspan) BPP)
      d2 y (TSZ - xspan) (xspan * BPP)) st.out
  { d := d2, out := o }

/-- `TiledRotate180<BPP, TSZ>`. -/
def TiledRotate180 (BPP TSZ : Nat) (d0 : Scratch) (img_out img_in : ImageView) : ImageView :=
  let w := img_in.width
  let h := img_in.height
  let st := forLoop 0 w TSZ (fun xin st =>
    forLoop 0 h TSZ (fun yin st => TiledRotate180_tile BPP TSZ img_out img_in xin yin st) st)
    { d := d0, out := img_out.data }
  { img_out with data := st.out }

/-- Second loop nest of `TiledTranspose`: swap across the diagonal. -/
def TiledTranspose_permute (dmin dmax : Nat) (d : Scratch) : Scratch :=
  forLoop 0 dmin 1 (fun x d =>
    forLoop (x + 1) dmax 1 (fun y d => ChainSwap2 d (x, y) (y, x)) d) d

/-- Body of the tile loops of `TiledTranspose` for the tile at `(xin, yin)`. -/
def TiledTranspose_tile (BPP TSZ : Nat) (img_out img_in : ImageView) (xin yin : Nat)
    (st : TileState) : TileState :=
  let w := img_in.width
  let h := img_in.height
  let xspan := min TSZ (w - xin)
  let yspan := min TSZ (h - yin)
  let dmin := min xspan yspan
  let dmax := max xspan yspan
  let xout := yin
  let yout := xin
  let d1 := loadTile BPP img_in xin yin xspan yspan st.d
  let d2 := TiledTranspose_permute dmin dmax d1
  let o := forLoop 0 xspan 1 (fun y o =>
    memcpyFromRow BPP o (rowPtr img_out (yout + y) + xout * BPP)
      d2 y 0 (yspan * BPP)) st.out
  { d := d2, out := o }

/-- `TiledTranspose<BPP, TSZ>`. -/
def TiledTranspose (BPP TSZ : Nat) (d0 : Scratch) (img_out img_in : ImageView) : ImageView :=
  let w := img_in.width
  let h := img_in.height
  let st := forLoop 0 w TSZ (fun xin st =>
    forLoop 0 h TSZ (fun yin st => TiledTranspose_tile BPP TSZ img_out img_in xin yin st) st)
    { d := d0, out := img_out.data }
  { img_out with data := st.out }

/-- Second loop nest of `TiledRotateCW`: one four-cycle per element of the
top-left quadrant. -/
def TiledRotateCW_permute (TSZ : Nat) (d : Scratch) : Scratch :=
  forLoop 0 (TSZ / 2) 1 (fun y d =>
    forLoop 0 (TSZ / 2) 1 (fun x d =>
      ChainSwap4 d (TSZ - 1 - x, y) (TSZ - 1 - y, TSZ - 1 - x) (x, TSZ - 1 - y) (y, x)) d) d

/-- Body of the tile loops of `TiledRotateCW` for the tile at `(xin, yin)`. -/
def TiledRotateCW_tile (BPP TSZ : Nat) (img_out img_in : ImageView) (xin yin : Nat)
    (st : TileState) : TileState :=
  let w := img_in.width
  let h := img_in.height
  let xspan := min TSZ (w - xin)
  let yspan := min TSZ (h - yin)
  let xout := usub (usub h yin) TSZ
  let yout := xin
  let d1 := loadTile BPP img_in xin yin xspan yspan st.d
  let d2 := TiledRotateCW_permute TSZ d1
  let o := forLoop 0 xspan 1 (fun y o =>
    memcpyFromRow BPP o
      (rowPtr img_out (yout + y) + umul (usub (uadd xout TSZ) yspan) BPP)
      d2 y (TSZ - yspan) (yspan * BPP)) st.out
  { d := d2, out := o }

/-- `TiledRotateCW<BPP, TSZ>`. -/
def TiledRotateCW (BPP TSZ : Nat) (d0 : Scratch) (img_out img_in : ImageView) : ImageView :=
  let w := img_in.width
  let h := img_in.height
  let st := forLoop 0 w TSZ (fun xin st =>
    forLoop 0 h TSZ (fun yin st => TiledRotateCW_tile BPP TSZ img_out img_in xin yin st) st)
    { d := d0, out := img_out.data }
  { img_out with data := st.out }

/-- Second loop nest of `TiledRotateCCW`: the mirror four-cycle. -/
def TiledRotateCCW_permute (TSZ : Nat) (d : Scratch) : Scratch :=
  forLoop 0 (TSZ / 2) 1 (fun y d =>
    forLoop 0 (TSZ / 2) 1 (fun x d =>
      ChainSwap4 d (y, x) (x, TSZ - 1 - y) (TSZ - 1 - y, TSZ - 1 - x) (TSZ - 1 - x, y)) d) d

/-- Body of the tile loops of `TiledRotateCCW` for the tile at `(xin, yin)`. -/
def TiledRotateCCW_tile (BPP TSZ : Nat) (img_out img_in : ImageView) (xin yin : Nat)
    (st : TileState) : TileState :=
  let w := img_in.width
  let h := img_in.height
  let xspan := min TSZ (w - xin)
  let yspan := min TSZ (h - yin)
  let xout := yin
  let yout := usub (usub w xin) TSZ
  let d1 := loadTile BPP img_in xin yin xspan yspan st.d
  let d2 := TiledRotateCCW_permute TSZ d1
  let o := forLoop (TSZ - xspan) TSZ 1 (fun y o =>
    memcpyFromRow BPP o (rowPtr img_out (uadd yout y) + xout * BPP)
      d2 y 0 (yspan * BPP)) st.out
  { d := d2, out := o }

/-- `TiledRotateCCW<BPP, TSZ>`. -/
def TiledRotateCCW (BPP TSZ : Nat) (d0 : Scratch) (img_out img_in : ImageView) : ImageView :=
  let w := img_in.width
  let h := img_in.height
  let st := forLoop 0 w TSZ (fun xin st =>
    forLoop 0 h TSZ (fun yin st => TiledRotateCCW_tile BPP TSZ img_out img_in xin yin st) st)
    { d := d0, out := img_out.data }
  { img_out with data := st.out }

/-! ## Generic nested-loop branches -/

/-- The `else` branch of `FlipX`. -/
def FlipXGeneric (img_out img_in : ImageView) (bytes_per_pixel : Nat) : ImageView :=
  { img_out with
    data := forLoop 0 img_out.height 1 (fun y o =>
      forLoop 0 img_out.width 1 (fun x o =>
        memcpy o (rowPtr img_out y + (img_out.width - 1 - x) * bytes_per_pixel)
          img_in.data (rowPtr img_in y + x * bytes_per_pixel) bytes_per_pixel) o)
      img_out.data }

/-- The `else` branch of `FlipXY`. -/
def FlipXYGeneric (img_out img_in : ImageView) (bytes_per_pixel : Nat) : ImageView :=
  { img_out with
    data := forLoop 0 img_out.height 1 (fun y_out o =>
      forLoop 0 img_out.width 1 (fun x o =>
        let y_in := (img_in.height - 1) - y_out
        memcpy o (rowPtr img_out y_out + (img_out.width - 1 - x) * bytes_per_pixel)
          img_in.data (rowPtr img_in y_in + x * bytes_per_pixel) bytes_per_pixel) o)
      img_out.data }

/-- The `else` branch of `RotateCW`. -/
def RotateCWGeneric (img_out img_in : ImageView) (bytes_per_pixel : Nat) : ImageView :=
  { img_out with
    data := forLoop 0 img_out.height 1 (fun yout o =>
      forLoop 0 img_out.width 1 (fun xout o =>
        let xin := yout
        let yin := img_out.width - 1 - xout
        memcpy o (rowPtr img_out yout + xout * bytes_per_pixel)
          img_in.data (rowPtr img_in yin + xin * bytes_per_pixel) bytes_per_pixel) o)
      img_out.data }

/-- The `else` branch of `Transpose`. -/
def TransposeGeneric (img_out img_in : ImageView) (bytes_per_pixel : Nat) : ImageView :=
  { img_out with
    data := forLoop 0 img_out.height 1 (fun yout o =>
      forLoop 0 img_out.width 1 (fun xout o =>
        let xin := yout
        let yin := xout
        memcpy o (rowPtr img_out yout + xout * bytes_per_pixel)
          img_in.data (rowPtr img_in yin + xin * bytes_per_pixel) bytes_per_pixel) o)
      img_out.data }

/-- The `else` branch of `RotateCCW`. -/
def RotateCCWGeneric (img_out img_in : ImageView) (bytes_per_pixel : Nat) : ImageView :=
  { img_out with
    data := forLoop 0 img_out.height 1 (fun yout o =>
      forLoop 0 img_out.width 1 (fun xout o =>
        let xin := img_out.height - 1 - yout
        let yin := xout
        memcpy o (rowPtr img_out yout + xout * bytes_per_pixel)
          img_in.data (rowPtr img_in yin + xin * bytes_per_pixel) bytes_per_pixel) o)
      img_out.data }

/-! ## Dispatch on bytes per pixel -/

/-- `FlipX`. -/
def FlipX (d0 : Scratch) (img_out img_in : ImageView) (bytes_per_pixel : Nat) : ImageView :=
  if bytes_per_pixel = 1 then TiledFlipX 1 160 d0 img_out img_in
  else if bytes_per_pixel = 2 then TiledFlipX 2 120 d0 img_out img_in
  else if bytes_per_pixel = 3 then TiledFlipX 3 80 d0 img_out img_in
  else if bytes_per_pixel = 4 then TiledFlipX 4 80 d0 img_out img_in
  else if bytes_per_pixel = 6 then TiledFlipX 6 64 d0 img_out img_in
  else FlipXGeneric img_out img_in bytes_per_pixel

/-- `FlipXY`. -/
def FlipXY (d0 : Scratch) (img_out img_in : ImageView) (bytes_per_pixel : Nat) : ImageView :=
  if bytes_per_pixel = 1 then TiledRotate180 1 160 d0 img_out img_in
  else if bytes_per_pixel = 2 then TiledRotate180 2 120 d0 img_out img_in
  else if bytes_per_pixel = 3 then TiledRotate180 3 80 d0 img_out img_in
  else if bytes_per_pixel = 4 then TiledRotate180 4 80 d0 img_out img_in
  else if bytes_per_pixel = 6 then TiledRotate180 6 64 d0 img_out img_in
  else FlipXYGeneric img_out img_in bytes_per_pixel

/-- `RotateCW`. -/
def RotateCW (d0 : Scratch) (img_out img_in : ImageView) (bytes_per_pixel : Nat) : ImageView :=
  if bytes_per_pixel = 1 then TiledRotateCW 1 160 d0 img_out img_in
  else if bytes_per_pixel = 2 then TiledRotateCW 2 120 d0 img_out img_in
  else if bytes_per_pixel = 3 then TiledRotateCW 3 80 d0 img_out img_in
  else if bytes_per_pixel = 4 then TiledRotateCW 4 80 d0 img_out img_in
  else if bytes_per_pixel = 6 then TiledRotateCW 6 64 d0 img_out img_in
  else RotateCWGeneric img_out img_in bytes_per_pixel

/-- `Transpose`. -/
def Transpose (d0 : Scratch) (img_out img_in : ImageView) (bytes_per_pixel : Nat) : ImageView :=
  if bytes_per_pixel = 1 then TiledTranspose 1 160 d0 img_out img_in
  else if bytes_per_pixel = 2 then TiledTranspose 2 120 d0 img_out img_in
  else if bytes_per_pixel = 3 then TiledTranspose 3 80 d0 img_out img_in
  else if bytes_per_pixel = 4 then TiledTranspose 4 80 d0 img_out img_in
  else if bytes_per_pixel = 6 then TiledTranspose 6 64 d0 img_out img_in
  else TransposeGeneric img_out img_in bytes_per_pixel

/-- `RotateCCW`. -/
def RotateCCW (d0 : Scratch) (img_out img_in : ImageView) (bytes_per_pixel : Nat) : ImageView :=
  if bytes_per_pixel = 1 then TiledRotateCCW 1 160 d0 img_out img_in
  else if bytes_per_pixel = 2 then TiledRotateCCW 2 120 d0 img_out img_in
  else if bytes_per_pixel = 3 then TiledRotateCCW 3 80 d0 img_out img_in
  else if bytes_per_pixel = 4 then TiledRotateCCW 4 80 d0 img_out img_in
  else if bytes_per_pixel = 6 then TiledRotateCCW 6 64 d0 img_out img_in
  else RotateCCWGeneric img_out img_in bytes_per_pixel

/-! ## Observation helpers -/

/-- The template instantiations used by the dispatchers, as (BPP, TSZ). -/
def tileTable : List (Nat × Nat) := [(1, 160), (2, 120), (3, 80), (4, 80), (6, 64)]

/-- Byte `b` of the pixel at row `r`, column `c` of a view with `bpp` bytes per pixel. -/
def pixelByte (img : ImageView) (bpp r c b : Nat) : Nat :=
  img.data (rowPtr img r + c * bpp + b)

/-- The pixel rows of a view as lists of bytes (row padding excluded). -/
def pixelRows (img : ImageView) (bpp : Nat) : List (List Nat) :=
  (List.range img.height).map fun r =>
    (List.range (img.width * bpp)).map fun k => img.data (rowPtr img r + k)

/-- An image view over the bytes of a list, rows packed at the given pitch. -/
def imageOfList (bytes : List Nat) (width height pitch : Nat) : ImageView :=
  { data := fun a => bytes.getD a 0, width := width, height := height, pitch := pitch }

/-- The fields of a view are `size_t` values: the kernels read width and
height into `size_t` variables and the pitch is a byte count. -/
def Representable (img : ImageView) : Prop :=
  img.width < SIZE_MOD ∧ img.height < SIZE_MOD ∧ img.pitch < SIZE_MOD

instance instDecidableRepresentable (img : ImageView) : Decidable (Representable img) :=
  inferInstanceAs (Decidable (_ ∧ _ ∧ _))

/-- A valid destination for `bpp`-byte pixels: rows do not overlap. -/
def ValidPitch (img : ImageView) (bpp : Nat) : Prop :=
  img.width * bpp ≤ img.pitch

instance instDecidableValidPitch (img : ImageView) (bpp : Nat) :
    Decidable (ValidPitch img bpp) :=
  inferInstanceAs (Decidable (_ ≤ _))

/-- The 4 × 2 single-byte example image with rows `[1,2,3,4]` and `[5,6,7,8]`. -/
def exampleImage : ImageView := imageOfList [1, 2, 3, 4, 5, 6, 7, 8] 4 2 4

/-- A destination of the example's shape (4 wide, 2 high) over the given buffer. -/
def exampleOutSame (o : Mem) : ImageView := { data := o, width := 4, height := 2, pitch := 4 }

/-- A destination of the swapped shape (2 wide, 4 high) over the given buffer. -/
def exampleOutSwapped (o : Mem) : ImageView := { data := o, width := 2, height := 4, pitch := 2 }

/-- A scratch tile filled with zero bytes. -/
def zeroScratch : Scratch := fun _ _ => 0

/-- A buffer filled with zero bytes. -/
def zeroMem : Mem := fun _ => 0

/-! ## Stream descriptors and the wrapped video interface

`StreamInfo`, `ImageShape`, the pixel format, and `VideoInterface` are
declared outside `transform.cpp`; they are modelled by the fields and
operations that `transform.cpp` uses. -/

/-- The values of `enum class TransformOptions`: the seven named enumerators,
and any other value the underlying integer can hold. -/
inductive TransformOptions where
  | None
  | FlipX
  | FlipY
  | FlipXY
  | Transpose
  | RotateCW
  | RotateCCW
  | other (value : Nat)
  deriving DecidableEq, Repr

/-- One of the seven named enumerators. -/
def TransformOptions.isNamed : TransformOptions → Bool
  | TransformOptions.other _ => false
  | _ => true

/-- A pixel format, of which the driver uses only `bytesPerPixel()`. -/
structure PixelFormat where
  bytesPerPixel : Nat
  deriving DecidableEq, Repr

/-- `ImageShape{width, height, pitch_bytes}`. -/
structure ImageShape where
  width : Nat
  height : Nat
  pitchBytes : Nat
  deriving DecidableEq, Repr

/-- `StreamInfo(format, shape, offset_bytes)`. -/
structure StreamInfo where
  format : PixelFormat
  shape : ImageShape
  offsetBytes : Nat
  deriving DecidableEq, Repr

/-- `StreamInfo::StreamImage(buffer)`: the view of this stream inside a frame buffer. -/
def StreamInfo.StreamImage (s : StreamInfo) (buffer : Mem) : ImageView :=
  { data := fun a => buffer (s.offsetBytes + a)
    width := s.shape.width
    height := s.shape.height
    pitch := s.shape.pitchBytes }

/-- The frame buffer after a kernel has written through the stream's view:
the view aliases the buffer from the stream's offset onward. -/
def StreamInfo.writeThrough (s : StreamInfo) (buffer : Mem) (view : ImageView) : Mem :=
  fun a => if s.offsetBytes ≤ a then view.data (a - s.offsetBytes) else buffer a

/-- The wrapped `VideoInterface`, by the operations the driver calls on it.
A grab receives the buffer to fill and the wait flag and returns its result
together with the buffer afterwards. -/
structure VideoInterface where
  Streams : List StreamInfo
  SizeBytes : Nat
  GrabNext : Mem → Bool → Bool × Mem
  GrabNewest : Mem → Bool → Bool × Mem

/-- What a thrown exception carries. -/
inductive ThrownError where
  | videoException
  | runtimeError (e : KernelError)
  deriving DecidableEq, Repr

/-- Result of a driver operation: normal completion, a thrown exception, or
undefined behaviour (an out-of-range `operator[]` on a vector). -/
inductive Outcome (α : Type) where
  | ok (a : α)
  | thrown (e : ThrownError)
  | undefined

/-- Sequencing: later statements run only after normal completion. -/
def Outcome.bind {α β : Type} (x : Outcome α) (f : α → Outcome β) : Outcome β :=
  match x with
  | Outcome.ok a => f a
  | Outcome.thrown e => Outcome.thrown e
  | Outcome.undefined => Outcome.undefined

/-- A kernel's `std::runtime_error` as a thrown exception. -/
def Outcome.ofExcept {α : Type} (x : Except KernelError α) : Outcome α :=
  match x with
  | Except.ok a => Outcome.ok a
  | Except.error e => Outcome.thrown (ThrownError.runtimeError e)

/-- Whether the operation ended in a thrown exception. -/
def Outcome.isThrown {α : Type} : Outcome α → Bool
  | Outcome.thrown _ => true
  | _ => false

/-! ## TransformVideo -/

/-- The members of `TransformVideo` that the modelled operations use. -/
structure TransformVideo where
  videoin : VideoInterface
  flips : List TransformOptions
  streams : List StreamInfo
  size_bytes : Nat
  buffer : Mem

/-- What the constructor's `switch (flips[i])` appends to `streams` for child
descriptor `s`: the descriptor itself, a descriptor with width and height
exchanged (pitch, format and offset taken over), or nothing when no case matches. -/
def TransformVideo_switch (s : StreamInfo) : TransformOptions → List StreamInfo
  | TransformOptions.FlipX => [s]
  | TransformOptions.FlipY => [s]
  | TransformOptions.FlipXY => [s]
  | TransformOptions.None => [s]
  | TransformOptions.Transpose =>
    [{ format := s.format
       shape := { width := s.shape.height, height := s.shape.width,
                  pitchBytes := s.shape.pitchBytes }
       offsetBytes := s.offsetBytes }]
  | TransformOptions.RotateCW =>
    [{ format := s.format
       shape := { width := s.shape.height, height := s.shape.width,
                  pitchBytes := s.shape.pitchBytes }
       offsetBytes := s.offsetBytes }]
  | TransformOptions.RotateCCW =>
    [{ format := s.format
       shape := { width := s.shape.height, height := s.shape.width,
                  pitchBytes := s.shape.pitchBytes }
       offsetBytes := s.offsetBytes }]
  | TransformOptions.other _ => []

/-- One iteration of the constructor's loop over the child's streams. -/
def TransformVideo_ctorStep (videoin : VideoInterface) (flips : List TransformOptions)
    (i : Nat) (streams : Outcome (List StreamInfo)) : Outcome (List StreamInfo) :=
  streams.bind fun l =>
    match videoin.Streams[i]?, flips[i]? with
    | some s, some k => Outcome.ok (l ++ TransformVideo_switch s k)
    | _, _ => Outcome.undefined

/-- `TransformVideo::TransformVideo(src, flips)`.  A null `src` is `none`;
`buffer0` is the content of the freshly allocated `buffer`. -/
def TransformVideo_new (src : Option VideoInterface) (flips : List TransformOptions)
    (buffer0 : Mem) : Outcome TransformVideo :=
  match src with
  | none => Outcome.thrown ThrownError.videoException
  | some videoin =>
    (forLoop 0 videoin.Streams.length 1 (TransformVideo_ctorStep videoin flips)
      (Outcome.ok [])).bind fun streams =>
      Outcome.ok
        { videoin := videoin
          flips := flips
          streams := streams
          size_bytes := videoin.SizeBytes
          buffer := buffer0 }

/-- `TransformVideo::SizeBytes()`. -/
def TransformVideo.SizeBytes (tv : TransformVideo) : Nat := tv.size_bytes

/-- `TransformVideo::Streams()`. -/
def TransformVideo.Streams (tv : TransformVideo) : List StreamInfo := tv.streams

/-- The `switch (flips[s])` of `Process` on the two views of stream `s`. -/
def TransformVideo_dispatch (d0 : Scratch) (k : TransformOptions)
    (img_out img_in : ImageView) (bytes_per_pixel : Nat) : Outcome ImageView :=
  match k with
  | TransformOptions.FlipX => Outcome.ok (FlipX d0 img_out img_in bytes_per_pixel)
  | TransformOptions.FlipY => Outcome.ofExcept (FlipY img_out img_in bytes_per_pixel)
  | TransformOptions.FlipXY => Outcome.ok (FlipXY d0 img_out img_in bytes_per_pixel)
  | TransformOptions.RotateCW => Outcome.ok (RotateCW d0 img_out img_in bytes_per_pixel)
  | TransformOptions.RotateCCW => Outcome.ok (RotateCCW d0 img_out img_in bytes_per_pixel)
  | TransformOptions.Transpose => Outcome.ok (Transpose d0 img_out img_in bytes_per_pixel)
  | TransformOptions.None => Outcome.ofExcept (PitchedImageCopy img_out img_in bytes_per_pixel)
  | TransformOptions.other _ => Outcome.ok img_out

/-- Body of the loop of `Process` for stream index `s`. -/
def TransformVideo.ProcessStream (tv : TransformVideo) (d0 : Scratch) (s : Nat)
    (buffer_out buffer_in : Mem) : Outcome Mem :=
  match tv.Streams[s]?, tv.videoin.Streams[s]?, tv.flips[s]? with
  | some so, some si, some k =>
    let img_out := so.StreamImage buffer_out
    let img_in := si.StreamImage buffer_in
    let bytes_per_pixel := so.format.bytesPerPixel
    (TransformVideo_dispatch d0 k img_out img_in bytes_per_pixel).bind fun view =>
      Outcome.ok (so.writeThrough buffer_out view)
  | _, _, _ => Outcome.undefined

/-- `TransformVideo::Process(buffer_out, buffer_in)`; `d0 s` is the
uninitialised scratch tile of the kernel call for stream `s`. -/
def TransformVideo.Process (tv : TransformVideo) (d0 : Nat → Scratch)
    (buffer_out buffer_in : Mem) : Outcome Mem :=
  forLoop 0 tv.streams.length 1
    (fun s out => out.bind fun o => tv.ProcessStream (d0 s) s o buffer_in)
    (Outcome.ok buffer_out)

/-- What a grab leaves behind: the returned flag, the caller's image buffer
and the driver's own buffer. -/
structure GrabResult where
  ret : Bool
  image : Mem
  buffer : Mem

/-- `TransformVideo::GrabNext(image, wait)`. -/
def TransformVideo.GrabNext (tv : TransformVideo) (d0 : Nat → Scratch) (image : Mem)
    (wait : Bool) : Outcome GrabResult :=
  let r := tv.videoin.GrabNext tv.buffer wait
  if r.1 then
    (tv.Process d0 image r.2).bind fun out =>
      Outcome.ok { ret := true, image := out, buffer := r.2 }
  else
    Outcome.ok { ret := false, image := image, buffer := r.2 }

/-- `TransformVideo::GrabNewest(image, wait)`. -/
def TransformVideo.GrabNewest (tv : TransformVideo) (d0 : Nat → Scratch) (image : Mem)
    (wait : Bool) : Outcome GrabResult :=
  let r := tv.videoin.GrabNewest tv.buffer wait
  if r.1 then
    (tv.Process d0 image r.2).bind fun out =>
      Outcome.ok { ret := true, image := out, buffer := r.2 }
  else
    Outcome.ok { ret := false, image := image, buffer := r.2 }

/-! ## The transform factory -/

/-- `StringToMirrorOptionMap`. -/
def StringToMirrorOptionMap : List (String × TransformOptions) :=
  [("none", TransformOptions.None),
   ("transform", TransformOptions.None),
   ("mirror", TransformOptions.FlipX),
   ("flipx", TransformOptions.FlipX),
   ("flip", TransformOptions.FlipY),
   ("flipy", TransformOptions.FlipY),
   ("flipxy", TransformOptions.FlipXY),
   ("transpose", TransformOptions.Transpose),
   ("rotate", TransformOptions.RotateCW),
   ("rotatecw", TransformOptions.RotateCW),
   ("rotateccw", TransformOptions.RotateCCW)]

/-- The lookup with fallback that both `operator>>` and `Open` perform:
`find(name)`, and `TransformOptions::None` when the name is not a key. -/
def StringToMirrorOption (name : String) : TransformOptions :=
  match StringToMirrorOptionMap.lookup name with
  | some v => v
  | none => TransformOptions.None

/-- `std::isspace` in the default locale: the space and the control characters
9 to 13 (tab, line feed, vertical tab, form feed, carriage return). -/
def isspace (c : Char) : Bool := c.toNat = 32 || (9 ≤ c.toNat && c.toNat ≤ 13)

/-- The string read by `is >> str_mirror` from a stream holding the given
characters: leading whitespace is skipped and characters are taken up to the
next whitespace or the end of the stream.  It is empty when the stream holds
no token. -/
def istreamToken (stream : String) : String :=
  String.mk ((stream.data.dropWhile isspace).takeWhile fun c => !isspace c)

/-- `operator>>(std::istream&, TransformOptions&)` on a stream holding the
given characters: the value left in `mirror` is the kind of the first
whitespace-delimited token, and `TransformOptions::None` when that token is
not a key of the map. -/
def TransformOptions_extract (stream : String) : TransformOptions :=
  let str_mirror := istreamToken stream
  StringToMirrorOption str_mirror

/-- `TransformVideoFactory::Schemes()`: scheme names with their precedence. -/
def TransformVideoFactory_Schemes : List (String × Nat) :=
  [("transform", 10), ("mirror", 10), ("flip", 10),
   ("rotate", 10), ("transpose", 10), ("rotatecw", 10),
   ("rotateccw", 10), ("flipx", 10), ("flipy", 10),
   ("flipxy", 10)]

/-- A parsed descriptor: scheme, path, and ordered `key=value` parameters. -/
structure Uri where
  scheme : String
  url : String
  params : List (String × String)

/-- Modelled from the spec: `ParamReader::Get<TransformOptions>(key, default)`,
whose definition is not part of `transform.cpp`.  As the spec states for the
construction descriptor: a parameter carried by the descriptor whose value is
one of the recognised names overrides the default (the value is converted
with the stream extraction operator of `transform.cpp`); an unrecognised
value falls back to the default; a missing parameter gives the default. -/
def ParamReader_Get (uri : Uri) (key : String) (default_value : TransformOptions) :
    TransformOptions :=
  match uri.params.lookup key with
  | some value =>
    if (StringToMirrorOptionMap.lookup value).isSome then TransformOptions_extract value
    else default_value
  | none => default_value

/-- The key built by `ss << "stream" << i`. -/
def streamKey (i : Nat) : String := "stream" ++ toString i

/-- The `default_transform` computed by `Open` from the scheme. -/
def TransformVideoFactory_default (uri : Uri) : TransformOptions :=
  StringToMirrorOption uri.scheme

/-- The vector `transforms` built by `Open` for a child with `n` streams. -/
def TransformVideoFactory_transforms (uri : Uri) (n : Nat) : List TransformOptions :=
  let default_transform := TransformVideoFactory_default uri
  forLoop 0 n 1 (fun i transforms =>
    transforms ++ [ParamReader_Get uri (streamKey i) default_transform]) []

/-- `TransformVideoFactory::Open(uri)`, with the child resolver
`pangolin::OpenVideo` as a parameter. -/
def TransformVideoFactory_Open (OpenVideo : String → Outcome VideoInterface) (uri : Uri)
    (buffer0 : Mem) : Outcome TransformVideo :=
  (OpenVideo uri.url).bind fun subvid =>
    TransformVideo_new (some subvid)
      (TransformVideoFactory_transforms uri subvid.Streams.length) buffer0

/-! ## Example streams -/

/-- A child interface with the given streams and frame size, whose grabs
report `delivers` and leave `frame` in the buffer. -/
def exampleChild (streams : List StreamInfo) (sizeBytes : Nat) (delivers : Bool)
    (frame : Mem) : VideoInterface :=
  { Streams := streams
    SizeBytes := sizeBytes
    GrabNext := fun _ _ => (delivers, frame)
    GrabNewest := fun _ _ => (delivers, frame) }

/-- A single-byte stream 2 wide and 4 high with tight pitch 2, at offset 0. -/
def exampleTallStream : StreamInfo :=
  { format := { bytesPerPixel := 1 }
    shape := { width := 2, height := 4, pitchBytes := 2 }
    offsetBytes := 0 }

/-- A single-byte stream 4 wide and 2 high with tight pitch 4, at offset 0. -/
def exampleWideStream : StreamInfo :=
  { format := { bytesPerPixel := 1 }
    shape := { width := 4, height := 2, pitchBytes := 4 }
    offsetBytes := 0 }

/-- An 8-byte frame holding the bytes 1 to 8. -/
def exampleFrame : Mem := fun a => [1, 2, 3, 4, 5, 6, 7, 8].getD a 0

/-! ## Memory accesses of the tiled kernels

The tiled kernels touch memory only through `memcpy` and through the element
references handed to `ChainSwap2` and `ChainSwap4`. The definitions below walk
the same loops as the kernels and record each such access with the row, byte
column and scratch indices that the source computes for it. Every `size_t`
addition, subtraction and multiplication inside an index expression is taken
modulo `2 ^ 64`; the element offset `TSZ - xspan` added to the row pointer
`d[y]` is pointer arithmetic on a span that never exceeds `TSZ`. -/

/-- One memory access of a tiled kernel. `srcRead row col len` is the source
side of a `memcpy`: `len` bytes of source row `row` from byte column `col` on.
`dstWrite row col len` is the destination side of a `memcpy`: `len` bytes of
destination row `row` from byte column `col` on. `tileRun y x len` is the
scratch side of a `memcpy`: `len` bytes of row `d[y]` from element `x` on.
`tileRef y x` is the scratch element `d[y][x]` handed to a swap. -/
inductive Access where
  | srcRead (row col len : Nat)
  | dstWrite (row col len : Nat)
  | tileRun (y x len : Nat)
  | tileRef (y x : Nat)
  deriving DecidableEq, Repr

/-- An access stays inside its rectangle: a source read inside the `h` rows of
`w * BPP` bytes of the source, a destination write inside the `hout` rows of
`wout * BPP` bytes of the destination, and a scratch access inside the
`TSZ` rows of `TSZ` elements of `BPP` bytes of the tile. -/
def Access.inBounds (BPP TSZ w h wout hout : Nat) : Access → Prop
  | Access.srcRead row col len => row < h ∧ col + len ≤ w * BPP
  | Access.dstWrite row col len => row < hout ∧ col + len ≤ wout * BPP
  | Access.tileRun y x len => y < TSZ ∧ x * BPP + len ≤ TSZ * BPP
  | Access.tileRef y x => y < TSZ ∧ x < TSZ

instance Access.decInBounds (BPP TSZ w h wout hout : Nat) :
    (a : Access) → Decidable (a.inBounds BPP TSZ w h wout hout)
  | Access.srcRead row col len =>
      inferInstanceAs (Decidable (row < h ∧ col + len ≤ w * BPP))
  | Access.dstWrite row col len =>
      inferInstanceAs (Decidable (row < hout ∧ col + len ≤ wout * BPP))
  | Access.tileRun y x len =>
      inferInstanceAs (Decidable (y < TSZ ∧ x * BPP + len ≤ TSZ * BPP))
  | Access.tileRef y x => inferInstanceAs (Decidable (y < TSZ ∧ x < TSZ))

/-- Accesses of the first loop nest of every tiled kernel,
`memcpy(d[y], img_in.rowPtr(yin + y) + xin * BPP, xspan * BPP)` for `y < yspan`. -/
def loadTile_accesses (BPP xin yin xspan yspan : Nat) (log : List Access) : List Access :=
  forLoop 0 yspan 1 (fun y log =>
    log ++ [Access.srcRead (uadd yin y) (umul xin BPP) (umul xspan BPP),
      Access.tileRun y 0 (umul xspan BPP)]) log

/-- Accesses of the second loop nest of `TiledFlipX`. -/
def TiledFlipX_permute_accesses (TSZ : Nat) (log : List Access) : List Access :=
  forLoop 0 TSZ 1 (fun y log =>
    forLoop 0 (TSZ / 2) 1 (fun x log =>
      log ++ [Access.tileRef y x, Access.tileRef y (usub (usub TSZ 1) x)]) log) log

/-- Accesses of `TiledFlipX` in the tile at `(xin, yin)`. -/
def TiledFlipX_tile_accesses (BPP TSZ w h xin yin : Nat) (log : List Access) : List Access :=
  let xspan := min TSZ (usub w xin)
  let yspan := min TSZ (usub h yin)
  let xout := usub (usub w xin) TSZ
  let yout := yin
  let l1 := loadTile_accesses BPP xin yin xspan yspan log
  let l2 := TiledFlipX_permute_accesses TSZ l1
  forLoop 0 yspan 1 (fun y log =>
    log ++ [Access.dstWrite (uadd yout y) (umul (usub (uadd xout TSZ) xspan) BPP)
        (umul xspan BPP),
      Access.tileRun y (TSZ - xspan) (umul xspan BPP)]) l2

/-- Accesses of `TiledFlipX<BPP, TSZ>` on a source of the given shape. -/
def TiledFlipX_accesses (BPP TSZ : Nat) (img_in : ImageView) : List Access :=
  let w := img_in.width
  let h := img_in.height
  forLoop 0 w TSZ (fun xin log =>
    forLoop 0 h TSZ (fun yin log => TiledFlipX_tile_accesses BPP TSZ w h xin yin log) log) []

/-- Accesses of the second loop nest of `TiledRotate180`. -/
def TiledRotate180_permute_accesses (TSZ : Nat) (log : List Access) : List Access :=
  forLoop 0 (TSZ / 2) 1 (fun y log =>
    forLoop 0 TSZ 1 (fun x log =>
      log ++ [Access.tileRef y x,
        Access.tileRef (usub (usub TSZ 1) y) (usub (usub TSZ 1) x)]) log) log

/-- Accesses of `TiledRotate180` in the tile at `(xin, yin)`. -/
def TiledRotate180_tile_accesses (BPP TSZ w h xin yin : Nat) (log : List Access) :
    List Access :=
  let xspan := min TSZ (usub w xin)
  let yspan := min TSZ (usub h yin)
  let xout := usub (usub w xin) TSZ
  let yout := usub (usub h yin) TSZ
  let l1 := loadTile_accesses BPP xin yin xspan yspan log
  let l2 := TiledRotate180_permute_accesses TSZ l1
  forLoop (usub TSZ yspan) TSZ 1 (fun y log =>
    log ++ [Access.dstWrite (uadd yout y) (umul (usub (uadd xout TSZ) xspan) BPP)
        (umul xspan BPP),
      Access.tileRun y (TSZ - xspan) (umul xspan BPP)]) l2

/-- Accesses of `TiledRotate180<BPP, TSZ>` on a source of the given shape. -/
def TiledRotate180_accesses (BPP TSZ : Nat) (img_in : ImageView) : List Access :=
  let w := img_in.width
  let h := img_in.height
  forLoop 0 w TSZ (fun xin log =>
    forLoop 0 h TSZ (fun yin log =>
      TiledRotate180_tile_accesses BPP TSZ w h xin yin log) log) []

/-- Accesses of the second loop nest of `TiledTranspose`. -/
def TiledTranspose_permute_accesses (dmin dmax : Nat) (log : List Access) : List Access :=
  forLoop 0 dmin 1 (fun x log =>
    forLoop (x + 1) dmax 1 (fun y log =>
      log ++ [Access.tileRef x y, Access.tileRef y x]) log) log

/-- Accesses of `TiledTranspose` in the tile at `(xin, yin)`. -/
def TiledTranspose_tile_accesses (BPP TSZ w h xin yin : Nat) (log : List Access) :
    List Access :=
  let xspan := min TSZ (usub w xin)
  let yspan := min TSZ (usub h yin)
  let dmin := min xspan yspan
  let dmax := max xspan yspan
  let xout := yin
  let yout := xin
  let l1 := loadTile_accesses BPP xin yin xspan yspan log
  let l2 := TiledTranspose_permute_accesses dmin dmax l1
  forLoop 0 xspan 1 (fun y log =>
    log ++ [Access.dstWrite (uadd yout y) (umul xout BPP) (umul yspan BPP),
      Access.tileRun y 0 (umul yspan BPP)]) l2

/-- Accesses of `TiledTranspose<BPP, TSZ>` on a source of the given shape. -/
def TiledTranspose_accesses (BPP TSZ : Nat) (img_in : ImageView) : List Access :=
  let w := img_in.width
  let h := img_in.height
  forLoop 0 w TSZ (fun xin log =>
    forLoop 0 h TSZ (fun yin log =>
      TiledTranspose_tile_accesses BPP TSZ w h xin yin log) log) []

/-- Accesses of the second loop nest of `TiledRotateCW`. -/
def TiledRotateCW_permute_accesses (TSZ : Nat) (log : List Access) : List Access :=
  forLoop 0 (TSZ / 2) 1 (fun y log =>
    forLoop 0 (TSZ / 2) 1 (fun x log =>
      log ++ [Access.tileRef (usub (usub TSZ 1) x) y,
        Access.tileRef (usub (usub TSZ 1) y) (usub (usub TSZ 1) x),
        Access.tileRef x (usub (usub TSZ 1) y),
        Access.tileRef y x]) log) log

/-- Accesses of `TiledRotateCW` in the tile at `(xin, yin)`. -/
def TiledRotateCW_tile_accesses (BPP TSZ w h xin yin : Nat) (log : List Access) :
    List Access :=
  let xspan := min TSZ (usub w xin)
  let yspan := min TSZ (usub h yin)
  let xout := usub (usub h yin) TSZ
  let yout := xin
  let l1 := loadTile_accesses BPP xin yin xspan yspan log
  let l2 := TiledRotateCW_permute_accesses TSZ l1
  forLoop 0 xspan 1 (fun y log =>
    log ++ [Access.dstWrite (uadd yout y) (umul (usub (uadd xout TSZ) yspan) BPP)
        (umul yspan BPP),
      Access.tileRun y (TSZ - yspan) (umul yspan BPP)]) l2

/-- Accesses of `TiledRotateCW<BPP, TSZ>` on a source of the given shape. -/
def TiledRotateCW_accesses (BPP TSZ : Nat) (img_in : ImageView) : List Access :=
  let w := img_in.width
  let h := img_in.height
  forLoop 0 w TSZ (fun xin log =>
    forLoop 0 h TSZ (fun yin log =>
      TiledRotateCW_tile_accesses BPP TSZ w h xin yin log) log) []

/-- Accesses of the second loop nest of `TiledRotateCCW`. -/
def TiledRotateCCW_permute_accesses (TSZ : Nat) (log : List Access) : List Access :=
  forLoop 0 (TSZ / 2) 1 (fun y log =>
    forLoop 0 (TSZ / 2) 1 (fun x log =>
      log ++ [Access.tileRef y x,
        Access.tileRef x (usub (usub TSZ 1) y),
        Access.tileRef (usub (usub TSZ 1) y) (usub (usub TSZ 1) x),
        Access.tileRef (usub (usub TSZ 1) x) y]) log) log

/-- Accesses of `TiledRotateCCW` in the tile at `(xin, yin)`. -/
def TiledRotateCCW_tile_accesses (BPP TSZ w h xin yin : Nat) (log : List Access) :
    List Access :=
  let xspan := min TSZ (usub w xin)
  let yspan := min TSZ (usub h yin)
  let xout := yin
  let yout := usub (usub w xin) TSZ
  let l1 := loadTile_accesses BPP xin yin xspan yspan log
  let l2 := TiledRotateCCW_permute_accesses TSZ l1
  forLoop (usub TSZ xspan) TSZ 1 (fun y log =>
    log ++ [Access.dstWrite (uadd yout y) (umul xout BPP) (umul yspan BPP),
      Access.tileRun y 0 (umul yspan BPP)]) l2

/-- Accesses of `TiledRotateCCW<BPP, TSZ>` on a source of the given shape. -/
def TiledRotateCCW_accesses (BPP TSZ : Nat) (img_in : ImageView) : List Access :=
  let w := img_in.width
  let h := img_in.height
  forLoop 0 w TSZ (fun xin log =>
    forLoop 0 h TSZ (fun yin log =>
      TiledRotateCCW_tile_accesses BPP TSZ w h xin yin log) log) []

/-! ## Loop rules -/

theorem forLoop_unfold {σ : Type} (lo hi step : Nat) (body : Nat → σ → σ) (s : σ) :
    forLoop lo hi step body s =
      if lo < hi ∧ 0 < step then forLoop (lo + step) hi step body (body lo s) else s := by
  rw [forLoop]
  split <;> rfl

/-- A property preserved by every iteration is preserved by the loop. -/
theorem forLoop_pres {σ : Type} (P : σ → Prop) (hi step : Nat) (body : Nat → σ → σ) :
    ∀ (n lo : Nat) (s : σ), hi - lo ≤ n →
      (∀ i s, lo ≤ i → i < hi → P s → P (body i s)) → P s →
      P (forLoop lo hi step body s)
  | 0, lo, s, hn, _, hs => by
      rw [forLoop_unfold, if_neg (by omega)]
      exact hs
  | n + 1, lo, s, hn, hp, hs => by
      rw [forLoop_unfold]
      split
      · next hc =>
        apply forLoop_pres P hi step body n
        · omega
        · intro i s' h1 h2
          exact hp i s' (by omega) h2
        · exact hp lo s (Nat.le_refl _) hc.1 hs
      · exact hs

/-- If iteration `lo + k * step` establishes a property and every iteration
preserves it, the loop establishes it. -/
theorem forLoop_hit {σ : Type} (P : σ → Prop) (hi step : Nat) (hstep : 0 < step)
    (body : Nat → σ → σ) :
    ∀ (k lo : Nat) (s : σ), lo + k * step < hi →
      (∀ i s, lo ≤ i → i < hi → P s → P (body i s)) →
      (∀ s, P (body (lo + k * step) s)) →
      P (forLoop lo hi step body s)
  | 0, lo, s, hk, hp, hh => by
      rw [forLoop_unfold, if_pos ⟨by omega, hstep⟩]
      apply forLoop_pres P hi step body (hi - (lo + step)) _ _ (Nat.le_refl _)
      · intro i s' h1 h2
        exact hp i s' (by omega) h2
      · simpa using hh s
  | k + 1, lo, s, hk, hp, hh => by
      have e : lo + (k + 1) * step = lo + step + k * step := by
        rw [Nat.add_mul, Nat.one_mul]; omega
      have hpos : 0 ≤ k * step := Nat.zero_le _
      rw [forLoop_unfold, if_pos ⟨by omega, hstep⟩]
      apply forLoop_hit P hi step hstep body k
      · omega
      · intro i s' h1 h2
        exact hp i s' (by omega) h2
      · intro s'
        rw [← e]
        exact hh s'

/-- Indexed invariant rule for unit-step loops. -/
theorem forLoop_inv {σ : Type} (I : Nat → σ → Prop) (hi : Nat) (body : Nat → σ → σ) :
    ∀ (n lo : Nat) (s : σ), hi - lo ≤ n → lo ≤ hi → I lo s →
      (∀ i s, lo ≤ i → i < hi → I i s → I (i + 1) (body i s)) →
      I hi (forLoop lo hi 1 body s)
  | 0, lo, s, hn, hle, hs, _ => by
      have e : lo = hi := by omega
      rw [forLoop_unfold, if_neg (by omega)]
      exact e ▸ hs
  | n + 1, lo, s, hn, hle, hs, hp => by
      rw [forLoop_unfold]
      split
      · next hc =>
        apply forLoop_inv I hi body n
        · omega
        · omega
        · exact hp lo s (Nat.le_refl _) hc.1 hs
        · intro i s' h1 h2
          exact hp i s' (by omega) h2
      · next hc =>
        have e : lo = hi := by omega
        exact e ▸ hs

/-- A unit-step loop in which exactly one iteration `i0` moves the observed
value `g'` into the observed slot `g`, and every other iteration leaves both
observations alone, ends with the old `g'` in `g`. -/
theorem forLoop_single {σ V : Type} (g g' : σ → V) (lo hi i0 : Nat)
    (body : Nat → σ → σ) (s : σ) (h1 : lo ≤ i0) (h2 : i0 < hi)
    (hother : ∀ i s, lo ≤ i → i < hi → i ≠ i0 →
      g (body i s) = g s ∧ g' (body i s) = g' s)
    (hat : ∀ s, g (body i0 s) = g' s) :
    g (forLoop lo hi 1 body s) = g' s := by
  have key := forLoop_inv
    (fun i t => (i ≤ i0 → g' t = g' s) ∧ (i0 < i → g t = g' s)) hi body
    (hi - lo) lo s (Nat.le_refl _) (by omega)
    ⟨fun _ => rfl, fun h => absurd h (by omega)⟩
    (by
      intro i t hi1 hi2 ht
      by_cases hi0 : i = i0
      · subst hi0
        refine ⟨fun h => absurd h (by omega), fun _ => ?_⟩
        rw [hat t]
        exact ht.1 (Nat.le_refl _)
      · have ho := hother i t hi1 hi2 hi0
        refine ⟨fun h => ?_, fun h => ?_⟩
        · rw [ho.2]
          exact ht.1 (by omega)
        · rw [ho.1]
          exact ht.2 (by omega))
  exact key.2 h2

/-- A unit-step loop none of whose iterations changes an observation leaves it unchanged. -/
theorem forLoop_keep {σ V : Type} (g : σ → V) (lo hi step : Nat)
    (body : Nat → σ → σ) (s : σ)
    (hkeep : ∀ i s, lo ≤ i → i < hi → g (body i s) = g s) :
    g (forLoop lo hi step body s) = g s :=
  forLoop_pres (fun t => g t = g s) hi step body (hi - lo) lo s (Nat.le_refl _)
    (fun i t h1 h2 ht => by show g (body i t) = g s; rw [hkeep i t h1 h2]; exact ht) rfl

/-- Loops whose bodies agree on the iterated range agree. -/
theorem forLoop_congr {σ : Type} (hi step : Nat) (body body' : Nat → σ → σ) :
    ∀ (n lo : Nat) (s : σ), hi - lo ≤ n →
      (∀ i s, lo ≤ i → i < hi → body i s = body' i s) →
      forLoop lo hi step body s = forLoop lo hi step body' s
  | 0, lo, s, hn, _ => by
      rw [forLoop_unfold, forLoop_unfold lo hi step body', if_neg (by omega), if_neg (by omega)]
  | n + 1, lo, s, hn, he => by
      rw [forLoop_unfold, forLoop_unfold lo hi step body']
      split
      · next hc =>
        rw [he lo s (Nat.le_refl _) hc.1]
        apply forLoop_congr hi step body body' n
        · omega
        · intro i s' h1 h2
          exact he i s' (by omega) h2
      · rfl

/-! ## Address arithmetic -/

/-- An offset `r * p + k` with `k` inside the row lies in the byte run
`[y * p + k0, y * p + k0 + len)` of row `y` exactly when the rows coincide
and `k` lies in the run. -/
theorem row_mem_iff (p r y k k0 len : Nat) (hk : k < p) (hlen : k0 + len ≤ p) :
    (y * p + k0 ≤ r * p + k ∧ r * p + k < y * p + k0 + len) ↔
      (r = y ∧ k0 ≤ k ∧ k < k0 + len) := by
  constructor
  · rintro ⟨h1, h2⟩
    have hr : r = y := by
      rcases Nat.lt_trichotomy r y with h | h | h
      · exfalso
        obtain ⟨t, rfl⟩ : ∃ t, y = r + 1 + t := ⟨y - (r + 1), by omega⟩
        have e : (r + 1 + t) * p = r * p + p + t * p := by ring
        rw [e] at h1
        omega
      · exact h
      · exfalso
        obtain ⟨t, rfl⟩ : ∃ t, r = y + 1 + t := ⟨r - (y + 1), by omega⟩
        have e : (y + 1 + t) * p = y * p + p + t * p := by ring
        rw [e] at h2
        omega
    subst hr
    omega
  · rintro ⟨rfl, h1, h2⟩
    omega

/-- Byte `b` of pixel `c` lies in the bytes of the pixel run `[x, x + n)`
exactly when `c` lies in the run. -/
theorem pix_mem_iff (bpp c x n b : Nat) (hb : b < bpp) :
    (x * bpp ≤ c * bpp + b ∧ c * bpp + b < x * bpp + n * bpp) ↔ (x ≤ c ∧ c < x + n) := by
  constructor
  · rintro ⟨h1, h2⟩
    constructor
    · by_contra hc
      obtain ⟨t, rfl⟩ : ∃ t, x = c + 1 + t := ⟨x - (c + 1), by omega⟩
      have e : (c + 1 + t) * bpp = c * bpp + bpp + t * bpp := by ring
      rw [e] at h1
      omega
    · by_contra hc
      obtain ⟨t, rfl⟩ : ∃ t, c = x + n + t := ⟨c - (x + n), by omega⟩
      have e : (x + n + t) * bpp = x * bpp + n * bpp + t * bpp := by ring
      rw [e] at h2
      omega
  · rintro ⟨h1, h2⟩
    obtain ⟨t, rfl⟩ : ∃ t, c = x + t := ⟨c - x, by omega⟩
    obtain ⟨u, rfl⟩ : ∃ u, n = t + 1 + u := ⟨n - (t + 1), by omega⟩
    have e1 : (x + t) * bpp = x * bpp + t * bpp := by ring
    have e2 : (t + 1 + u) * bpp = t * bpp + bpp + u * bpp := by ring
    rw [e1, e2]
    omega

theorem pix_lt (bpp c W b : Nat) (hc : c < W) (hb : b < bpp) : c * bpp + b < W * bpp := by
  have h := (pix_mem_iff bpp c 0 W b hb).2 ⟨Nat.zero_le _, by omega⟩
  omega

theorem pix_lt_iff (bpp c n b : Nat) (hb : b < bpp) : c * bpp + b < n * bpp ↔ c < n := by
  constructor
  · intro h
    have h2 := (pix_mem_iff bpp c 0 n b hb).1 ⟨by omega, by omega⟩
    omega
  · intro h
    exact pix_lt bpp c n b h hb

/-- A pixel-byte address lies in the bytes of the pixel run `[C, C + n)` of
row `R` exactly when it is a pixel of that run. -/
theorem run_mem_iff (p W bpp R C n r c b : Nat) (hp : W * bpp ≤ p) (hC : C + n ≤ W)
    (hc : c < W) (hb : b < bpp) :
    (R * p + C * bpp ≤ r * p + c * bpp + b ∧ r * p + c * bpp + b < R * p + C * bpp + n * bpp) ↔
      (r = R ∧ C ≤ c ∧ c < C + n) := by
  have hk : c * bpp + b < p := Nat.lt_of_lt_of_le (pix_lt bpp c W b hc hb) hp
  have hlen : C * bpp + n * bpp ≤ p := by
    have h1 : (C + n) * bpp ≤ W * bpp := Nat.mul_le_mul_right _ hC
    have h2 : (C + n) * bpp = C * bpp + n * bpp := by ring
    omega
  have h1 := row_mem_iff p r R (c * bpp + b) (C * bpp) (n * bpp) hk hlen
  have h2 := pix_mem_iff bpp c C n b hb
  constructor
  · intro h
    have h3 := h1.1 ⟨by omega, by omega⟩
    exact ⟨h3.1, h2.1 h3.2⟩
  · rintro ⟨hr, h⟩
    have h3 := h1.2 ⟨hr, h2.2 h⟩
    omega

/-- Offset of a pixel byte from the start of a run in its own row. -/
theorem run_offset (p bpp R C c b : Nat) (hC : C ≤ c) :
    R * p + c * bpp + b - (R * p + C * bpp) = (c - C) * bpp + b := by
  obtain ⟨t, rfl⟩ : ∃ t, c = C + t := ⟨c - C, by omega⟩
  have e : (C + t) * bpp = C * bpp + t * bpp := by ring
  rw [e, Nat.add_sub_cancel_left]
  omega

/-! ## Single copies observed at a pixel byte -/

theorem memcpy_pix (o src : Mem) (p W bpp R C n soff r c b : Nat) (hp : W * bpp ≤ p)
    (hC : C + n ≤ W) (hc : c < W) (hb : b < bpp) :
    memcpy o (R * p + C * bpp) src soff (n * bpp) (r * p + c * bpp + b) =
      if r = R ∧ C ≤ c ∧ c < C + n then src (soff + ((c - C) * bpp + b))
      else o (r * p + c * bpp + b) := by
  have hiff := run_mem_iff p W bpp R C n r c b hp hC hc hb
  unfold memcpy
  by_cases h : r = R ∧ C ≤ c ∧ c < C + n
  · rw [if_pos (hiff.2 h), if_pos h]
    obtain ⟨rfl, h1, _⟩ := h
    rw [run_offset p bpp r C c b h1]
  · rw [if_neg (fun h2 => h (hiff.1 h2)), if_neg h]

theorem memcpyFromRow_pix (o : Mem) (d : Scratch) (p W bpp R C n y k r c b : Nat)
    (hp : W * bpp ≤ p) (hC : C + n ≤ W) (hc : c < W) (hb : b < bpp) :
    memcpyFromRow bpp o (R * p + C * bpp) d y k (n * bpp) (r * p + c * bpp + b) =
      if r = R ∧ C ≤ c ∧ c < C + n then d (y, k + (c - C)) b
      else o (r * p + c * bpp + b) := by
  have hiff := run_mem_iff p W bpp R C n r c b hp hC hc hb
  unfold memcpyFromRow
  by_cases h : r = R ∧ C ≤ c ∧ c < C + n
  · rw [if_pos (hiff.2 h), if_pos h]
    obtain ⟨rfl, h1, _⟩ := h
    have hpos : 0 < bpp := by omega
    rw [run_offset p bpp r C c b h1, Nat.add_comm ((c - C) * bpp) b,
      Nat.add_mul_div_right _ _ hpos, Nat.add_mul_mod_self_right,
      Nat.div_eq_of_lt hb, Nat.mod_eq_of_lt hb, Nat.zero_add]
  · rw [if_neg (fun h2 => h (hiff.1 h2)), if_neg h]

theorem memcpyToRow_cell (BPP : Nat) (d : Scratch) (y : Nat) (src : Mem) (soff n : Nat)
    (q : Nat × Nat) (b : Nat) (hb : b < BPP) :
    memcpyToRow BPP d y src soff (n * BPP) q b =
      if q.1 = y ∧ q.2 < n then src (soff + (q.2 * BPP + b)) else d q b := by
  unfold memcpyToRow
  have h := pix_lt_iff BPP q.2 n b hb
  by_cases hq : q.1 = y ∧ q.2 < n
  · rw [if_pos ⟨hq.1, hb, h.2 hq.2⟩, if_pos hq]
  · rw [if_neg (fun h2 => hq ⟨h2.1, h.1 h2.2.2⟩), if_neg hq]

theorem memcpy_pix1 (o src : Mem) (p W bpp R C soff r c b : Nat) (hp : W * bpp ≤ p)
    (hC : C < W) (hc : c < W) (hb : b < bpp) :
    memcpy o (R * p + C * bpp) src soff bpp (r * p + c * bpp + b) =
      if r = R ∧ c = C then src (soff + b) else o (r * p + c * bpp + b) := by
  have h := memcpy_pix o src p W bpp R C 1 soff r c b hp (by omega) hc hb
  rw [Nat.one_mul] at h
  rw [h]
  by_cases hq : r = R ∧ c = C
  · obtain ⟨rfl, rfl⟩ := hq
    simp
  · rw [if_neg hq, if_neg (fun h2 => hq ⟨h2.1, by omega⟩)]

/-! ## Loops of copies observed at a pixel byte -/

/-- After the load loop, scratch element `(y, x)` inside the loaded
sub-rectangle holds source pixel `(yin + y, xin + x)`. -/
theorem loadTile_cell (BPP : Nat) (img_in : ImageView) (xin yin xspan yspan : Nat)
    (d : Scratch) (y x b : Nat) (hy : y < yspan) (hx : x < xspan) (hb : b < BPP) :
    loadTile BPP img_in xin yin xspan yspan d (y, x) b =
      img_in.data (rowPtr img_in (yin + y) + xin * BPP + (x * BPP + b)) := by
  unfold loadTile
  apply forLoop_hit
    (fun t : Scratch => t (y, x) b =
      img_in.data (rowPtr img_in (yin + y) + xin * BPP + (x * BPP + b)))
    yspan 1 Nat.one_pos _ y 0
  · omega
  · intro i t _ _ ht
    show memcpyToRow BPP t i img_in.data _ (xspan * BPP) (y, x) b = _
    rw [memcpyToRow_cell BPP t i img_in.data _ xspan (y, x) b hb]
    by_cases hq : y = i ∧ x < xspan
    · rw [if_pos hq, ← hq.1]
    · rw [if_neg hq]
      exact ht
  · intro t
    show memcpyToRow BPP t (0 + y * 1) img_in.data _ (xspan * BPP) (y, x) b = _
    rw [memcpyToRow_cell BPP t _ img_in.data _ xspan (y, x) b hb]
    have e : 0 + y * 1 = y := by omega
    rw [e, if_pos ⟨rfl, hx⟩]

/-- A store loop writing scratch rows `ylo .. yhi` to destination rows
`R0 ..`, pixel columns `C .. C + n`, observed at a destination pixel byte. -/
theorem storeRows_pix (BPP p W : Nat) (hp : W * BPP ≤ p) (d : Scratch)
    (ylo yhi R0 C k n : Nat) (hC : C + n ≤ W) (o0 : Mem) (r c b : Nat)
    (hc : c < W) (hb : b < BPP) :
    forLoop ylo yhi 1 (fun y o =>
        memcpyFromRow BPP o ((R0 + (y - ylo)) * p + C * BPP) d y k (n * BPP)) o0
        (r * p + c * BPP + b) =
      if R0 ≤ r ∧ r < R0 + (yhi - ylo) ∧ C ≤ c ∧ c < C + n then
        d (ylo + (r - R0), k + (c - C)) b
      else o0 (r * p + c * BPP + b) := by
  by_cases h : R0 ≤ r ∧ r < R0 + (yhi - ylo) ∧ C ≤ c ∧ c < C + n
  · rw [if_pos h]
    apply forLoop_hit
      (fun t : Mem => t (r * p + c * BPP + b) = d (ylo + (r - R0), k + (c - C)) b)
      yhi 1 Nat.one_pos _ (r - R0) ylo
    · omega
    · intro i t h1 h2 ht
      show memcpyFromRow BPP t _ d i k (n * BPP) _ = _
      rw [memcpyFromRow_pix t d p W BPP _ C n i k r c b hp hC hc hb]
      by_cases hq : r = R0 + (i - ylo) ∧ C ≤ c ∧ c < C + n
      · rw [if_pos hq]
        have e : i = ylo + (r - R0) := by omega
        rw [e]
      · rw [if_neg hq]
        exact ht
    · intro t
      show memcpyFromRow BPP t _ d _ k (n * BPP) _ = _
      rw [memcpyFromRow_pix t d p W BPP _ C n _ k r c b hp hC hc hb]
      have e : ylo + (r - R0) * 1 = ylo + (r - R0) := by omega
      rw [e, if_pos ⟨by omega, h.2.2⟩]
  · rw [if_neg h]
    apply forLoop_keep (fun t : Mem => t (r * p + c * BPP + b))
    intro i t h1 h2
    show memcpyFromRow BPP t _ d i k (n * BPP) _ = _
    rw [memcpyFromRow_pix t d p W BPP _ C n i k r c b hp hC hc hb]
    rw [if_neg (fun hq => h ⟨by omega, by omega, hq.2⟩)]

/-- The two loops over tile origins: if every tile preserves a settled
destination byte and the tile at `(kx * TSZ, ky * TSZ)` settles it, then the
byte is settled at the end. -/
theorem tileLoops_pix (tile : Nat → Nat → TileState → TileState) (w h TSZ : Nat)
    (hT : 0 < TSZ) (addr val : Nat)
    (hpres : ∀ xin yin st, xin < w → yin < h → st.out addr = val →
      (tile xin yin st).out addr = val)
    (kx ky : Nat) (hkx : kx * TSZ < w) (hky : ky * TSZ < h)
    (hhit : ∀ st, (tile (kx * TSZ) (ky * TSZ) st).out addr = val) (st0 : TileState) :
    (forLoop 0 w TSZ (fun xin st =>
      forLoop 0 h TSZ (fun yin st => tile xin yin st) st) st0).out addr = val := by
  apply forLoop_hit (fun t : TileState => t.out addr = val) w TSZ hT _ kx 0
  · omega
  · intro xin st _ hx hst
    exact forLoop_pres (fun t : TileState => t.out addr = val) h TSZ _ (h - 0) 0 st
      (Nat.le_refl _) (fun yin t _ hy ht => hpres xin yin t hx hy ht) hst
  · intro st
    apply forLoop_hit (fun t : TileState => t.out addr = val) h TSZ hT _ ky 0
    · omega
    · intro yin t _ hy ht
      exact hpres _ yin t (by omega) hy ht
    · intro t
      have e1 : 0 + kx * TSZ = kx * TSZ := by omega
      have e2 : 0 + ky * TSZ = ky * TSZ := by omega
      rw [e1, e2]
      exact hhit t

/-- The generic nested loop writing destination pixel `(y, g x)` from source
offset `sa y x`, observed at a destination pixel byte. -/
theorem pixelLoops_pix (p W H bpp : Nat) (hp : W * bpp ≤ p) (g : Nat → Nat)
    (hg : ∀ x, x < W → g x < W)
    (ginj : ∀ x x', x < W → x' < W → g x = g x' → x = x')
    (src : Mem) (sa : Nat → Nat → Nat) (o0 : Mem) (r x b : Nat)
    (hr : r < H) (hx : x < W) (hb : b < bpp) :
    forLoop 0 H 1 (fun y o =>
        forLoop 0 W 1 (fun x o => memcpy o (y * p + g x * bpp) src (sa y x) bpp) o) o0
        (r * p + g x * bpp + b) = src (sa r x + b) := by
  have hstep : ∀ (y x' : Nat) (t : Mem), x' < W →
      (t (r * p + g x * bpp + b) = src (sa r x + b)) →
      memcpy t (y * p + g x' * bpp) src (sa y x') bpp (r * p + g x * bpp + b) =
        src (sa r x + b) := by
    intro y x' t hx' ht
    rw [memcpy_pix1 t src p W bpp y (g x') (sa y x') r (g x) b hp (hg x' hx') (hg x hx) hb]
    by_cases hq : r = y ∧ g x = g x'
    · rw [if_pos hq]
      have e := ginj x x' hx hx' hq.2
      rw [← e, ← hq.1]
    · rw [if_neg hq]
      exact ht
  apply forLoop_hit (fun t : Mem => t (r * p + g x * bpp + b) = src (sa r x + b))
    H 1 Nat.one_pos _ r 0
  · omega
  · intro y t _ _ ht
    exact forLoop_pres (fun t : Mem => t (r * p + g x * bpp + b) = src (sa r x + b))
      W 1 _ (W - 0) 0 t (Nat.le_refl _) (fun x' u _ hx' hu => hstep y x' u hx' hu) ht
  · intro t
    apply forLoop_hit (fun t : Mem => t (r * p + g x * bpp + b) = src (sa r x + b))
      W 1 Nat.one_pos _ x 0
    · omega
    · intro x' u _ hx' hu
      exact hstep _ x' u hx' hu
    · intro u
      have e1 : 0 + r * 1 = r := by omega
      have e2 : 0 + x * 1 = x := by omega
      show memcpy u _ src _ bpp _ = _
      rw [e1, e2, memcpy_pix1 u src p W bpp r (g x) (sa r x) r (g x) b hp (hg x hx) (hg x hx) hb,
        if_pos ⟨rfl, rfl⟩]

/-! ## Generic branches observed at a destination pixel byte -/

theorem FlipXGeneric_pix (img_out img_in : ImageView) (bpp r c b : Nat)
    (hp : img_out.width * bpp ≤ img_out.pitch)
    (hr : r < img_out.height) (hc : c < img_out.width) (hb : b < bpp) :
    pixelByte (FlipXGeneric img_out img_in bpp) bpp r c b =
      pixelByte img_in bpp r (img_out.width - 1 - c) b := by
  have h := pixelLoops_pix img_out.pitch img_out.width img_out.height bpp hp
    (fun x => img_out.width - 1 - x) (fun x hx => by dsimp only; omega)
    (fun x x' hx hx' he => by dsimp only at he; omega) img_in.data
    (fun y x => rowPtr img_in y + x * bpp) img_out.data r (img_out.width - 1 - c) b hr
    (by omega) hb
  have e : img_out.width - 1 - (img_out.width - 1 - c) = c := by omega
  simp only [e] at h
  exact h

theorem FlipXYGeneric_pix (img_out img_in : ImageView) (bpp r c b : Nat)
    (hp : img_out.width * bpp ≤ img_out.pitch)
    (hr : r < img_out.height) (hc : c < img_out.width) (hb : b < bpp) :
    pixelByte (FlipXYGeneric img_out img_in bpp) bpp r c b =
      pixelByte img_in bpp (img_in.height - 1 - r) (img_out.width - 1 - c) b := by
  have h := pixelLoops_pix img_out.pitch img_out.width img_out.height bpp hp
    (fun x => img_out.width - 1 - x) (fun x hx => by dsimp only; omega)
    (fun x x' hx hx' he => by dsimp only at he; omega) img_in.data
    (fun y x => rowPtr img_in (img_in.height - 1 - y) + x * bpp) img_out.data r
    (img_out.width - 1 - c) b hr (by omega) hb
  have e : img_out.width - 1 - (img_out.width - 1 - c) = c := by omega
  simp only [e] at h
  exact h

theorem RotateCWGeneric_pix (img_out img_in : ImageView) (bpp r c b : Nat)
    (hp : img_out.width * bpp ≤ img_out.pitch)
    (hr : r < img_out.height) (hc : c < img_out.width) (hb : b < bpp) :
    pixelByte (RotateCWGeneric img_out img_in bpp) bpp r c b =
      pixelByte img_in bpp (img_out.width - 1 - c) r b :=
  pixelLoops_pix img_out.pitch img_out.width img_out.height bpp hp
    (fun x => x) (fun _ hx => hx) (fun _ _ _ _ he => he) img_in.data
    (fun y x => rowPtr img_in (img_out.width - 1 - x) + y * bpp) img_out.data r c b hr hc hb

theorem TransposeGeneric_pix (img_out img_in : ImageView) (bpp r c b : Nat)
    (hp : img_out.width * bpp ≤ img_out.pitch)
    (hr : r < img_out.height) (hc : c < img_out.width) (hb : b < bpp) :
    pixelByte (TransposeGeneric img_out img_in bpp) bpp r c b =
      pixelByte img_in bpp c r b :=
  pixelLoops_pix img_out.pitch img_out.width img_out.height bpp hp
    (fun x => x) (fun _ hx => hx) (fun _ _ _ _ he => he) img_in.data
    (fun y x => rowPtr img_in x + y * bpp) img_out.data r c b hr hc hb

theorem RotateCCWGeneric_pix (img_out img_in : ImageView) (bpp r c b : Nat)
    (hp : img_out.width * bpp ≤ img_out.pitch)
    (hr : r < img_out.height) (hc : c < img_out.width) (hb : b < bpp) :
    pixelByte (RotateCCWGeneric img_out img_in bpp) bpp r c b =
      pixelByte img_in bpp c (img_out.height - 1 - r) b :=
  pixelLoops_pix img_out.pitch img_out.width img_out.height bpp hp
    (fun x => x) (fun _ hx => hx) (fun _ _ _ _ he => he) img_in.data
    (fun y x => rowPtr img_in x + (img_out.height - 1 - y) * bpp) img_out.data r c b hr hc hb

/-! ## Element swaps -/

theorem ChainSwap2_other (d : Scratch) (a b q : Nat × Nat) (ha : q ≠ a) (hb : q ≠ b) :
    ChainSwap2 d a b q = d q := by
  simp only [ChainSwap2, setCell, if_neg ha, if_neg hb]

theorem ChainSwap2_fst (d : Scratch) (a b q : Nat × Nat) (hq : q = a) :
    ChainSwap2 d a b q = d b := by
  subst hq
  by_cases h : q = b
  · subst h
    simp [ChainSwap2, setCell]
  · simp [ChainSwap2, setCell, h]

theorem ChainSwap2_snd (d : Scratch) (a b q : Nat × Nat) (hq : q = b) :
    ChainSwap2 d a b q = d a := by
  subst hq
  simp only [ChainSwap2, setCell, if_pos]

theorem ChainSwap4_other (d : Scratch) (a b c e q : Nat × Nat) (ha : q ≠ a) (hb : q ≠ b)
    (hc : q ≠ c) (he : q ≠ e) : ChainSwap4 d a b c e q = d q := by
  simp only [ChainSwap4, setCell, if_neg ha, if_neg hb, if_neg hc, if_neg he]

theorem ChainSwap4_at_a (d : Scratch) (a b c e q : Nat × Nat) (hq : q = a) (hab : a ≠ b)
    (hac : a ≠ c) (hae : a ≠ e) : ChainSwap4 d a b c e q = d b := by
  subst hq
  simp only [ChainSwap4, setCell, if_neg hab, if_neg hac, if_neg hae, if_pos]

theorem ChainSwap4_at_b (d : Scratch) (a b c e q : Nat × Nat) (hq : q = b) (hac : a ≠ c)
    (hbc : b ≠ c) (hbe : b ≠ e) : ChainSwap4 d a b c e q = d c := by
  subst hq
  simp only [ChainSwap4, setCell, if_neg hbc, if_neg hbe, if_neg (Ne.symm hac), if_pos]

theorem ChainSwap4_at_c (d : Scratch) (a b c e q : Nat × Nat) (hq : q = c) (hae : a ≠ e)
    (hbe : b ≠ e) (hce : c ≠ e) : ChainSwap4 d a b c e q = d e := by
  subst hq
  simp only [ChainSwap4, setCell, if_neg hce, if_neg (Ne.symm hae), if_neg (Ne.symm hbe),
    if_pos]

theorem ChainSwap4_at_e (d : Scratch) (a b c e q : Nat × Nat) (hq : q = e) :
    ChainSwap4 d a b c e q = d a := by
  subst hq
  simp only [ChainSwap4, setCell, if_pos]

/-! ## Loop nests of element operations -/

/-- A loop nest of scratch operations in which exactly iteration `(y0, x0)`
moves element `q'` into `q`, and no other iteration touches either. -/
theorem nestedLoop_cell (op : Nat → Nat → Scratch → Scratch) (Y : Nat) (L U : Nat → Nat)
    (y0 x0 : Nat) (hy : y0 < Y) (hx1 : L y0 ≤ x0) (hx2 : x0 < U y0) (q q' : Nat × Nat)
    (hother : ∀ y x d, y < Y → L y ≤ x → x < U y → (y ≠ y0 ∨ x ≠ x0) →
      op y x d q = d q ∧ op y x d q' = d q')
    (hat : ∀ d, op y0 x0 d q = d q') (d : Scratch) :
    forLoop 0 Y 1 (fun y d => forLoop (L y) (U y) 1 (fun x d => op y x d) d) d q = d q' := by
  apply forLoop_single (fun t : Scratch => t q) (fun t : Scratch => t q') 0 Y y0 _ d
    (Nat.zero_le _) hy
  · intro y t _ hy2 hne
    constructor
    · exact forLoop_keep (fun t : Scratch => t q) (L y) (U y) 1 _ t
        (fun x u h1 h2 => (hother y x u hy2 h1 h2 (Or.inl hne)).1)
    · exact forLoop_keep (fun t : Scratch => t q') (L y) (U y) 1 _ t
        (fun x u h1 h2 => (hother y x u hy2 h1 h2 (Or.inl hne)).2)
  · intro t
    exact forLoop_single (fun t : Scratch => t q) (fun t : Scratch => t q') (L y0) (U y0) x0 _ t
      hx1 hx2 (fun x u h1 h2 hne => hother y0 x u hy h1 h2 (Or.inr hne)) hat

/-- A loop nest of scratch operations none of which touches element `q`. -/
theorem nestedLoop_keep (op : Nat → Nat → Scratch → Scratch) (Y : Nat) (L U : Nat → Nat)
    (q : Nat × Nat)
    (hkeep : ∀ y x d, y < Y → L y ≤ x → x < U y → op y x d q = d q) (d : Scratch) :
    forLoop 0 Y 1 (fun y d => forLoop (L y) (U y) 1 (fun x d => op y x d) d) d q = d q :=
  forLoop_keep (fun t : Scratch => t q) 0 Y 1 _ d (fun y t _ hy =>
    forLoop_keep (fun t : Scratch => t q) (L y) (U y) 1 _ t
      (fun x u h1 h2 => hkeep y x u hy h1 h2))

/-! ## The in-scratch permutations -/

theorem cell_eq (a1 a2 b1 b2 : Nat) (h1 : a1 = b1) (h2 : a2 = b2) :
    ((a1, a2) : Nat × Nat) = (b1, b2) := by
  subst h1 h2
  rfl

theorem cell_congr (d : Scratch) (a1 a2 b1 b2 : Nat) (h1 : a1 = b1) (h2 : a2 = b2) :
    d (a1, a2) = d (b1, b2) := by
  subst h1 h2
  rfl

/-- The FlipX permutation reverses every scratch row. -/
theorem TiledFlipX_permute_cell (TSZ : Nat) (d : Scratch) (r c : Nat) (hr : r < TSZ)
    (hc : c < TSZ) : TiledFlipX_permute TSZ d (r, c) = d (r, TSZ - 1 - c) := by
  unfold TiledFlipX_permute
  rcases Nat.lt_trichotomy c (TSZ - 1 - c) with h | h | h
  · refine (nestedLoop_cell (fun y x d => ChainSwap2 d (y, x) (y, TSZ - 1 - x)) TSZ
      (fun _ => 0) (fun _ => TSZ / 2) r c hr (Nat.zero_le _) (by dsimp only; omega)
      (r, c) (r, TSZ - 1 - c) ?_ ?_ d)
    · intro y x t hy hx1 hx2 hne
      dsimp only at hx1 hx2 ⊢
      constructor
      · apply ChainSwap2_other <;> (simp only [ne_eq, Prod.mk.injEq]; omega)
      · apply ChainSwap2_other <;> (simp only [ne_eq, Prod.mk.injEq]; omega)
    · intro t
      exact ChainSwap2_fst t _ _ _ rfl
  · refine (nestedLoop_keep (fun y x d => ChainSwap2 d (y, x) (y, TSZ - 1 - x)) TSZ
      (fun _ => 0) (fun _ => TSZ / 2) (r, c) ?_ d).trans
      (cell_congr d _ _ _ _ rfl h)
    intro y x t hy hx1 hx2
    dsimp only at hx1 hx2 ⊢
    apply ChainSwap2_other <;> (simp only [ne_eq, Prod.mk.injEq]; omega)
  · refine (nestedLoop_cell (fun y x d => ChainSwap2 d (y, x) (y, TSZ - 1 - x)) TSZ
      (fun _ => 0) (fun _ => TSZ / 2) r (TSZ - 1 - c) hr (Nat.zero_le _)
      (by dsimp only; omega) (r, c) (r, TSZ - 1 - c) ?_ ?_ d)
    · intro y x t hy hx1 hx2 hne
      dsimp only at hx1 hx2 ⊢
      constructor
      · apply ChainSwap2_other <;> (simp only [ne_eq, Prod.mk.injEq]; omega)
      · apply ChainSwap2_other <;> (simp only [ne_eq, Prod.mk.injEq]; omega)
    · intro t
      have e : TSZ - 1 - (TSZ - 1 - c) = c := by omega
      exact ChainSwap2_snd t _ _ _ (cell_eq _ _ _ _ rfl e.symm)

/-- The Rotate180 permutation reflects the scratch tile through its centre. -/
theorem TiledRotate180_permute_cell (TSZ : Nat) (hT : TSZ % 2 = 0) (d : Scratch) (r c : Nat)
    (hr : r < TSZ) (hc : c < TSZ) :
    TiledRotate180_permute TSZ d (r, c) = d (TSZ - 1 - r, TSZ - 1 - c) := by
  unfold TiledRotate180_permute
  by_cases h : r < TSZ / 2
  · refine (nestedLoop_cell (fun y x d => ChainSwap2 d (y, x) (TSZ - 1 - y, TSZ - 1 - x))
      (TSZ / 2) (fun _ => 0) (fun _ => TSZ) r c h (Nat.zero_le _) hc
      (r, c) (TSZ - 1 - r, TSZ - 1 - c) ?_ ?_ d)
    · intro y x t hy hx1 hx2 hne
      dsimp only at hx1 hx2 ⊢
      constructor
      · apply ChainSwap2_other <;> (simp only [ne_eq, Prod.mk.injEq]; omega)
      · apply ChainSwap2_other <;> (simp only [ne_eq, Prod.mk.injEq]; omega)
    · intro t
      exact ChainSwap2_fst t _ _ _ rfl
  · refine (nestedLoop_cell (fun y x d => ChainSwap2 d (y, x) (TSZ - 1 - y, TSZ - 1 - x))
      (TSZ / 2) (fun _ => 0) (fun _ => TSZ) (TSZ - 1 - r) (TSZ - 1 - c) (by omega)
      (Nat.zero_le _) (by dsimp only; omega) (r, c) (TSZ - 1 - r, TSZ - 1 - c) ?_ ?_ d)
    · intro y x t hy hx1 hx2 hne
      dsimp only at hx1 hx2 ⊢
      constructor
      · apply ChainSwap2_other <;> (simp only [ne_eq, Prod.mk.injEq]; omega)
      · apply ChainSwap2_other <;> (simp only [ne_eq, Prod.mk.injEq]; omega)
    · intro t
      have e1 : TSZ - 1 - (TSZ - 1 - r) = r := by omega
      have e2 : TSZ - 1 - (TSZ - 1 - c) = c := by omega
      exact ChainSwap2_snd t _ _ _ (cell_eq _ _ _ _ e1.symm e2.symm)

/-- The Transpose permutation swaps across the diagonal every element with
smaller index below `dmin` and larger index below `dmax`. -/
theorem TiledTranspose_permute_cell (dmin dmax : Nat) (d : Scratch) (r c : Nat)
    (hmin : min r c < dmin) (hmax : max r c < dmax) :
    TiledTranspose_permute dmin dmax d (r, c) = d (c, r) := by
  unfold TiledTranspose_permute
  have hmin2 : r < dmin ∨ c < dmin := by omega
  have hmax2 : r < dmax ∧ c < dmax := by omega
  rcases Nat.lt_trichotomy r c with h | h | h
  · refine (nestedLoop_cell (fun x y d => ChainSwap2 d (x, y) (y, x)) dmin
      (fun x => x + 1) (fun _ => dmax) r c (by omega) (by dsimp only; omega)
      (by dsimp only; omega) (r, c) (c, r) ?_ ?_ d)
    · intro y x t hy hx1 hx2 hne
      dsimp only at hx1 hx2 ⊢
      constructor
      · apply ChainSwap2_other <;> (simp only [ne_eq, Prod.mk.injEq]; omega)
      · apply ChainSwap2_other <;> (simp only [ne_eq, Prod.mk.injEq]; omega)
    · intro t
      exact ChainSwap2_fst t _ _ _ rfl
  · refine (nestedLoop_keep (fun x y d => ChainSwap2 d (x, y) (y, x)) dmin
      (fun x => x + 1) (fun _ => dmax) (r, c) ?_ d).trans (cell_congr d _ _ _ _ h h.symm)
    intro y x t hy hx1 hx2
    dsimp only at hx1 hx2 ⊢
    apply ChainSwap2_other <;> (simp only [ne_eq, Prod.mk.injEq]; omega)
  · refine (nestedLoop_cell (fun x y d => ChainSwap2 d (x, y) (y, x)) dmin
      (fun x => x + 1) (fun _ => dmax) c r (by omega) (by dsimp only; omega)
      (by dsimp only; omega) (r, c) (c, r) ?_ ?_ d)
    · intro y x t hy hx1 hx2 hne
      dsimp only at hx1 hx2 ⊢
      constructor
      · apply ChainSwap2_other <;> (simp only [ne_eq, Prod.mk.injEq]; omega)
      · apply ChainSwap2_other <;> (simp only [ne_eq, Prod.mk.injEq]; omega)
    · intro t
      exact ChainSwap2_snd t _ _ _ rfl

/-- The RotateCW permutation: element `(r, c)` receives element `(TSZ - 1 - c, r)`. -/
theorem TiledRotateCW_permute_cell (TSZ : Nat) (hT : TSZ % 2 = 0) (d : Scratch) (r c : Nat)
    (hr : r < TSZ) (hc : c < TSZ) :
    TiledRotateCW_permute TSZ d (r, c) = d (TSZ - 1 - c, r) := by
  unfold TiledRotateCW_permute
  by_cases h1 : r < TSZ / 2 <;> by_cases h2 : c < TSZ / 2
  · refine (nestedLoop_cell (fun y x d => ChainSwap4 d (TSZ - 1 - x, y) (TSZ - 1 - y, TSZ - 1 - x)
      (x, TSZ - 1 - y) (y, x))
      (TSZ / 2) (fun _ => 0) (fun _ => TSZ / 2) (r) (c) (by omega)
      (Nat.zero_le _) (by dsimp only; omega) (r, c) (TSZ - 1 - c, r) ?_ ?_ d)
    · intro y x t hy hx1 hx2 hne
      dsimp only at hx1 hx2 ⊢
      constructor
      · apply ChainSwap4_other <;> (simp only [ne_eq, Prod.mk.injEq]; omega)
      · apply ChainSwap4_other <;> (simp only [ne_eq, Prod.mk.injEq]; omega)
    · intro t
      have e1 : TSZ - 1 - (TSZ - 1 - r) = r := by omega
      have e2 : TSZ - 1 - (TSZ - 1 - c) = c := by omega
      dsimp only
      exact ChainSwap4_at_e t _ _ _ _ _ rfl
  · refine (nestedLoop_cell (fun y x d => ChainSwap4 d (TSZ - 1 - x, y) (TSZ - 1 - y, TSZ - 1 - x)
      (x, TSZ - 1 - y) (y, x))
      (TSZ / 2) (fun _ => 0) (fun _ => TSZ / 2) (TSZ - 1 - c) (r) (by omega)
      (Nat.zero_le _) (by dsimp only; omega) (r, c) (TSZ - 1 - c, r) ?_ ?_ d)
    · intro y x t hy hx1 hx2 hne
      dsimp only at hx1 hx2 ⊢
      constructor
      · apply ChainSwap4_other <;> (simp only [ne_eq, Prod.mk.injEq]; omega)
      · apply ChainSwap4_other <;> (simp only [ne_eq, Prod.mk.injEq]; omega)
    · intro t
      have e1 : TSZ - 1 - (TSZ - 1 - r) = r := by omega
      have e2 : TSZ - 1 - (TSZ - 1 - c) = c := by omega
      dsimp only
      exact ChainSwap4_at_c t _ _ _ _ _ (cell_eq _ _ _ _ rfl e2.symm)
        (by simp only [ne_eq, Prod.mk.injEq]; omega) (by simp only [ne_eq, Prod.mk.injEq]; omega) (by simp only [ne_eq, Prod.mk.injEq]; omega)
  · refine (nestedLoop_cell (fun y x d => ChainSwap4 d (TSZ - 1 - x, y) (TSZ - 1 - y, TSZ - 1 - x)
      (x, TSZ - 1 - y) (y, x))
      (TSZ / 2) (fun _ => 0) (fun _ => TSZ / 2) (c) (TSZ - 1 - r) (by omega)
      (Nat.zero_le _) (by dsimp only; omega) (r, c) (TSZ - 1 - c, r) ?_ ?_ d)
    · intro y x t hy hx1 hx2 hne
      dsimp only at hx1 hx2 ⊢
      constructor
      · apply ChainSwap4_other <;> (simp only [ne_eq, Prod.mk.injEq]; omega)
      · apply ChainSwap4_other <;> (simp only [ne_eq, Prod.mk.injEq]; omega)
    · intro t
      have e1 : TSZ - 1 - (TSZ - 1 - r) = r := by omega
      have e2 : TSZ - 1 - (TSZ - 1 - c) = c := by omega
      dsimp only
      exact (ChainSwap4_at_a t _ _ _ _ _ (cell_eq _ _ _ _ e1.symm rfl)
        (by simp only [ne_eq, Prod.mk.injEq]; omega) (by simp only [ne_eq, Prod.mk.injEq]; omega) (by simp only [ne_eq, Prod.mk.injEq]; omega)).trans
        (cell_congr t _ _ _ _ rfl e1)
  · refine (nestedLoop_cell (fun y x d => ChainSwap4 d (TSZ - 1 - x, y) (TSZ - 1 - y, TSZ - 1 - x)
      (x, TSZ - 1 - y) (y, x))
      (TSZ / 2) (fun _ => 0) (fun _ => TSZ / 2) (TSZ - 1 - r) (TSZ - 1 - c) (by omega)
      (Nat.zero_le _) (by dsimp only; omega) (r, c) (TSZ - 1 - c, r) ?_ ?_ d)
    · intro y x t hy hx1 hx2 hne
      dsimp only at hx1 hx2 ⊢
      constructor
      · apply ChainSwap4_other <;> (simp only [ne_eq, Prod.mk.injEq]; omega)
      · apply ChainSwap4_other <;> (simp only [ne_eq, Prod.mk.injEq]; omega)
    · intro t
      have e1 : TSZ - 1 - (TSZ - 1 - r) = r := by omega
      have e2 : TSZ - 1 - (TSZ - 1 - c) = c := by omega
      dsimp only
      exact (ChainSwap4_at_b t _ _ _ _ _ (cell_eq _ _ _ _ e1.symm e2.symm)
        (by simp only [ne_eq, Prod.mk.injEq]; omega) (by simp only [ne_eq, Prod.mk.injEq]; omega) (by simp only [ne_eq, Prod.mk.injEq]; omega)).trans
        (cell_congr t _ _ _ _ rfl e1)
/-- The RotateCCW permutation: element `(r, c)` receives element `(c, TSZ - 1 - r)`. -/
theorem TiledRotateCCW_permute_cell (TSZ : Nat) (hT : TSZ % 2 = 0) (d : Scratch) (r c : Nat)
    (hr : r < TSZ) (hc : c < TSZ) :
    TiledRotateCCW_permute TSZ d (r, c) = d (c, TSZ - 1 - r) := by
  unfold TiledRotateCCW_permute
  by_cases h1 : r < TSZ / 2 <;> by_cases h2 : c < TSZ / 2
  · refine (nestedLoop_cell (fun y x d => ChainSwap4 d (y, x) (x, TSZ - 1 - y) (TSZ - 1 - y, TSZ - 1 - x)
      (TSZ - 1 - x, y))
      (TSZ / 2) (fun _ => 0) (fun _ => TSZ / 2) (r) (c) (by omega)
      (Nat.zero_le _) (by dsimp only; omega) (r, c) (c, TSZ - 1 - r) ?_ ?_ d)
    · intro y x t hy hx1 hx2 hne
      dsimp only at hx1 hx2 ⊢
      constructor
      · apply ChainSwap4_other <;> (simp only [ne_eq, Prod.mk.injEq]; omega)
      · apply ChainSwap4_other <;> (simp only [ne_eq, Prod.mk.injEq]; omega)
    · intro t
      have e1 : TSZ - 1 - (TSZ - 1 - r) = r := by omega
      have e2 : TSZ - 1 - (TSZ - 1 - c) = c := by omega
      dsimp only
      exact ChainSwap4_at_a t _ _ _ _ _ rfl
        (by simp only [ne_eq, Prod.mk.injEq]; omega) (by simp only [ne_eq, Prod.mk.injEq]; omega) (by simp only [ne_eq, Prod.mk.injEq]; omega)
  · refine (nestedLoop_cell (fun y x d => ChainSwap4 d (y, x) (x, TSZ - 1 - y) (TSZ - 1 - y, TSZ - 1 - x)
      (TSZ - 1 - x, y))
      (TSZ / 2) (fun _ => 0) (fun _ => TSZ / 2) (TSZ - 1 - c) (r) (by omega)
      (Nat.zero_le _) (by dsimp only; omega) (r, c) (c, TSZ - 1 - r) ?_ ?_ d)
    · intro y x t hy hx1 hx2 hne
      dsimp only at hx1 hx2 ⊢
      constructor
      · apply ChainSwap4_other <;> (simp only [ne_eq, Prod.mk.injEq]; omega)
      · apply ChainSwap4_other <;> (simp only [ne_eq, Prod.mk.injEq]; omega)
    · intro t
      have e1 : TSZ - 1 - (TSZ - 1 - r) = r := by omega
      have e2 : TSZ - 1 - (TSZ - 1 - c) = c := by omega
      dsimp only
      exact (ChainSwap4_at_b t _ _ _ _ _ (cell_eq _ _ _ _ rfl e2.symm)
        (by simp only [ne_eq, Prod.mk.injEq]; omega) (by simp only [ne_eq, Prod.mk.injEq]; omega) (by simp only [ne_eq, Prod.mk.injEq]; omega)).trans
        (cell_congr t _ _ _ _ e2 rfl)
  · refine (nestedLoop_cell (fun y x d => ChainSwap4 d (y, x) (x, TSZ - 1 - y) (TSZ - 1 - y, TSZ - 1 - x)
      (TSZ - 1 - x, y))
      (TSZ / 2) (fun _ => 0) (fun _ => TSZ / 2) (c) (TSZ - 1 - r) (by omega)
      (Nat.zero_le _) (by dsimp only; omega) (r, c) (c, TSZ - 1 - r) ?_ ?_ d)
    · intro y x t hy hx1 hx2 hne
      dsimp only at hx1 hx2 ⊢
      constructor
      · apply ChainSwap4_other <;> (simp only [ne_eq, Prod.mk.injEq]; omega)
      · apply ChainSwap4_other <;> (simp only [ne_eq, Prod.mk.injEq]; omega)
    · intro t
      have e1 : TSZ - 1 - (TSZ - 1 - r) = r := by omega
      have e2 : TSZ - 1 - (TSZ - 1 - c) = c := by omega
      dsimp only
      exact ChainSwap4_at_e t _ _ _ _ _ (cell_eq _ _ _ _ e1.symm rfl)
  · refine (nestedLoop_cell (fun y x d => ChainSwap4 d (y, x) (x, TSZ - 1 - y) (TSZ - 1 - y, TSZ - 1 - x)
      (TSZ - 1 - x, y))
      (TSZ / 2) (fun _ => 0) (fun _ => TSZ / 2) (TSZ - 1 - r) (TSZ - 1 - c) (by omega)
      (Nat.zero_le _) (by dsimp only; omega) (r, c) (c, TSZ - 1 - r) ?_ ?_ d)
    · intro y x t hy hx1 hx2 hne
      dsimp only at hx1 hx2 ⊢
      constructor
      · apply ChainSwap4_other <;> (simp only [ne_eq, Prod.mk.injEq]; omega)
      · apply ChainSwap4_other <;> (simp only [ne_eq, Prod.mk.injEq]; omega)
    · intro t
      have e1 : TSZ - 1 - (TSZ - 1 - r) = r := by omega
      have e2 : TSZ - 1 - (TSZ - 1 - c) = c := by omega
      dsimp only
      exact (ChainSwap4_at_c t _ _ _ _ _ (cell_eq _ _ _ _ e1.symm e2.symm)
        (by simp only [ne_eq, Prod.mk.injEq]; omega) (by simp only [ne_eq, Prod.mk.injEq]; omega) (by simp only [ne_eq, Prod.mk.injEq]; omega)).trans
        (cell_congr t _ _ _ _ e2 rfl)
/-! ## Wrap-around of the trailing-edge offsets -/

/-- The column `xout + TSZ - xspan`, computed with wrapping `size_t`
arithmetic from `xout = n - x - T`, is the in-range value `n - x - s`. -/
theorem trailing_col (n x T s : Nat) (hx : x < n) (hs : s = min T (n - x))
    (hn : n < SIZE_MOD) (hT : T < SIZE_MOD) :
    usub (uadd (usub (usub n x) T) T) s = n - x - s := by
  unfold usub uadd SIZE_MOD at *
  omega

/-- The byte offset `(xout + TSZ - xspan) * BPP` does not wrap. -/
theorem trailing_off (n x T s BPP : Nat) (hx : x < n) (hs : s = min T (n - x))
    (hB : 0 < BPP) (hn : n * BPP < SIZE_MOD) (hT : T < SIZE_MOD) :
    umul (usub (uadd (usub (usub n x) T) T) s) BPP = (n - x - s) * BPP := by
  have h1 : n ≤ n * BPP := Nat.le_mul_of_pos_right n hB
  rw [trailing_col n x T s hx hs (by omega) hT]
  unfold umul
  apply Nat.mod_eq_of_lt
  have h2 : (n - x - s) * BPP ≤ n * BPP := Nat.mul_le_mul_right _ (by omega)
  omega

/-- The row `yout + y`, computed with wrapping `size_t` arithmetic from
`yout = n - x - T`, is the in-range value `n - x - s + (y - (T - s))`. -/
theorem trailing_row (n x T s y : Nat) (hx : x < n) (hs : s = min T (n - x))
    (hn : n < SIZE_MOD) (hT : T < SIZE_MOD) (hy1 : T - s ≤ y) (hy2 : y < T) :
    uadd (usub (usub n x) T) y = n - x - s + (y - (T - s)) := by
  unfold usub uadd SIZE_MOD at *
  omega

theorem tile_origin (a T : Nat) (hT : 0 < T) : a / T * T ≤ a ∧ a < a / T * T + T := by
  have h1 := Nat.div_add_mod a T
  have h2 := Nat.mod_lt a hT
  have h3 : T * (a / T) = a / T * T := Nat.mul_comm _ _
  omega

theorem src_addr (img : ImageView) (BPP y R xin x C b : Nat) (hy : y = R)
    (hx : xin + x = C) :
    rowPtr img y + xin * BPP + (x * BPP + b) = rowPtr img R + C * BPP + b := by
  subst hy hx
  rw [Nat.add_mul]
  omega

/-! ## TiledFlipX -/

/-- Effect of one FlipX tile on a destination pixel byte. -/
theorem TiledFlipX_tile_pix (BPP TSZ : Nat) (img_out img_in : ImageView) (xin yin : Nat)
    (st : TileState) (hT : TSZ < SIZE_MOD)
    (hw : img_out.width = img_in.width) (hp : img_out.width * BPP ≤ img_out.pitch)
    (hpm : img_out.pitch < SIZE_MOD) (hx : xin < img_in.width) (hy : yin < img_in.height)
    (r c b : Nat) (hc : c < img_in.width) (hb : b < BPP) :
    (TiledFlipX_tile BPP TSZ img_out img_in xin yin st).out
        (r * img_out.pitch + c * BPP + b) =
      if yin ≤ r ∧ r < yin + min TSZ (img_in.height - yin) ∧
          img_in.width - xin - min TSZ (img_in.width - xin) ≤ c ∧ c < img_in.width - xin then
        pixelByte img_in BPP r (img_in.width - 1 - c) b
      else st.out (r * img_out.pitch + c * BPP + b) := by
  have hB : 0 < BPP := by omega
  unfold TiledFlipX_tile
  dsimp only
  rw [trailing_off img_in.width xin TSZ _ BPP hx rfl hB (by rw [← hw]; omega) hT]
  have hst := storeRows_pix BPP img_out.pitch img_out.width hp
    (TiledFlipX_permute TSZ (loadTile BPP img_in xin yin (min TSZ (img_in.width - xin))
      (min TSZ (img_in.height - yin)) st.d))
    0 (min TSZ (img_in.height - yin)) yin
    (img_in.width - xin - min TSZ (img_in.width - xin)) (TSZ - min TSZ (img_in.width - xin))
    (min TSZ (img_in.width - xin)) (by omega) st.out r c b (by omega) hb
  refine Eq.trans hst ?_
  by_cases hq : yin ≤ r ∧ r < yin + min TSZ (img_in.height - yin) ∧
      img_in.width - xin - min TSZ (img_in.width - xin) ≤ c ∧ c < img_in.width - xin
  · rw [if_pos (by omega), if_pos hq,
      TiledFlipX_permute_cell TSZ _ _ _ (by omega) (by omega),
      loadTile_cell BPP img_in xin yin _ _ _ _ _ b (by omega) (by omega) hb]
    unfold pixelByte
    rw [src_addr img_in BPP _ r xin _ (img_in.width - 1 - c) b (by omega) (by omega)]
  · rw [if_neg (by omega), if_neg hq]

/-- Every destination pixel of `TiledFlipX` holds the mirrored source pixel. -/
theorem TiledFlipX_pix (BPP TSZ : Nat) (d0 : Scratch) (img_out img_in : ImageView)
    (hT0 : 0 < TSZ) (hT : TSZ < SIZE_MOD)
    (hw : img_out.width = img_in.width) (hp : img_out.width * BPP ≤ img_out.pitch)
    (hpm : img_out.pitch < SIZE_MOD)
    (r c b : Nat) (hr : r < img_in.height) (hc : c < img_in.width) (hb : b < BPP) :
    pixelByte (TiledFlipX BPP TSZ d0 img_out img_in) BPP r c b =
      pixelByte img_in BPP r (img_in.width - 1 - c) b := by
  have hkx := tile_origin (img_in.width - 1 - c) TSZ hT0
  have hky := tile_origin r TSZ hT0
  show (TiledFlipX BPP TSZ d0 img_out img_in).data (r * img_out.pitch + c * BPP + b) = _
  apply tileLoops_pix (TiledFlipX_tile BPP TSZ img_out img_in) img_in.width img_in.height TSZ
    hT0 (r * img_out.pitch + c * BPP + b) _ _ ((img_in.width - 1 - c) / TSZ) (r / TSZ)
    (by omega) (by omega)
  · intro st
    rw [TiledFlipX_tile_pix BPP TSZ img_out img_in _ _ st hT hw hp hpm (by omega) (by omega)
      r c b hc hb, if_pos (by omega)]
  · intro xin yin st hx hy hst
    rw [TiledFlipX_tile_pix BPP TSZ img_out img_in xin yin st hT hw hp hpm hx hy r c b hc hb]
    split
    · rfl
    · exact hst

/-! ## TiledRotate180 -/

/-- Effect of one Rotate180 tile on a destination pixel byte. -/
theorem TiledRotate180_tile_pix (BPP TSZ : Nat) (img_out img_in : ImageView) (xin yin : Nat)
    (st : TileState) (hT : TSZ < SIZE_MOD) (hT2 : TSZ % 2 = 0)
    (hw : img_out.width = img_in.width) (hp : img_out.width * BPP ≤ img_out.pitch)
    (hpm : img_out.pitch < SIZE_MOD) (hh : img_in.height < SIZE_MOD)
    (hx : xin < img_in.width) (hy : yin < img_in.height)
    (r c b : Nat) (hc : c < img_in.width) (hb : b < BPP) :
    (TiledRotate180_tile BPP TSZ img_out img_in xin yin st).out
        (r * img_out.pitch + c * BPP + b) =
      if img_in.height - yin - min TSZ (img_in.height - yin) ≤ r ∧ r < img_in.height - yin ∧
          img_in.width - xin - min TSZ (img_in.width - xin) ≤ c ∧ c < img_in.width - xin then
        pixelByte img_in BPP (img_in.height - 1 - r) (img_in.width - 1 - c) b
      else st.out (r * img_out.pitch + c * BPP + b) := by
  have hB : 0 < BPP := by omega
  unfold TiledRotate180_tile
  dsimp only
  rw [trailing_off img_in.width xin TSZ _ BPP hx rfl hB (by rw [← hw]; omega) hT]
  refine Eq.trans (congrFun (forLoop_congr TSZ 1 _
    (fun y o => memcpyFromRow BPP o
      ((img_in.height - yin - min TSZ (img_in.height - yin) +
          (y - (TSZ - min TSZ (img_in.height - yin)))) * img_out.pitch +
        (img_in.width - xin - min TSZ (img_in.width - xin)) * BPP)
      (TiledRotate180_permute TSZ (loadTile BPP img_in xin yin
        (min TSZ (img_in.width - xin)) (min TSZ (img_in.height - yin)) st.d))
      y (TSZ - min TSZ (img_in.width - xin)) (min TSZ (img_in.width - xin) * BPP))
    _ _ st.out (Nat.le_refl _) ?_) _) ?_
  · intro y o h1 h2
    dsimp only
    rw [trailing_row img_in.height yin TSZ _ y hy rfl hh hT h1 h2]
    rfl
  refine Eq.trans (storeRows_pix BPP img_out.pitch img_out.width hp _ _ _ _ _ _ _
    (by omega) st.out r c b (by omega) hb) ?_
  by_cases hq : img_in.height - yin - min TSZ (img_in.height - yin) ≤ r ∧
      r < img_in.height - yin ∧
      img_in.width - xin - min TSZ (img_in.width - xin) ≤ c ∧ c < img_in.width - xin
  · rw [if_pos (by omega), if_pos hq,
      TiledRotate180_permute_cell TSZ hT2 _ _ _ (by omega) (by omega),
      loadTile_cell BPP img_in xin yin _ _ _ _ _ b (by omega) (by omega) hb]
    unfold pixelByte
    rw [src_addr img_in BPP _ (img_in.height - 1 - r) xin _ (img_in.width - 1 - c) b
      (by omega) (by omega)]
  · rw [if_neg (by omega), if_neg hq]

/-- Every destination pixel of `TiledRotate180` holds the point-reflected source pixel. -/
theorem TiledRotate180_pix (BPP TSZ : Nat) (d0 : Scratch) (img_out img_in : ImageView)
    (hT0 : 0 < TSZ) (hT : TSZ < SIZE_MOD) (hT2 : TSZ % 2 = 0)
    (hw : img_out.width = img_in.width) (hp : img_out.width * BPP ≤ img_out.pitch)
    (hpm : img_out.pitch < SIZE_MOD) (hh : img_in.height < SIZE_MOD)
    (r c b : Nat) (hr : r < img_in.height) (hc : c < img_in.width) (hb : b < BPP) :
    pixelByte (TiledRotate180 BPP TSZ d0 img_out img_in) BPP r c b =
      pixelByte img_in BPP (img_in.height - 1 - r) (img_in.width - 1 - c) b := by
  have hkx := tile_origin (img_in.width - 1 - c) TSZ hT0
  have hky := tile_origin (img_in.height - 1 - r) TSZ hT0
  show (TiledRotate180 BPP TSZ d0 img_out img_in).data (r * img_out.pitch + c * BPP + b) = _
  apply tileLoops_pix (TiledRotate180_tile BPP TSZ img_out img_in) img_in.width
    img_in.height TSZ hT0 (r * img_out.pitch + c * BPP + b) _ _
    ((img_in.width - 1 - c) / TSZ) ((img_in.height - 1 - r) / TSZ) (by omega) (by omega)
  · intro st
    rw [TiledRotate180_tile_pix BPP TSZ img_out img_in _ _ st hT hT2 hw hp hpm hh (by omega)
      (by omega) r c b hc hb, if_pos (by omega)]
  · intro xin yin st hx hy hst
    rw [TiledRotate180_tile_pix BPP TSZ img_out img_in xin yin st hT hT2 hw hp hpm hh hx hy
      r c b hc hb]
    split
    · rfl
    · exact hst

/-! ## TiledTranspose -/

/-- Effect of one Transpose tile on a destination pixel byte. -/
theorem TiledTranspose_tile_pix (BPP TSZ : Nat) (img_out img_in : ImageView) (xin yin : Nat)
    (st : TileState)
    (hw : img_out.width = img_in.height) (hp : img_out.width * BPP ≤ img_out.pitch)
    (hx : xin < img_in.width) (hy : yin < img_in.height)
    (r c b : Nat) (hc : c < img_in.height) (hb : b < BPP) :
    (TiledTranspose_tile BPP TSZ img_out img_in xin yin st).out
        (r * img_out.pitch + c * BPP + b) =
      if xin ≤ r ∧ r < xin + min TSZ (img_in.width - xin) ∧
          yin ≤ c ∧ c < yin + min TSZ (img_in.height - yin) then
        pixelByte img_in BPP c r b
      else st.out (r * img_out.pitch + c * BPP + b) := by
  unfold TiledTranspose_tile
  dsimp only
  refine Eq.trans (storeRows_pix BPP img_out.pitch img_out.width hp _ 0 _ xin yin 0 _
    (by omega) st.out r c b (by omega) hb) ?_
  by_cases hq : xin ≤ r ∧ r < xin + min TSZ (img_in.width - xin) ∧
      yin ≤ c ∧ c < yin + min TSZ (img_in.height - yin)
  · rw [if_pos (by omega), if_pos hq,
      TiledTranspose_permute_cell _ _ _ _ _ (by omega) (by omega),
      loadTile_cell BPP img_in xin yin _ _ _ _ _ b (by omega) (by omega) hb]
    unfold pixelByte
    rw [src_addr img_in BPP _ c xin _ r b (by omega) (by omega)]
  · rw [if_neg (by omega), if_neg hq]

/-- Every destination pixel of `TiledTranspose` holds the transposed source pixel. -/
theorem TiledTranspose_pix (BPP TSZ : Nat) (d0 : Scratch) (img_out img_in : ImageView)
    (hT0 : 0 < TSZ)
    (hw : img_out.width = img_in.height) (hp : img_out.width * BPP ≤ img_out.pitch)
    (r c b : Nat) (hr : r < img_in.width) (hc : c < img_in.height) (hb : b < BPP) :
    pixelByte (TiledTranspose BPP TSZ d0 img_out img_in) BPP r c b =
      pixelByte img_in BPP c r b := by
  have hkx := tile_origin r TSZ hT0
  have hky := tile_origin c TSZ hT0
  show (TiledTranspose BPP TSZ d0 img_out img_in).data (r * img_out.pitch + c * BPP + b) = _
  apply tileLoops_pix (TiledTranspose_tile BPP TSZ img_out img_in) img_in.width
    img_in.height TSZ hT0 (r * img_out.pitch + c * BPP + b) _ _
    (r / TSZ) (c / TSZ) (by omega) (by omega)
  · intro st
    rw [TiledTranspose_tile_pix BPP TSZ img_out img_in _ _ st hw hp (by omega)
      (by omega) r c b hc hb, if_pos (by omega)]
  · intro xin yin st hx hy hst
    rw [TiledTranspose_tile_pix BPP TSZ img_out img_in xin yin st hw hp hx hy r c b hc hb]
    split
    · rfl
    · exact hst

/-! ## TiledRotateCW -/

/-- Effect of one RotateCW tile on a destination pixel byte. -/
theorem TiledRotateCW_tile_pix (BPP TSZ : Nat) (img_out img_in : ImageView) (xin yin : Nat)
    (st : TileState) (hT : TSZ < SIZE_MOD) (hT2 : TSZ % 2 = 0)
    (hw : img_out.width = img_in.height) (hp : img_out.width * BPP ≤ img_out.pitch)
    (hpm : img_out.pitch < SIZE_MOD)
    (hx : xin < img_in.width) (hy : yin < img_in.height)
    (r c b : Nat) (hc : c < img_in.height) (hb : b < BPP) :
    (TiledRotateCW_tile BPP TSZ img_out img_in xin yin st).out
        (r * img_out.pitch + c * BPP + b) =
      if xin ≤ r ∧ r < xin + min TSZ (img_in.width - xin) ∧
          img_in.height - yin - min TSZ (img_in.height - yin) ≤ c ∧
          c < img_in.height - yin then
        pixelByte img_in BPP (img_in.height - 1 - c) r b
      else st.out (r * img_out.pitch + c * BPP + b) := by
  have hB : 0 < BPP := by omega
  unfold TiledRotateCW_tile
  dsimp only
  rw [trailing_off img_in.height yin TSZ _ BPP hy rfl hB (by rw [← hw]; omega) hT]
  refine Eq.trans (storeRows_pix BPP img_out.pitch img_out.width hp _ 0 _ xin _ _ _
    (by omega) st.out r c b (by omega) hb) ?_
  by_cases hq : xin ≤ r ∧ r < xin + min TSZ (img_in.width - xin) ∧
      img_in.height - yin - min TSZ (img_in.height - yin) ≤ c ∧ c < img_in.height - yin
  · rw [if_pos (by omega), if_pos hq,
      TiledRotateCW_permute_cell TSZ hT2 _ _ _ (by omega) (by omega),
      loadTile_cell BPP img_in xin yin _ _ _ _ _ b (by omega) (by omega) hb]
    unfold pixelByte
    rw [src_addr img_in BPP _ (img_in.height - 1 - c) xin _ r b (by omega) (by omega)]
  · rw [if_neg (by omega), if_neg hq]

/-- Every destination pixel of `TiledRotateCW` holds the clockwise-rotated source pixel. -/
theorem TiledRotateCW_pix (BPP TSZ : Nat) (d0 : Scratch) (img_out img_in : ImageView)
    (hT0 : 0 < TSZ) (hT : TSZ < SIZE_MOD) (hT2 : TSZ % 2 = 0)
    (hw : img_out.width = img_in.height) (hp : img_out.width * BPP ≤ img_out.pitch)
    (hpm : img_out.pitch < SIZE_MOD)
    (r c b : Nat) (hr : r < img_in.width) (hc : c < img_in.height) (hb : b < BPP) :
    pixelByte (TiledRotateCW BPP TSZ d0 img_out img_in) BPP r c b =
      pixelByte img_in BPP (img_in.height - 1 - c) r b := by
  have hkx := tile_origin r TSZ hT0
  have hky := tile_origin (img_in.height - 1 - c) TSZ hT0
  show (TiledRotateCW BPP TSZ d0 img_out img_in).data (r * img_out.pitch + c * BPP + b) = _
  apply tileLoops_pix (TiledRotateCW_tile BPP TSZ img_out img_in) img_in.width
    img_in.height TSZ hT0 (r * img_out.pitch + c * BPP + b) _ _
    (r / TSZ) ((img_in.height - 1 - c) / TSZ) (by omega) (by omega)
  · intro st
    rw [TiledRotateCW_tile_pix BPP TSZ img_out img_in _ _ st hT hT2 hw hp hpm (by omega)
      (by omega) r c b hc hb, if_pos (by omega)]
  · intro xin yin st hx hy hst
    rw [TiledRotateCW_tile_pix BPP TSZ img_out img_in xin yin st hT hT2 hw hp hpm hx hy
      r c b hc hb]
    split
    · rfl
    · exact hst

/-! ## TiledRotateCCW -/

/-- Effect of one RotateCCW tile on a destination pixel byte. -/
theorem TiledRotateCCW_tile_pix (BPP TSZ : Nat) (img_out img_in : ImageView) (xin yin : Nat)
    (st : TileState) (hT : TSZ < SIZE_MOD) (hT2 : TSZ % 2 = 0)
    (hw : img_out.width = img_in.height) (hp : img_out.width * BPP ≤ img_out.pitch)
    (hwm : img_in.width < SIZE_MOD)
    (hx : xin < img_in.width) (hy : yin < img_in.height)
    (r c b : Nat) (hc : c < img_in.height) (hb : b < BPP) :
    (TiledRotateCCW_tile BPP TSZ img_out img_in xin yin st).out
        (r * img_out.pitch + c * BPP + b) =
      if img_in.width - xin - min TSZ (img_in.width - xin) ≤ r ∧ r < img_in.width - xin ∧
          yin ≤ c ∧ c < yin + min TSZ (img_in.height - yin) then
        pixelByte img_in BPP c (img_in.width - 1 - r) b
      else st.out (r * img_out.pitch + c * BPP + b) := by
  unfold TiledRotateCCW_tile
  dsimp only
  refine Eq.trans (congrFun (forLoop_congr TSZ 1 _
    (fun y o => memcpyFromRow BPP o
      ((img_in.width - xin - min TSZ (img_in.width - xin) +
          (y - (TSZ - min TSZ (img_in.width - xin)))) * img_out.pitch + yin * BPP)
      (TiledRotateCCW_permute TSZ (loadTile BPP img_in xin yin
        (min TSZ (img_in.width - xin)) (min TSZ (img_in.height - yin)) st.d))
      y 0 (min TSZ (img_in.height - yin) * BPP))
    _ _ st.out (Nat.le_refl _) ?_) _) ?_
  · intro y o h1 h2
    dsimp only
    rw [trailing_row img_in.width xin TSZ _ y hx rfl hwm hT h1 h2]
    rfl
  refine Eq.trans (storeRows_pix BPP img_out.pitch img_out.width hp _ _ _ _ _ _ _
    (by omega) st.out r c b (by omega) hb) ?_
  by_cases hq : img_in.width - xin - min TSZ (img_in.width - xin) ≤ r ∧
      r < img_in.width - xin ∧ yin ≤ c ∧ c < yin + min TSZ (img_in.height - yin)
  · rw [if_pos (by omega), if_pos hq,
      TiledRotateCCW_permute_cell TSZ hT2 _ _ _ (by omega) (by omega),
      loadTile_cell BPP img_in xin yin _ _ _ _ _ b (by omega) (by omega) hb]
    unfold pixelByte
    rw [src_addr img_in BPP _ c xin _ (img_in.width - 1 - r) b (by omega) (by omega)]
  · rw [if_neg (by omega), if_neg hq]

/-- Every destination pixel of `TiledRotateCCW` holds the counter-clockwise-rotated
source pixel. -/
theorem TiledRotateCCW_pix (BPP TSZ : Nat) (d0 : Scratch) (img_out img_in : ImageView)
    (hT0 : 0 < TSZ) (hT : TSZ < SIZE_MOD) (hT2 : TSZ % 2 = 0)
    (hw : img_out.width = img_in.height) (hp : img_out.width * BPP ≤ img_out.pitch)
    (hwm : img_in.width < SIZE_MOD)
    (r c b : Nat) (hr : r < img_in.width) (hc : c < img_in.height) (hb : b < BPP) :
    pixelByte (TiledRotateCCW BPP TSZ d0 img_out img_in) BPP r c b =
      pixelByte img_in BPP c (img_in.width - 1 - r) b := by
  have hkx := tile_origin (img_in.width - 1 - r) TSZ hT0
  have hky := tile_origin c TSZ hT0
  show (TiledRotateCCW BPP TSZ d0 img_out img_in).data (r * img_out.pitch + c * BPP + b) = _
  apply tileLoops_pix (TiledRotateCCW_tile BPP TSZ img_out img_in) img_in.width
    img_in.height TSZ hT0 (r * img_out.pitch + c * BPP + b) _ _
    ((img_in.width - 1 - r) / TSZ) (c / TSZ) (by omega) (by omega)
  · intro st
    rw [TiledRotateCCW_tile_pix BPP TSZ img_out img_in _ _ st hT hT2 hw hp hwm (by omega)
      (by omega) r c b hc hb, if_pos (by omega)]
  · intro xin yin st hx hy hst
    rw [TiledRotateCCW_tile_pix BPP TSZ img_out img_in xin yin st hT hT2 hw hp hwm hx hy
      r c b hc hb]
    split
    · rfl
    · exact hst

/-! ## The dispatching kernels -/

theorem tileTable_props (BPP TSZ : Nat) (hmem : (BPP, TSZ) ∈ tileTable) :
    0 < BPP ∧ 0 < TSZ ∧ TSZ < SIZE_MOD ∧ TSZ % 2 = 0 := by
  simp only [tileTable, List.mem_cons, Prod.mk.injEq, List.mem_singleton, List.not_mem_nil,
    or_false] at hmem
  unfold SIZE_MOD
  omega

/-- `FlipX` leaves the shape of the destination view unchanged. -/
theorem FlipX_shape (d0 : Scratch) (img_out img_in : ImageView) (bpp : Nat) :
    (FlipX d0 img_out img_in bpp).width = img_out.width ∧
      (FlipX d0 img_out img_in bpp).height = img_out.height ∧
      (FlipX d0 img_out img_in bpp).pitch = img_out.pitch := by
  unfold FlipX
  split_ifs <;> exact ⟨rfl, rfl, rfl⟩

/-- Every destination pixel byte of `FlipX`, whichever branch is taken. -/
theorem FlipX_pix (d0 : Scratch) (img_out img_in : ImageView) (bpp : Nat)
    (hw : img_out.width = img_in.width) (hh : img_out.height = img_in.height)
    (hp : ValidPitch img_out bpp) (hrep : Representable img_out)
    (r c b : Nat) (hr : r < img_out.height) (hc : c < img_out.width) (hb : b < bpp) :
    pixelByte (FlipX d0 img_out img_in bpp) bpp r c b =
      pixelByte img_in bpp r (img_in.width - 1 - c) b := by
  have htiled : ∀ TSZ, (bpp, TSZ) ∈ tileTable →
      pixelByte (TiledFlipX bpp TSZ d0 img_out img_in) bpp r c b =
        pixelByte img_in bpp r (img_in.width - 1 - c) b := by
    intro TSZ hmem
    obtain ⟨_, hT0, hT, hT2⟩ := tileTable_props bpp TSZ hmem
    exact TiledFlipX_pix _ _ d0 img_out img_in hT0 hT hw hp hrep.2.2 r c b (by omega) (by omega) hb
  unfold FlipX
  split_ifs with h1 h2 h3 h4 h5
  · subst h1
    exact htiled 160 (by decide)
  · subst h2
    exact htiled 120 (by decide)
  · subst h3
    exact htiled 80 (by decide)
  · subst h4
    exact htiled 80 (by decide)
  · subst h5
    exact htiled 64 (by decide)
  · have h2 := FlipXGeneric_pix img_out img_in bpp r c b hp hr hc hb
    rw [hw] at h2
    exact h2

/-- `FlipXY` leaves the shape of the destination view unchanged. -/
theorem FlipXY_shape (d0 : Scratch) (img_out img_in : ImageView) (bpp : Nat) :
    (FlipXY d0 img_out img_in bpp).width = img_out.width ∧
      (FlipXY d0 img_out img_in bpp).height = img_out.height ∧
      (FlipXY d0 img_out img_in bpp).pitch = img_out.pitch := by
  unfold FlipXY
  split_ifs <;> exact ⟨rfl, rfl, rfl⟩

/-- Every destination pixel byte of `FlipXY`, whichever branch is taken. -/
theorem FlipXY_pix (d0 : Scratch) (img_out img_in : ImageView) (bpp : Nat)
    (hw : img_out.width = img_in.width) (hh : img_out.height = img_in.height)
    (hp : ValidPitch img_out bpp) (hrep : Representable img_out)
    (hrepin : Representable img_in)
    (r c b : Nat) (hr : r < img_out.height) (hc : c < img_out.width) (hb : b < bpp) :
    pixelByte (FlipXY d0 img_out img_in bpp) bpp r c b =
      pixelByte img_in bpp (img_in.height - 1 - r) (img_in.width - 1 - c) b := by
  have htiled : ∀ TSZ, (bpp, TSZ) ∈ tileTable →
      pixelByte (TiledRotate180 bpp TSZ d0 img_out img_in) bpp r c b =
        pixelByte img_in bpp (img_in.height - 1 - r) (img_in.width - 1 - c) b := by
    intro TSZ hmem
    obtain ⟨_, hT0, hT, hT2⟩ := tileTable_props bpp TSZ hmem
    exact TiledRotate180_pix _ _ d0 img_out img_in hT0 hT hT2 hw hp hrep.2.2 hrepin.2.1 r c b
      (by omega) (by omega) hb
  unfold FlipXY
  split_ifs with h1 h2 h3 h4 h5
  · subst h1
    exact htiled 160 (by decide)
  · subst h2
    exact htiled 120 (by decide)
  · subst h3
    exact htiled 80 (by decide)
  · subst h4
    exact htiled 80 (by decide)
  · subst h5
    exact htiled 64 (by decide)
  · have h2 := FlipXYGeneric_pix img_out img_in bpp r c b hp hr hc hb
    rw [hw] at h2
    exact h2

/-- `RotateCW` leaves the shape of the destination view unchanged. -/
theorem RotateCW_shape (d0 : Scratch) (img_out img_in : ImageView) (bpp : Nat) :
    (RotateCW d0 img_out img_in bpp).width = img_out.width ∧
      (RotateCW d0 img_out img_in bpp).height = img_out.height ∧
      (RotateCW d0 img_out img_in bpp).pitch = img_out.pitch := by
  unfold RotateCW
  split_ifs <;> exact ⟨rfl, rfl, rfl⟩

/-- Every destination pixel byte of `RotateCW`, whichever branch is taken. -/
theorem RotateCW_pix (d0 : Scratch) (img_out img_in : ImageView) (bpp : Nat)
    (hw : img_out.width = img_in.height) (hh : img_out.height = img_in.width)
    (hp : ValidPitch img_out bpp) (hrep : Representable img_out)
    (r c b : Nat) (hr : r < img_out.height) (hc : c < img_out.width) (hb : b < bpp) :
    pixelByte (RotateCW d0 img_out img_in bpp) bpp r c b =
      pixelByte img_in bpp (img_in.height - 1 - c) r b := by
  have htiled : ∀ TSZ, (bpp, TSZ) ∈ tileTable →
      pixelByte (TiledRotateCW bpp TSZ d0 img_out img_in) bpp r c b =
        pixelByte img_in bpp (img_in.height - 1 - c) r b := by
    intro TSZ hmem
    obtain ⟨_, hT0, hT, hT2⟩ := tileTable_props bpp TSZ hmem
    exact TiledRotateCW_pix _ _ d0 img_out img_in hT0 hT hT2 hw hp hrep.2.2 r c b
      (by omega) (by omega) hb
  unfold RotateCW
  split_ifs with h1 h2 h3 h4 h5
  · subst h1
    exact htiled 160 (by decide)
  · subst h2
    exact htiled 120 (by decide)
  · subst h3
    exact htiled 80 (by decide)
  · subst h4
    exact htiled 80 (by decide)
  · subst h5
    exact htiled 64 (by decide)
  · have h2 := RotateCWGeneric_pix img_out img_in bpp r c b hp hr hc hb
    rw [hw] at h2
    exact h2

/-- `Transpose` leaves the shape of the destination view unchanged. -/
theorem Transpose_shape (d0 : Scratch) (img_out img_in : ImageView) (bpp : Nat) :
    (Transpose d0 img_out img_in bpp).width = img_out.width ∧
      (Transpose d0 img_out img_in bpp).height = img_out.height ∧
      (Transpose d0 img_out img_in bpp).pitch = img_out.pitch := by
  unfold Transpose
  split_ifs <;> exact ⟨rfl, rfl, rfl⟩

/-- Every destination pixel byte of `Transpose`, whichever branch is taken. -/
theorem Transpose_pix (d0 : Scratch) (img_out img_in : ImageView) (bpp : Nat)
    (hw : img_out.width = img_in.height) (hh : img_out.height = img_in.width)
    (hp : ValidPitch img_out bpp)
    (r c b : Nat) (hr : r < img_out.height) (hc : c < img_out.width) (hb : b < bpp) :
    pixelByte (Transpose d0 img_out img_in bpp) bpp r c b =
      pixelByte img_in bpp c r b := by
  have htiled : ∀ TSZ, (bpp, TSZ) ∈ tileTable →
      pixelByte (TiledTranspose bpp TSZ d0 img_out img_in) bpp r c b =
        pixelByte img_in bpp c r b := by
    intro TSZ hmem
    obtain ⟨_, hT0, hT, hT2⟩ := tileTable_props bpp TSZ hmem
    exact TiledTranspose_pix _ _ d0 img_out img_in hT0 hw hp r c b (by omega) (by omega) hb
  unfold Transpose
  split_ifs with h1 h2 h3 h4 h5
  · subst h1
    exact htiled 160 (by decide)
  · subst h2
    exact htiled 120 (by decide)
  · subst h3
    exact htiled 80 (by decide)
  · subst h4
    exact htiled 80 (by decide)
  · subst h5
    exact htiled 64 (by decide)
  · have h2 := TransposeGeneric_pix img_out img_in bpp r c b hp hr hc hb
    exact h2

/-- `RotateCCW` leaves the shape of the destination view unchanged. -/
theorem RotateCCW_shape (d0 : Scratch) (img_out img_in : ImageView) (bpp : Nat) :
    (RotateCCW d0 img_out img_in bpp).width = img_out.width ∧
      (RotateCCW d0 img_out img_in bpp).height = img_out.height ∧
      (RotateCCW d0 img_out img_in bpp).pitch = img_out.pitch := by
  unfold RotateCCW
  split_ifs <;> exact ⟨rfl, rfl, rfl⟩

/-- Every destination pixel byte of `RotateCCW`, whichever branch is taken. -/
theorem RotateCCW_pix (d0 : Scratch) (img_out img_in : ImageView) (bpp : Nat)
    (hw : img_out.width = img_in.height) (hh : img_out.height = img_in.width)
    (hp : ValidPitch img_out bpp) (hrepin : Representable img_in)
    (r c b : Nat) (hr : r < img_out.height) (hc : c < img_out.width) (hb : b < bpp) :
    pixelByte (RotateCCW d0 img_out img_in bpp) bpp r c b =
      pixelByte img_in bpp c (img_in.width - 1 - r) b := by
  have htiled : ∀ TSZ, (bpp, TSZ) ∈ tileTable →
      pixelByte (TiledRotateCCW bpp TSZ d0 img_out img_in) bpp r c b =
        pixelByte img_in bpp c (img_in.width - 1 - r) b := by
    intro TSZ hmem
    obtain ⟨_, hT0, hT, hT2⟩ := tileTable_props bpp TSZ hmem
    exact TiledRotateCCW_pix _ _ d0 img_out img_in hT0 hT hT2 hw hp hrepin.1 r c b
      (by omega) (by omega) hb
  unfold RotateCCW
  split_ifs with h1 h2 h3 h4 h5
  · subst h1
    exact htiled 160 (by decide)
  · subst h2
    exact htiled 120 (by decide)
  · subst h3
    exact htiled 80 (by decide)
  · subst h4
    exact htiled 80 (by decide)
  · subst h5
    exact htiled 64 (by decide)
  · have h2 := RotateCCWGeneric_pix img_out img_in bpp r c b hp hr hc hb
    rw [hh] at h2
    exact h2

/-! ## FlipY -/

theorem memcpy_row_pix (o src : Mem) (p W bpp R soff r c b : Nat) (hp : W * bpp ≤ p)
    (hc : c < W) (hb : b < bpp) :
    memcpy o (R * p) src soff (bpp * W) (r * p + c * bpp + b) =
      if r = R then src (soff + (c * bpp + b)) else o (r * p + c * bpp + b) := by
  have h := memcpy_pix o src p W bpp R 0 W soff r c b hp (by omega) hc hb
  simp only [Nat.zero_mul, Nat.add_zero, Nat.sub_zero, Nat.zero_add, Nat.zero_le,
    true_and] at h
  rw [Nat.mul_comm bpp W, h]
  by_cases hq : r = R
  · rw [if_pos ⟨hq, hc⟩, if_pos hq]
  · rw [if_neg (fun h2 => hq h2.1), if_neg hq]

/-- With equal image sizes `FlipY` succeeds, keeps the destination shape, and
every destination pixel byte is the byte of the vertically mirrored source pixel. -/
theorem FlipY_pix (img_out img_in : ImageView) (bpp : Nat)
    (hsize : imageSize img_out = imageSize img_in) (hp : ValidPitch img_out bpp) :
    ∃ res, FlipY img_out img_in bpp = Except.ok res ∧
      res.width = img_out.width ∧ res.height = img_out.height ∧
      res.pitch = img_out.pitch ∧
      ∀ r c b, r < img_out.height → c < img_out.width → b < bpp →
        pixelByte res bpp r c b = pixelByte img_in bpp (img_in.height - 1 - r) c b := by
  have hw : img_out.width = img_in.width := congrArg Prod.fst hsize
  unfold FlipY
  rw [if_neg (not_not.2 hsize)]
  refine ⟨_, rfl, rfl, rfl, rfl, ?_⟩
  intro r c b hr hc hb
  show forLoop 0 img_out.height 1 _ img_out.data (r * img_out.pitch + c * bpp + b) = _
  rw [← hw]
  apply forLoop_hit
    (fun t : Mem => t (r * img_out.pitch + c * bpp + b) =
      pixelByte img_in bpp (img_in.height - 1 - r) c b)
    img_out.height 1 Nat.one_pos _ r 0
  · omega
  · intro y t _ _ ht
    show memcpy t (y * img_out.pitch) img_in.data _ (bpp * img_out.width) _ = _
    rw [memcpy_row_pix t img_in.data img_out.pitch img_out.width bpp y _ r c b hp hc hb]
    by_cases hq : r = y
    · rw [if_pos hq, ← hq]
      unfold pixelByte
      rw [Nat.add_assoc]
    · rw [if_neg hq]
      exact ht
  · intro t
    have e : 0 + r * 1 = r := by omega
    show memcpy t ((0 + r * 1) * img_out.pitch) img_in.data _ (bpp * img_out.width) _ = _
    rw [e, memcpy_row_pix t img_in.data img_out.pitch img_out.width bpp r _ r c b hp hc hb,
      if_pos rfl]
    unfold pixelByte
    rw [Nat.add_assoc]

/-! ## Pixel rows -/

/-- The pixel rows of a view whose pixel bytes are known. -/
theorem pixelRows_eq (img : ImageView) (bpp : Nat) (hbpp : 0 < bpp)
    (f : Nat → Nat → Nat → Nat)
    (h : ∀ r c b, r < img.height → c < img.width → b < bpp →
      pixelByte img bpp r c b = f r c b) :
    pixelRows img bpp =
      (List.range img.height).map fun r =>
        (List.range (img.width * bpp)).map fun k => f r (k / bpp) (k % bpp) := by
  unfold pixelRows
  apply List.map_congr_left
  intro r hr
  apply List.map_congr_left
  intro k hk
  rw [List.mem_range] at hr hk
  have h1 := h r (k / bpp) (k % bpp) hr (Nat.div_lt_of_lt_mul (by rw [Nat.mul_comm]; exact hk))
    (Nat.mod_lt _ hbpp)
  rw [← h1]
  unfold pixelByte
  have h2 := Nat.div_add_mod' k bpp
  rw [Nat.add_assoc, h2]

/-! ## Compositions -/

theorem Representable_of_shape (a b : ImageView) (hw : a.width = b.width)
    (hh : a.height = b.height) (hp : a.pitch = b.pitch) (h : Representable b) :
    Representable a := by
  unfold Representable at *
  rw [hw, hh, hp]
  exact h

/-- Two clockwise rotations: destination pixel `(r, c)` holds source pixel
`(h-1-r, w-1-c)`. -/
theorem RotateCW_twice_pix (bpp : Nat) (d1 d2 : Scratch) (A out1 out2 : ImageView)
    (h1w : out1.width = A.height) (h1h : out1.height = A.width)
    (h2w : out2.width = A.width) (h2h : out2.height = A.height)
    (hp1 : ValidPitch out1 bpp) (hp2 : ValidPitch out2 bpp)
    (hr1 : Representable out1) (hr2 : Representable out2)
    (r c b : Nat) (hr : r < A.height) (hc : c < A.width) (hb : b < bpp) :
    pixelByte (RotateCW d2 out2 (RotateCW d1 out1 A bpp) bpp) bpp r c b =
      pixelByte A bpp (A.height - 1 - r) (A.width - 1 - c) b := by
  obtain ⟨bw, bh, _⟩ := RotateCW_shape d1 out1 A bpp
  have e1 := RotateCW_pix d2 out2 (RotateCW d1 out1 A bpp) bpp (by rw [bh, h1h, h2w])
    (by rw [bw, h1w, h2h]) hp2 hr2 r c b (by omega) (by omega) hb
  rw [bh, h1h] at e1
  have e2 := RotateCW_pix d1 out1 A bpp h1w h1h hp1 hr1 (A.width - 1 - c) r b
    (by omega) (by omega) hb
  exact e1.trans e2

/-! ## Tiled kernel against generic branch -/

/-- C1: for every instantiation `(BPP, TSZ)` of the dispatch table, every source
image and every representable non-aliasing destination of width `h` and height
`w` whose rows do not overlap, each destination pixel byte produced by
`TiledRotateCW<BPP,TSZ>` equals the byte produced by the generic nested-loop
branch of `RotateCW` run with `bytes_per_pixel = BPP`, and both are the byte of
source pixel `(row h-1-c, col r)`.  Neither `w, h ≥ 1` nor a bound on the
source pitch is needed. -/
theorem C1_TiledRotateCW_eq_generic (BPP TSZ : Nat) (hmem : (BPP, TSZ) ∈ tileTable)
    (d0 : Scratch) (img_out img_in : ImageView)
    (hw : img_out.width = img_in.height) (hh : img_out.height = img_in.width)
    (hp : ValidPitch img_out BPP) (hrep : Representable img_out)
    (r c b : Nat) (hr : r < img_out.height) (hc : c < img_out.width) (hb : b < BPP) :
    pixelByte (TiledRotateCW BPP TSZ d0 img_out img_in) BPP r c b =
        pixelByte (RotateCWGeneric img_out img_in BPP) BPP r c b ∧
      pixelByte (RotateCWGeneric img_out img_in BPP) BPP r c b =
        pixelByte img_in BPP (img_in.height - 1 - c) r b := by
  obtain ⟨_, hT0, hT, hT2⟩ := tileTable_props BPP TSZ hmem
  have h1 := TiledRotateCW_pix BPP TSZ d0 img_out img_in hT0 hT hT2 hw hp hrep.2.2 r c b
    (by omega) (by omega) hb
  have h2 := RotateCWGeneric_pix img_out img_in BPP r c b hp hr hc hb
  rw [hw] at h2
  exact ⟨h1.trans h2.symm, h2⟩

/-- The statement of C1 instantiated at the 4 × 2 example image, with its
hypotheses discharged. -/
theorem C1_witness :
    (1, 160) ∈ tileTable ∧ ValidPitch (exampleOutSwapped zeroMem) 1 ∧
      Representable (exampleOutSwapped zeroMem) ∧
      (pixelByte (TiledRotateCW 1 160 zeroScratch (exampleOutSwapped zeroMem) exampleImage)
          1 3 1 0 =
        pixelByte (RotateCWGeneric (exampleOutSwapped zeroMem) exampleImage 1) 1 3 1 0 ∧
      pixelByte (RotateCWGeneric (exampleOutSwapped zeroMem) exampleImage 1) 1 3 1 0 =
        pixelByte exampleImage 1 (exampleImage.height - 1 - 1) 3 0) :=
  ⟨by decide, by decide, by decide,
    C1_TiledRotateCW_eq_generic 1 160 (by decide) zeroScratch (exampleOutSwapped zeroMem)
      exampleImage rfl rfl (by decide) (by decide) 3 1 0 (by decide) (by decide) (by decide)⟩

/-- C2: for every instantiation `(BPP, TSZ)` of the dispatch table, every
representable source image and every non-aliasing destination of width `h` and
height `w` whose rows do not overlap, each destination pixel byte produced by
`TiledRotateCCW<BPP,TSZ>` equals the byte produced by the generic nested-loop
branch of `RotateCCW` run with `bytes_per_pixel = BPP`, and both are the byte
of source pixel `(row c, col w-1-r)`. -/
theorem C2_TiledRotateCCW_eq_generic (BPP TSZ : Nat) (hmem : (BPP, TSZ) ∈ tileTable)
    (d0 : Scratch) (img_out img_in : ImageView)
    (hw : img_out.width = img_in.height) (hh : img_out.height = img_in.width)
    (hp : ValidPitch img_out BPP) (hrep : Representable img_in)
    (r c b : Nat) (hr : r < img_out.height) (hc : c < img_out.width) (hb : b < BPP) :
    pixelByte (TiledRotateCCW BPP TSZ d0 img_out img_in) BPP r c b =
        pixelByte (RotateCCWGeneric img_out img_in BPP) BPP r c b ∧
      pixelByte (RotateCCWGeneric img_out img_in BPP) BPP r c b =
        pixelByte img_in BPP c (img_in.width - 1 - r) b := by
  obtain ⟨_, hT0, hT, hT2⟩ := tileTable_props BPP TSZ hmem
  have h1 := TiledRotateCCW_pix BPP TSZ d0 img_out img_in hT0 hT hT2 hw hp hrep.1 r c b
    (by omega) (by omega) hb
  have h2 := RotateCCWGeneric_pix img_out img_in BPP r c b hp hr hc hb
  rw [hh] at h2
  exact ⟨h1.trans h2.symm, h2⟩

/-- The statement of C2 instantiated at the 4 × 2 example image, with its
hypotheses discharged. -/
theorem C2_witness :
    (1, 160) ∈ tileTable ∧ ValidPitch (exampleOutSwapped zeroMem) 1 ∧
      Representable exampleImage ∧
      (pixelByte (TiledRotateCCW 1 160 zeroScratch (exampleOutSwapped zeroMem) exampleImage)
          1 3 1 0 =
        pixelByte (RotateCCWGeneric (exampleOutSwapped zeroMem) exampleImage 1) 1 3 1 0 ∧
      pixelByte (RotateCCWGeneric (exampleOutSwapped zeroMem) exampleImage 1) 1 3 1 0 =
        pixelByte exampleImage 1 1 (exampleImage.width - 1 - 3) 0) :=
  ⟨by decide, by decide, by decide,
    C2_TiledRotateCCW_eq_generic 1 160 (by decide) zeroScratch (exampleOutSwapped zeroMem)
      exampleImage rfl rfl (by decide) (by decide) 3 1 0 (by decide) (by decide) (by decide)⟩

/-- C3: for every instantiation `(BPP, TSZ)` of the dispatch table, every source
image (edge tiles with `xspan ≠ yspan` included) and every non-aliasing
destination of width `h` and height `w` whose rows do not overlap, each
destination pixel byte produced by `TiledTranspose<BPP,TSZ>` equals the byte
produced by the generic nested-loop branch of `Transpose` run with
`bytes_per_pixel = BPP`, and both are the byte of source pixel `(row c, col r)`. -/
theorem C3_TiledTranspose_eq_generic (BPP TSZ : Nat) (hmem : (BPP, TSZ) ∈ tileTable)
    (d0 : Scratch) (img_out img_in : ImageView)
    (hw : img_out.width = img_in.height) (hh : img_out.height = img_in.width)
    (hp : ValidPitch img_out BPP)
    (r c b : Nat) (hr : r < img_out.height) (hc : c < img_out.width) (hb : b < BPP) :
    pixelByte (TiledTranspose BPP TSZ d0 img_out img_in) BPP r c b =
        pixelByte (TransposeGeneric img_out img_in BPP) BPP r c b ∧
      pixelByte (TransposeGeneric img_out img_in BPP) BPP r c b =
        pixelByte img_in BPP c r b := by
  obtain ⟨_, hT0, _, _⟩ := tileTable_props BPP TSZ hmem
  have h1 := TiledTranspose_pix BPP TSZ d0 img_out img_in hT0 hw hp r c b
    (by omega) (by omega) hb
  have h2 := TransposeGeneric_pix img_out img_in BPP r c b hp hr hc hb
  exact ⟨h1.trans h2.symm, h2⟩

/-- The statement of C3 instantiated at the 4 × 2 example image, with its
hypotheses discharged. -/
theorem C3_witness :
    (1, 160) ∈ tileTable ∧ ValidPitch (exampleOutSwapped zeroMem) 1 ∧
      (pixelByte (TiledTranspose 1 160 zeroScratch (exampleOutSwapped zeroMem) exampleImage)
          1 3 1 0 =
        pixelByte (TransposeGeneric (exampleOutSwapped zeroMem) exampleImage 1) 1 3 1 0 ∧
      pixelByte (TransposeGeneric (exampleOutSwapped zeroMem) exampleImage 1) 1 3 1 0 =
        pixelByte exampleImage 1 1 3 0) :=
  ⟨by decide, by decide,
    C3_TiledTranspose_eq_generic 1 160 (by decide) zeroScratch (exampleOutSwapped zeroMem)
      exampleImage rfl rfl (by decide) 3 1 0 (by decide) (by decide) (by decide)⟩

/-- C4: for every instantiation `(BPP, TSZ)` of the dispatch table (all tile
sizes even), every representable source image and every representable
non-aliasing destination of the same width and height whose rows do not
overlap, each destination pixel byte produced by `TiledRotate180<BPP,TSZ>`
equals the byte produced by the generic nested-loop branch of `FlipXY` run with
`bytes_per_pixel = BPP`, and both are the byte of source pixel
`(row h-1-r, col w-1-c)`. -/
theorem C4_TiledRotate180_eq_generic (BPP TSZ : Nat) (hmem : (BPP, TSZ) ∈ tileTable)
    (d0 : Scratch) (img_out img_in : ImageView)
    (hw : img_out.width = img_in.width) (hh : img_out.height = img_in.height)
    (hp : ValidPitch img_out BPP) (hrep : Representable img_out)
    (hrepin : Representable img_in)
    (r c b : Nat) (hr : r < img_out.height) (hc : c < img_out.width) (hb : b < BPP) :
    pixelByte (TiledRotate180 BPP TSZ d0 img_out img_in) BPP r c b =
        pixelByte (FlipXYGeneric img_out img_in BPP) BPP r c b ∧
      pixelByte (FlipXYGeneric img_out img_in BPP) BPP r c b =
        pixelByte img_in BPP (img_in.height - 1 - r) (img_in.width - 1 - c) b := by
  obtain ⟨_, hT0, hT, hT2⟩ := tileTable_props BPP TSZ hmem
  have h1 := TiledRotate180_pix BPP TSZ d0 img_out img_in hT0 hT hT2 hw hp hrep.2.2
    hrepin.2.1 r c b (by omega) (by omega) hb
  have h2 := FlipXYGeneric_pix img_out img_in BPP r c b hp hr hc hb
  rw [hw] at h2
  exact ⟨h1.trans h2.symm, h2⟩

/-- The statement of C4 instantiated at the 4 × 2 example image, with its
hypotheses discharged. -/
theorem C4_witness :
    (1, 160) ∈ tileTable ∧ ValidPitch (exampleOutSame zeroMem) 1 ∧
      Representable (exampleOutSame zeroMem) ∧ Representable exampleImage ∧
      (pixelByte (TiledRotate180 1 160 zeroScratch (exampleOutSame zeroMem) exampleImage)
          1 1 3 0 =
        pixelByte (FlipXYGeneric (exampleOutSame zeroMem) exampleImage 1) 1 1 3 0 ∧
      pixelByte (FlipXYGeneric (exampleOutSame zeroMem) exampleImage 1) 1 1 3 0 =
        pixelByte exampleImage 1 (exampleImage.height - 1 - 1) (exampleImage.width - 1 - 3)
          0) :=
  ⟨by decide, by decide, by decide, by decide,
    C4_TiledRotate180_eq_generic 1 160 (by decide) zeroScratch (exampleOutSame zeroMem)
      exampleImage rfl rfl (by decide) (by decide) (by decide) 1 3 0 (by decide) (by decide)
      (by decide)⟩

/-- C5: for every instantiation `(BPP, TSZ)` of the dispatch table, every source
image and every representable non-aliasing destination of the same width and
height whose rows do not overlap, each destination pixel byte produced by
`TiledFlipX<BPP,TSZ>` equals the byte produced by the generic nested-loop branch
of `FlipX` run with `bytes_per_pixel = BPP`, and both are the byte of source
pixel `(row r, col w-1-c)`. -/
theorem C5_TiledFlipX_eq_generic (BPP TSZ : Nat) (hmem : (BPP, TSZ) ∈ tileTable)
    (d0 : Scratch) (img_out img_in : ImageView)
    (hw : img_out.width = img_in.width) (hh : img_out.height = img_in.height)
    (hp : ValidPitch img_out BPP) (hrep : Representable img_out)
    (r c b : Nat) (hr : r < img_out.height) (hc : c < img_out.width) (hb : b < BPP) :
    pixelByte (TiledFlipX BPP TSZ d0 img_out img_in) BPP r c b =
        pixelByte (FlipXGeneric img_out img_in BPP) BPP r c b ∧
      pixelByte (FlipXGeneric img_out img_in BPP) BPP r c b =
        pixelByte img_in BPP r (img_in.width - 1 - c) b := by
  obtain ⟨_, hT0, hT, _⟩ := tileTable_props BPP TSZ hmem
  have h1 := TiledFlipX_pix BPP TSZ d0 img_out img_in hT0 hT hw hp hrep.2.2 r c b
    (by omega) (by omega) hb
  have h2 := FlipXGeneric_pix img_out img_in BPP r c b hp hr hc hb
  rw [hw] at h2
  exact ⟨h1.trans h2.symm, h2⟩

/-- The statement of C5 instantiated at the 4 × 2 example image, with its
hypotheses discharged. -/
theorem C5_witness :
    (1, 160) ∈ tileTable ∧ ValidPitch (exampleOutSame zeroMem) 1 ∧
      Representable (exampleOutSame zeroMem) ∧
      (pixelByte (TiledFlipX 1 160 zeroScratch (exampleOutSame zeroMem) exampleImage)
          1 1 3 0 =
        pixelByte (FlipXGeneric (exampleOutSame zeroMem) exampleImage 1) 1 1 3 0 ∧
      pixelByte (FlipXGeneric (exampleOutSame zeroMem) exampleImage 1) 1 1 3 0 =
        pixelByte exampleImage 1 1 (exampleImage.width - 1 - 3) 0) :=
  ⟨by decide, by decide, by decide,
    C5_TiledFlipX_eq_generic 1 160 (by decide) zeroScratch (exampleOutSame zeroMem)
      exampleImage rfl rfl (by decide) (by decide) 1 3 0 (by decide) (by decide) (by decide)⟩

/-! ## The worked example -/

/-- C6: on the single-byte image of width 4 and height 2 with rows `[1,2,3,4]`
and `[5,6,7,8]`, run with `bytes_per_pixel = 1` (whatever the scratch tile and
the destination buffer held before): `FlipX` yields the 4-wide, 2-high image
`[[4,3,2,1],[8,7,6,5]]`; `Transpose` yields the 2-wide, 4-high image
`[[1,5],[2,6],[3,7],[4,8]]`; `RotateCW` yields the 2-wide, 4-high image
`[[5,1],[6,2],[7,3],[8,4]]`. -/
theorem C6_worked_example (d0 : Scratch) (o : Mem) :
    (pixelRows (FlipX d0 (exampleOutSame o) exampleImage 1) 1 = [[4, 3, 2, 1], [8, 7, 6, 5]] ∧
      (FlipX d0 (exampleOutSame o) exampleImage 1).width = 4 ∧
      (FlipX d0 (exampleOutSame o) exampleImage 1).height = 2) ∧
    (pixelRows (Transpose d0 (exampleOutSwapped o) exampleImage 1) 1 =
        [[1, 5], [2, 6], [3, 7], [4, 8]] ∧
      (Transpose d0 (exampleOutSwapped o) exampleImage 1).width = 2 ∧
      (Transpose d0 (exampleOutSwapped o) exampleImage 1).height = 4) ∧
    (pixelRows (RotateCW d0 (exampleOutSwapped o) exampleImage 1) 1 =
        [[5, 1], [6, 2], [7, 3], [8, 4]] ∧
      (RotateCW d0 (exampleOutSwapped o) exampleImage 1).width = 2 ∧
      (RotateCW d0 (exampleOutSwapped o) exampleImage 1).height = 4) := by
  have hrepS : Representable (exampleOutSame o) := by
    show 4 < SIZE_MOD ∧ 2 < SIZE_MOD ∧ 4 < SIZE_MOD
    decide
  have hrepW : Representable (exampleOutSwapped o) := by
    show 2 < SIZE_MOD ∧ 4 < SIZE_MOD ∧ 2 < SIZE_MOD
    decide
  have hpS : ValidPitch (exampleOutSame o) 1 := by
    show 4 * 1 ≤ 4
    decide
  have hpW : ValidPitch (exampleOutSwapped o) 1 := by
    show 2 * 1 ≤ 2
    decide
  obtain ⟨fw, fh, _⟩ := FlipX_shape d0 (exampleOutSame o) exampleImage 1
  obtain ⟨tw, th, _⟩ := Transpose_shape d0 (exampleOutSwapped o) exampleImage 1
  obtain ⟨rw_, rh, _⟩ := RotateCW_shape d0 (exampleOutSwapped o) exampleImage 1
  refine ⟨⟨?_, fw, fh⟩, ⟨?_, tw, th⟩, ⟨?_, rw_, rh⟩⟩
  · rw [pixelRows_eq _ 1 Nat.one_pos
      (fun r c b => pixelByte exampleImage 1 r (exampleImage.width - 1 - c) b)
      (fun r c b hr hc hb => FlipX_pix d0 (exampleOutSame o) exampleImage 1 rfl rfl hpS hrepS
        r c b (fh ▸ hr) (fw ▸ hc) hb), fw, fh]
    show (List.range 2).map (fun r => (List.range (4 * 1)).map fun k =>
      pixelByte exampleImage 1 r (exampleImage.width - 1 - k / 1) (k % 1)) = _
    decide
  · rw [pixelRows_eq _ 1 Nat.one_pos
      (fun r c b => pixelByte exampleImage 1 c r b)
      (fun r c b hr hc hb => Transpose_pix d0 (exampleOutSwapped o) exampleImage 1 rfl rfl hpW
        r c b (th ▸ hr) (tw ▸ hc) hb), tw, th]
    show (List.range 4).map (fun r => (List.range (2 * 1)).map fun k =>
      pixelByte exampleImage 1 (k / 1) r (k % 1)) = _
    decide
  · rw [pixelRows_eq _ 1 Nat.one_pos
      (fun r c b => pixelByte exampleImage 1 (exampleImage.height - 1 - c) r b)
      (fun r c b hr hc hb => RotateCW_pix d0 (exampleOutSwapped o) exampleImage 1 rfl rfl hpW
        hrepW r c b (rh ▸ hr) (rw_ ▸ hc) hb), rw_, rh]
    show (List.range 4).map (fun r => (List.range (2 * 1)).map fun k =>
      pixelByte exampleImage 1 (exampleImage.height - 1 - k / 1) r (k % 1)) = _
    decide

/-! ## Algebraic relations between the kernels -/

/-- C7: `RotateCW` and `RotateCCW` are mutually inverse.  For every
bytes-per-pixel and every representable `w × h` image `A`, with representable
destinations of the matching shapes whose rows do not overlap: `RotateCCW`
applied to the `h × w` result of `RotateCW(A)` has the pixels of `A`, and
`RotateCW` applied to the result of `RotateCCW(A)` has the pixels of `A`. -/
theorem C7_RotateCW_RotateCCW_inverse (bpp : Nat) (d1 d2 : Scratch)
    (A out1 out2 : ImageView)
    (h1w : out1.width = A.height) (h1h : out1.height = A.width)
    (h2w : out2.width = A.width) (h2h : out2.height = A.height)
    (hp1 : ValidPitch out1 bpp) (hp2 : ValidPitch out2 bpp)
    (hrA : Representable A) (hr1 : Representable out1) (hr2 : Representable out2)
    (r c b : Nat) (hr : r < A.height) (hc : c < A.width) (hb : b < bpp) :
    pixelByte (RotateCCW d2 out2 (RotateCW d1 out1 A bpp) bpp) bpp r c b =
        pixelByte A bpp r c b ∧
      pixelByte (RotateCW d2 out2 (RotateCCW d1 out1 A bpp) bpp) bpp r c b =
        pixelByte A bpp r c b := by
  constructor
  · obtain ⟨bw, bh, bp⟩ := RotateCW_shape d1 out1 A bpp
    have hB : Representable (RotateCW d1 out1 A bpp) :=
      Representable_of_shape _ _ bw bh bp hr1
    have e1 := RotateCCW_pix d2 out2 (RotateCW d1 out1 A bpp) bpp (by rw [bh, h1h, h2w])
      (by rw [bw, h1w, h2h]) hp2 hB r c b (by omega) (by omega) hb
    rw [bw, h1w] at e1
    have e2 := RotateCW_pix d1 out1 A bpp h1w h1h hp1 hr1 c (A.height - 1 - r) b
      (by omega) (by omega) hb
    have e3 : A.height - 1 - (A.height - 1 - r) = r := by omega
    rw [e3] at e2
    exact e1.trans e2
  · obtain ⟨bw, bh, bp⟩ := RotateCCW_shape d1 out1 A bpp
    have e1 := RotateCW_pix d2 out2 (RotateCCW d1 out1 A bpp) bpp (by rw [bh, h1h, h2w])
      (by rw [bw, h1w, h2h]) hp2 hr2 r c b (by omega) (by omega) hb
    rw [bh, h1h] at e1
    have e2 := RotateCCW_pix d1 out1 A bpp h1w h1h hp1 hrA (A.width - 1 - c) r b
      (by omega) (by omega) hb
    have e3 : A.width - 1 - (A.width - 1 - c) = c := by omega
    rw [e3] at e2
    exact e1.trans e2

/-- The statement of C7 instantiated at the 4 × 2 example image, with its
hypotheses discharged. -/
theorem C7_witness :
    ValidPitch (exampleOutSwapped zeroMem) 1 ∧ ValidPitch (exampleOutSame zeroMem) 1 ∧
      Representable exampleImage ∧ Representable (exampleOutSwapped zeroMem) ∧
      Representable (exampleOutSame zeroMem) ∧
      (pixelByte (RotateCCW zeroScratch (exampleOutSame zeroMem)
          (RotateCW zeroScratch (exampleOutSwapped zeroMem) exampleImage 1) 1) 1 1 3 0 =
        pixelByte exampleImage 1 1 3 0 ∧
      pixelByte (RotateCW zeroScratch (exampleOutSame zeroMem)
          (RotateCCW zeroScratch (exampleOutSwapped zeroMem) exampleImage 1) 1) 1 1 3 0 =
        pixelByte exampleImage 1 1 3 0) :=
  ⟨by decide, by decide, by decide, by decide, by decide,
    C7_RotateCW_RotateCCW_inverse 1 zeroScratch zeroScratch exampleImage
      (exampleOutSwapped zeroMem) (exampleOutSame zeroMem) rfl rfl rfl rfl (by decide)
      (by decide) (by decide) (by decide) (by decide) 1 3 0 (by decide) (by decide)
      (by decide)⟩

/-- C8: each of `FlipX`, `FlipY`, `FlipXY` and `Transpose` is an involution.
For every bytes-per-pixel and every `w × h` image `A`, with representable
destinations of the matching shapes whose rows do not overlap (`outT` of shape
`h × w` for the intermediate `Transpose` result): applying the operation to
its own output gives an image with the pixels of `A`; the two `FlipY` calls
both succeed. -/
theorem C8_flips_and_transpose_involutive (bpp : Nat) (d1 d2 : Scratch)
    (A out1 out2 outT : ImageView)
    (h1w : out1.width = A.width) (h1h : out1.height = A.height)
    (h2w : out2.width = A.width) (h2h : out2.height = A.height)
    (hTw : outT.width = A.height) (hTh : outT.height = A.width)
    (hp1 : ValidPitch out1 bpp) (hp2 : ValidPitch out2 bpp) (hpT : ValidPitch outT bpp)
    (hrA : Representable A) (hr1 : Representable out1) (hr2 : Representable out2)
    (r c b : Nat) (hr : r < A.height) (hc : c < A.width) (hb : b < bpp) :
    pixelByte (FlipX d2 out2 (FlipX d1 out1 A bpp) bpp) bpp r c b = pixelByte A bpp r c b ∧
      (∃ B C, FlipY out1 A bpp = Except.ok B ∧ FlipY out2 B bpp = Except.ok C ∧
        pixelByte C bpp r c b = pixelByte A bpp r c b) ∧
      pixelByte (FlipXY d2 out2 (FlipXY d1 out1 A bpp) bpp) bpp r c b =
        pixelByte A bpp r c b ∧
      pixelByte (Transpose d2 out2 (Transpose d1 outT A bpp) bpp) bpp r c b =
        pixelByte A bpp r c b := by
  refine ⟨?_, ?_, ?_, ?_⟩
  · obtain ⟨bw, bh, _⟩ := FlipX_shape d1 out1 A bpp
    have e1 := FlipX_pix d2 out2 (FlipX d1 out1 A bpp) bpp (by rw [bw, h1w, h2w])
      (by rw [bh, h1h, h2h]) hp2 hr2 r c b (by omega) (by omega) hb
    rw [bw, h1w] at e1
    have e2 := FlipX_pix d1 out1 A bpp h1w h1h hp1 hr1 r (A.width - 1 - c) b
      (by omega) (by omega) hb
    have e3 : A.width - 1 - (A.width - 1 - c) = c := by omega
    rw [e3] at e2
    exact e1.trans e2
  · obtain ⟨B, hB, bw, bh, _, hBpix⟩ := FlipY_pix out1 A bpp
      (by unfold imageSize; rw [h1w, h1h]) hp1
    obtain ⟨C, hC, _, _, _, hCpix⟩ := FlipY_pix out2 B bpp
      (by unfold imageSize; rw [h2w, h2h, bw, bh, h1w, h1h]) hp2
    refine ⟨B, C, hB, hC, ?_⟩
    have e1 := hCpix r c b (by omega) (by omega) hb
    rw [bh, h1h] at e1
    have e2 := hBpix (A.height - 1 - r) c b (by omega) (by omega) hb
    have e3 : A.height - 1 - (A.height - 1 - r) = r := by omega
    rw [e3] at e2
    exact e1.trans e2
  · obtain ⟨bw, bh, bp⟩ := FlipXY_shape d1 out1 A bpp
    have hB : Representable (FlipXY d1 out1 A bpp) :=
      Representable_of_shape _ _ bw bh bp hr1
    have e1 := FlipXY_pix d2 out2 (FlipXY d1 out1 A bpp) bpp (by rw [bw, h1w, h2w])
      (by rw [bh, h1h, h2h]) hp2 hr2 hB r c b (by omega) (by omega) hb
    rw [bw, h1w, bh, h1h] at e1
    have e2 := FlipXY_pix d1 out1 A bpp h1w h1h hp1 hr1 hrA (A.height - 1 - r)
      (A.width - 1 - c) b (by omega) (by omega) hb
    have e3 : A.width - 1 - (A.width - 1 - c) = c := by omega
    have e4 : A.height - 1 - (A.height - 1 - r) = r := by omega
    rw [e3, e4] at e2
    exact e1.trans e2
  · obtain ⟨bw, bh, _⟩ := Transpose_shape d1 outT A bpp
    have e1 := Transpose_pix d2 out2 (Transpose d1 outT A bpp) bpp (by rw [bh, hTh, h2w])
      (by rw [bw, hTw, h2h]) hp2 r c b (by omega) (by omega) hb
    have e2 := Transpose_pix d1 outT A bpp hTw hTh hpT c r b (by omega) (by omega) hb
    exact e1.trans e2

/-- The statement of C8 instantiated at the 4 × 2 example image, with its
hypotheses discharged. -/
theorem C8_witness :
    ValidPitch (exampleOutSame zeroMem) 1 ∧ ValidPitch (exampleOutSwapped zeroMem) 1 ∧
      Representable exampleImage ∧ Representable (exampleOutSame zeroMem) ∧
      (pixelByte (FlipX zeroScratch (exampleOutSame zeroMem)
          (FlipX zeroScratch (exampleOutSame zeroMem) exampleImage 1) 1) 1 1 3 0 =
        pixelByte exampleImage 1 1 3 0 ∧
      (∃ B C, FlipY (exampleOutSame zeroMem) exampleImage 1 = Except.ok B ∧
        FlipY (exampleOutSame zeroMem) B 1 = Except.ok C ∧
        pixelByte C 1 1 3 0 = pixelByte exampleImage 1 1 3 0) ∧
      pixelByte (FlipXY zeroScratch (exampleOutSame zeroMem)
          (FlipXY zeroScratch (exampleOutSame zeroMem) exampleImage 1) 1) 1 1 3 0 =
        pixelByte exampleImage 1 1 3 0 ∧
      pixelByte (Transpose zeroScratch (exampleOutSame zeroMem)
          (Transpose zeroScratch (exampleOutSwapped zeroMem) exampleImage 1) 1) 1 1 3 0 =
        pixelByte exampleImage 1 1 3 0) :=
  ⟨by decide, by decide, by decide, by decide,
    C8_flips_and_transpose_involutive 1 zeroScratch zeroScratch exampleImage
      (exampleOutSame zeroMem) (exampleOutSame zeroMem) (exampleOutSwapped zeroMem)
      rfl rfl rfl rfl rfl rfl (by decide) (by decide) (by decide) (by decide) (by decide)
      (by decide) 1 3 0 (by decide) (by decide) (by decide)⟩

/-- C9: for every bytes-per-pixel and every `w × h` image `A`, applying
`RotateCW` four times in succession (representable destinations alternating
`h × w` and `w × h`, rows not overlapping) returns an image with the pixels
of `A`. -/
theorem C9_RotateCW_four_times (bpp : Nat) (d1 d2 d3 d4 : Scratch)
    (A out1 out2 out3 out4 : ImageView)
    (h1w : out1.width = A.height) (h1h : out1.height = A.width)
    (h2w : out2.width = A.width) (h2h : out2.height = A.height)
    (h3w : out3.width = A.height) (h3h : out3.height = A.width)
    (h4w : out4.width = A.width) (h4h : out4.height = A.height)
    (hp1 : ValidPitch out1 bpp) (hp2 : ValidPitch out2 bpp)
    (hp3 : ValidPitch out3 bpp) (hp4 : ValidPitch out4 bpp)
    (hr1 : Representable out1) (hr2 : Representable out2)
    (hr3 : Representable out3) (hr4 : Representable out4)
    (r c b : Nat) (hr : r < A.height) (hc : c < A.width) (hb : b < bpp) :
    pixelByte (RotateCW d4 out4 (RotateCW d3 out3
        (RotateCW d2 out2 (RotateCW d1 out1 A bpp) bpp) bpp) bpp) bpp r c b =
      pixelByte A bpp r c b := by
  obtain ⟨cw, ch, _⟩ := RotateCW_shape d2 out2 (RotateCW d1 out1 A bpp) bpp
  have e1 := RotateCW_twice_pix bpp d3 d4 (RotateCW d2 out2 (RotateCW d1 out1 A bpp) bpp)
    out3 out4 (by rw [ch, h2h, h3w]) (by rw [cw, h2w, h3h]) (by rw [cw, h2w, h4w])
    (by rw [ch, h2h, h4h]) hp3 hp4 hr3 hr4 r c b (by omega) (by omega) hb
  rw [cw, ch, h2w, h2h] at e1
  have e2 := RotateCW_twice_pix bpp d1 d2 A out1 out2 h1w h1h h2w h2h hp1 hp2 hr1 hr2
    (A.height - 1 - r) (A.width - 1 - c) b (by omega) (by omega) hb
  have e3 : A.width - 1 - (A.width - 1 - c) = c := by omega
  have e4 : A.height - 1 - (A.height - 1 - r) = r := by omega
  rw [e3, e4] at e2
  exact e1.trans e2

/-- The statement of C9 instantiated at the 4 × 2 example image, with its
hypotheses discharged. -/
theorem C9_witness :
    ValidPitch (exampleOutSwapped zeroMem) 1 ∧ ValidPitch (exampleOutSame zeroMem) 1 ∧
      Representable (exampleOutSwapped zeroMem) ∧ Representable (exampleOutSame zeroMem) ∧
      pixelByte (RotateCW zeroScratch (exampleOutSame zeroMem)
        (RotateCW zeroScratch (exampleOutSwapped zeroMem)
          (RotateCW zeroScratch (exampleOutSame zeroMem)
            (RotateCW zeroScratch (exampleOutSwapped zeroMem) exampleImage 1) 1) 1) 1)
        1 1 3 0 = pixelByte exampleImage 1 1 3 0 :=
  ⟨by decide, by decide, by decide, by decide,
    C9_RotateCW_four_times 1 zeroScratch zeroScratch zeroScratch zeroScratch exampleImage
      (exampleOutSwapped zeroMem) (exampleOutSame zeroMem) (exampleOutSwapped zeroMem)
      (exampleOutSame zeroMem) rfl rfl rfl rfl rfl rfl rfl rfl (by decide) (by decide)
      (by decide) (by decide) (by decide) (by decide) (by decide) (by decide) 1 3 0
      (by decide) (by decide) (by decide)⟩

/-- C10: for every bytes-per-pixel and every representable `w × h` image `A`
(representable destinations of the matching shapes, rows not overlapping), the
pixels of `FlipXY(A)` equal the pixels of `RotateCW(RotateCW(A))`. -/
theorem C10_FlipXY_eq_RotateCW_twice (bpp : Nat) (d0 d1 d2 : Scratch)
    (A out out1 out2 : ImageView)
    (hw : out.width = A.width) (hh : out.height = A.height)
    (h1w : out1.width = A.height) (h1h : out1.height = A.width)
    (h2w : out2.width = A.width) (h2h : out2.height = A.height)
    (hp : ValidPitch out bpp) (hp1 : ValidPitch out1 bpp) (hp2 : ValidPitch out2 bpp)
    (hrA : Representable A) (hro : Representable out)
    (hr1 : Representable out1) (hr2 : Representable out2)
    (r c b : Nat) (hr : r < A.height) (hc : c < A.width) (hb : b < bpp) :
    pixelByte (FlipXY d0 out A bpp) bpp r c b =
      pixelByte (RotateCW d2 out2 (RotateCW d1 out1 A bpp) bpp) bpp r c b := by
  have e1 := FlipXY_pix d0 out A bpp hw hh hp hro hrA r c b (by omega) (by omega) hb
  have e2 := RotateCW_twice_pix bpp d1 d2 A out1 out2 h1w h1h h2w h2h hp1 hp2 hr1 hr2
    r c b hr hc hb
  exact e1.trans e2.symm

/-- The statement of C10 instantiated at the 4 × 2 example image, with its
hypotheses discharged. -/
theorem C10_witness :
    ValidPitch (exampleOutSame zeroMem) 1 ∧ ValidPitch (exampleOutSwapped zeroMem) 1 ∧
      Representable exampleImage ∧ Representable (exampleOutSame zeroMem) ∧
      Representable (exampleOutSwapped zeroMem) ∧
      pixelByte (FlipXY zeroScratch (exampleOutSame zeroMem) exampleImage 1) 1 1 3 0 =
        pixelByte (RotateCW zeroScratch (exampleOutSame zeroMem)
          (RotateCW zeroScratch (exampleOutSwapped zeroMem) exampleImage 1) 1) 1 1 3 0 :=
  ⟨by decide, by decide, by decide, by decide, by decide,
    C10_FlipXY_eq_RotateCW_twice 1 zeroScratch zeroScratch zeroScratch exampleImage
      (exampleOutSame zeroMem) (exampleOutSwapped zeroMem) (exampleOutSame zeroMem)
      rfl rfl rfl rfl rfl rfl (by decide) (by decide) (by decide) (by decide) (by decide)
      (by decide) (by decide) 1 3 0 (by decide) (by decide) (by decide)⟩

/-! ## Construction of the driver -/

theorem forLoop_done {σ : Type} (lo hi step : Nat) (body : Nat → σ → σ) (s : σ)
    (h : hi ≤ lo) : forLoop lo hi step body s = s := by
  rw [forLoop_unfold, if_neg (by omega)]

theorem forLoop_one {σ : Type} (body : Nat → σ → σ) (s : σ) :
    forLoop 0 1 1 body s = body 0 s := by
  rw [forLoop_unfold, if_pos (by omega), forLoop_done _ _ _ _ _ (by omega)]

/-- A named kind makes the constructor's switch append exactly one descriptor. -/
theorem TransformVideo_switch_named (s : StreamInfo) (k : TransformOptions)
    (hk : k.isNamed = true) : ∃ x, TransformVideo_switch s k = [x] := by
  cases k <;> first | exact ⟨_, rfl⟩ | simp [TransformOptions.isNamed] at hk

/-- The four flip kinds make the switch append the child's descriptor itself. -/
theorem TransformVideo_switch_flip (s : StreamInfo) (k : TransformOptions)
    (hk : k = TransformOptions.None ∨ k = TransformOptions.FlipX ∨
      k = TransformOptions.FlipY ∨ k = TransformOptions.FlipXY) :
    TransformVideo_switch s k = [s] := by
  rcases hk with h | h | h | h <;> subst h <;> rfl

/-- With a kind for every child stream the constructor's loop completes. -/
theorem TransformVideo_ctorLoop_ok (videoin : VideoInterface) (flips : List TransformOptions)
    (hlen : videoin.Streams.length ≤ flips.length) :
    ∃ l, forLoop 0 videoin.Streams.length 1 (TransformVideo_ctorStep videoin flips)
      (Outcome.ok []) = Outcome.ok l := by
  apply forLoop_pres (fun st : Outcome (List StreamInfo) => ∃ l, st = Outcome.ok l)
    videoin.Streams.length 1 _ (videoin.Streams.length - 0) 0 _ (Nat.le_refl _)
  · intro i st _ hi hst
    obtain ⟨l, rfl⟩ := hst
    obtain ⟨s, hs⟩ : ∃ s, videoin.Streams[i]? = some s :=
      ⟨videoin.Streams[i], List.getElem?_eq_getElem hi⟩
    obtain ⟨k, hk⟩ : ∃ k, flips[i]? = some k :=
      ⟨flips[i], List.getElem?_eq_getElem (by omega)⟩
    refine ⟨l ++ TransformVideo_switch s k, ?_⟩
    simp only [TransformVideo_ctorStep, Outcome.bind, hs, hk]
  · exact ⟨[], rfl⟩

/-- With a named kind for every child stream the constructor's loop appends
one descriptor per child stream, in order. -/
theorem TransformVideo_ctorLoop_named (videoin : VideoInterface)
    (flips : List TransformOptions) (hlen : videoin.Streams.length ≤ flips.length)
    (hnamed : ∀ k, k ∈ flips → k.isNamed = true) :
    ∃ l, forLoop 0 videoin.Streams.length 1 (TransformVideo_ctorStep videoin flips)
        (Outcome.ok []) = Outcome.ok l ∧
      l.length = videoin.Streams.length ∧
      ∀ (i : Nat) (s : StreamInfo) (k : TransformOptions),
        videoin.Streams[i]? = some s → flips[i]? = some k →
        l[i]? = (TransformVideo_switch s k).head? := by
  have key := forLoop_inv
    (fun i (st : Outcome (List StreamInfo)) => ∃ l : List StreamInfo,
      st = Outcome.ok l ∧ l.length = i ∧
      ∀ (j : Nat) (s : StreamInfo) (k : TransformOptions), j < i →
        videoin.Streams[j]? = some s → flips[j]? = some k →
        l[j]? = (TransformVideo_switch s k).head?)
    videoin.Streams.length (TransformVideo_ctorStep videoin flips)
    (videoin.Streams.length - 0) 0 (Outcome.ok []) (Nat.le_refl _) (Nat.zero_le _)
    ⟨[], rfl, rfl, fun j s k hj => absurd hj (by omega)⟩
    (by
      intro i st _ hi hst
      obtain ⟨l, rfl, hl, hprev⟩ := hst
      obtain ⟨s, hs⟩ : ∃ s, videoin.Streams[i]? = some s :=
        ⟨videoin.Streams[i], List.getElem?_eq_getElem hi⟩
      obtain ⟨k, hk⟩ : ∃ k, flips[i]? = some k :=
        ⟨flips[i], List.getElem?_eq_getElem (by omega)⟩
      have hkn : k.isNamed = true := hnamed k (List.getElem?_mem hk)
      obtain ⟨x, hx⟩ := TransformVideo_switch_named s k hkn
      refine ⟨l ++ [x], ?_, ?_, ?_⟩
      · simp only [TransformVideo_ctorStep, Outcome.bind, hs, hk, hx]
      · simp [hl]
      · intro j s2 k2 hj hs2 hk2
        by_cases hji : j = i
        · subst hji
          rw [hs] at hs2
          rw [hk] at hk2
          cases hs2
          cases hk2
          rw [hx, List.getElem?_append_right (by omega), hl]
          simp
        · rw [List.getElem?_append_left (by omega)]
          exact hprev j s2 k2 (by omega) hs2 hk2)
  obtain ⟨l, h1, h2, h3⟩ := key
  refine ⟨l, h1, h2, ?_⟩
  intro i s k hs hk
  have hi : i < videoin.Streams.length := by
    by_contra hcon
    rw [List.getElem?_eq_none (by omega)] at hs
    cases hs
  exact h3 i s k hi hs hk

/-- With a kind for every child stream and a non-null child the constructor
completes, whatever the kinds are. -/
theorem TransformVideo_new_ok (videoin : VideoInterface) (flips : List TransformOptions)
    (buffer0 : Mem) (hlen : videoin.Streams.length ≤ flips.length) :
    ∃ tv, TransformVideo_new (some videoin) flips buffer0 = Outcome.ok tv ∧
      tv.videoin = videoin ∧ tv.flips = flips ∧ tv.size_bytes = videoin.SizeBytes := by
  obtain ⟨l, hl⟩ := TransformVideo_ctorLoop_ok videoin flips hlen
  refine ⟨{ videoin := videoin, flips := flips, streams := l,
            size_bytes := videoin.SizeBytes, buffer := buffer0 }, ?_, rfl, rfl, rfl⟩
  unfold TransformVideo_new
  simp only [hl, Outcome.bind]

/-- With a named kind for every child stream the constructor produces a
driver with one descriptor per child stream, each the one its switch case builds. -/
theorem TransformVideo_new_named (videoin : VideoInterface) (flips : List TransformOptions)
    (buffer0 : Mem) (hlen : videoin.Streams.length ≤ flips.length)
    (hnamed : ∀ k, k ∈ flips → k.isNamed = true) :
    ∃ tv, TransformVideo_new (some videoin) flips buffer0 = Outcome.ok tv ∧
      tv.videoin = videoin ∧ tv.flips = flips ∧ tv.size_bytes = videoin.SizeBytes ∧
      tv.streams.length = videoin.Streams.length ∧
      ∀ (i : Nat) (s : StreamInfo) (k : TransformOptions),
        videoin.Streams[i]? = some s → flips[i]? = some k →
        tv.streams[i]? = (TransformVideo_switch s k).head? := by
  obtain ⟨l, hl, hlen2, hget⟩ := TransformVideo_ctorLoop_named videoin flips hlen hnamed
  refine ⟨{ videoin := videoin, flips := flips, streams := l,
            size_bytes := videoin.SizeBytes, buffer := buffer0 }, ?_, rfl, rfl, rfl, hlen2, hget⟩
  unfold TransformVideo_new
  simp only [hl, Outcome.bind]

/-! ## Derived stream descriptors -/

/-- C11 (evaluation at a failing input): for a child stream 2 wide and 4 high
with one byte per pixel and pitch 2 (so `pitch >= width * bpp` holds for the
child) and kind `RotateCW`, the constructor derives a descriptor 4 wide and
2 high with the child's format and offset, and with the child's pitch 2 taken
over unchanged: the derived pitch is below `width' * bpp = 4`. -/
theorem C11_pitch_taken_over_unchanged :
    ∃ tv, TransformVideo_new (some (exampleChild [exampleTallStream] 8 true exampleFrame))
        [TransformOptions.RotateCW] zeroMem = Outcome.ok tv ∧
      tv.Streams = [{ format := { bytesPerPixel := 1 },
                      shape := { width := 4, height := 2, pitchBytes := 2 },
                      offsetBytes := 0 }] ∧
      exampleTallStream.shape.width * exampleTallStream.format.bytesPerPixel ≤
        exampleTallStream.shape.pitchBytes ∧
      ∀ s, s ∈ tv.Streams →
        ¬ (s.shape.width * s.format.bytesPerPixel ≤ s.shape.pitchBytes) := by
  refine ⟨{ videoin := exampleChild [exampleTallStream] 8 true exampleFrame,
            flips := [TransformOptions.RotateCW],
            streams := [{ format := { bytesPerPixel := 1 },
                          shape := { width := 4, height := 2, pitchBytes := 2 },
                          offsetBytes := 0 }],
            size_bytes := 8, buffer := zeroMem }, ?_, rfl, by decide, ?_⟩
  · unfold TransformVideo_new
    show Outcome.bind (forLoop 0 1 1 _ (Outcome.ok ([] : List StreamInfo))) _ = _
    rw [forLoop_one]
    rfl
  · intro s hs
    simp only [TransformVideo.Streams, List.mem_singleton] at hs
    subst hs
    decide

/-- C12 (evaluation at a failing input): for a child with frame size 8 and one
single-byte stream 4 wide and 2 high at pitch 4 (so the child's descriptor
fits: `0 + 2 * 4 <= 8`) and kind `Transpose`, the driver reports the same
frame size 8 while its derived descriptor has height 4 at the unchanged pitch
4, so `offset + height * pitch = 16 > 8`; and `Process` writes source byte 4
at offset 12 of the caller's buffer, beyond `SizeBytes()`. -/
theorem C12_descriptor_exceeds_frame :
    ∃ tv out,
      TransformVideo_new (some (exampleChild [exampleWideStream] 8 true exampleFrame))
        [TransformOptions.Transpose] zeroMem = Outcome.ok tv ∧
      (∀ s, s ∈ (exampleChild [exampleWideStream] 8 true exampleFrame).Streams →
        s.offsetBytes + s.shape.height * s.shape.pitchBytes ≤
          (exampleChild [exampleWideStream] 8 true exampleFrame).SizeBytes) ∧
      tv.SizeBytes = 8 ∧
      (∀ s, s ∈ tv.Streams →
        ¬ (s.offsetBytes + s.shape.height * s.shape.pitchBytes ≤ tv.SizeBytes)) ∧
      tv.Process (fun _ => zeroScratch) zeroMem exampleFrame = Outcome.ok out ∧
      out 12 = 4 ∧ zeroMem 12 = 0 := by
  refine ⟨{ videoin := exampleChild [exampleWideStream] 8 true exampleFrame,
            flips := [TransformOptions.Transpose],
            streams := [{ format := { bytesPerPixel := 1 },
                          shape := { width := 2, height := 4, pitchBytes := 4 },
                          offsetBytes := 0 }],
            size_bytes := 8, buffer := zeroMem },
    StreamInfo.writeThrough
      { format := { bytesPerPixel := 1 },
        shape := { width := 2, height := 4, pitchBytes := 4 }, offsetBytes := 0 }
      zeroMem
      (Transpose zeroScratch
        (StreamInfo.StreamImage
          { format := { bytesPerPixel := 1 },
            shape := { width := 2, height := 4, pitchBytes := 4 }, offsetBytes := 0 }
          zeroMem)
        (StreamInfo.StreamImage exampleWideStream exampleFrame) 1),
    ?_, ?_, rfl, ?_, ?_, ?_, rfl⟩
  · unfold TransformVideo_new
    show Outcome.bind (forLoop 0 1 1 _ (Outcome.ok ([] : List StreamInfo))) _ = _
    rw [forLoop_one]
    rfl
  · intro s hs
    simp only [exampleChild, List.mem_singleton] at hs
    subst hs
    decide
  · intro s hs
    simp only [TransformVideo.Streams, List.mem_singleton] at hs
    subst hs
    decide
  · unfold TransformVideo.Process
    show forLoop 0 1 1 _ _ = _
    rw [forLoop_one]
    rfl
  · have h := Transpose_pix zeroScratch
      (StreamInfo.StreamImage
        { format := { bytesPerPixel := 1 },
          shape := { width := 2, height := 4, pitchBytes := 4 }, offsetBytes := 0 }
        zeroMem)
      (StreamInfo.StreamImage exampleWideStream exampleFrame) 1 rfl rfl
      (by show 2 * 1 ≤ 4; decide) 3 0 0 (by show 3 < 4; decide) (by show 0 < 2; decide)
      (by decide)
    obtain ⟨_, _, hpitch⟩ := Transpose_shape zeroScratch
      (StreamInfo.StreamImage
        { format := { bytesPerPixel := 1 },
          shape := { width := 2, height := 4, pitchBytes := 4 }, offsetBytes := 0 }
        zeroMem)
      (StreamInfo.StreamImage exampleWideStream exampleFrame) 1
    unfold pixelByte rowPtr at h
    rw [hpitch] at h
    exact h

/-- C13: when the kind list has a named kind for every child stream, the
constructor produces a driver whose `Streams()` has exactly as many entries as
the child has streams, and for every child stream whose kind is `None`,
`FlipX`, `FlipY` or `FlipXY` the descriptor at the same index is the child's
descriptor unchanged (format, width, height, pitch and offset). -/
theorem C13_flip_kinds_keep_descriptor (videoin : VideoInterface)
    (flips : List TransformOptions) (buffer0 : Mem)
    (hlen : videoin.Streams.length ≤ flips.length)
    (hnamed : ∀ k, k ∈ flips → k.isNamed = true) :
    ∃ tv, TransformVideo_new (some videoin) flips buffer0 = Outcome.ok tv ∧
      tv.Streams.length = videoin.Streams.length ∧
      ∀ (i : Nat) (s : StreamInfo) (k : TransformOptions),
        videoin.Streams[i]? = some s → flips[i]? = some k →
        (k = TransformOptions.None ∨ k = TransformOptions.FlipX ∨
          k = TransformOptions.FlipY ∨ k = TransformOptions.FlipXY) →
        tv.Streams[i]? = some s := by
  obtain ⟨tv, hnew, _, _, _, hl, hget⟩ :=
    TransformVideo_new_named videoin flips buffer0 hlen hnamed
  refine ⟨tv, hnew, hl, ?_⟩
  intro i s k hs hk hflip
  show tv.streams[i]? = some s
  rw [hget i s k hs hk, TransformVideo_switch_flip s k hflip]
  rfl

/-- The statement of C13 instantiated at a child with a wide and a tall stream
and the kinds `FlipX`, `RotateCW`, with its hypotheses discharged. -/
theorem C13_witness :
    (exampleChild [exampleWideStream, exampleTallStream] 16 true exampleFrame).Streams.length ≤
        [TransformOptions.FlipX, TransformOptions.RotateCW].length ∧
      (∀ k, k ∈ [TransformOptions.FlipX, TransformOptions.RotateCW] → k.isNamed = true) ∧
      ∃ tv, TransformVideo_new
          (some (exampleChild [exampleWideStream, exampleTallStream] 16 true exampleFrame))
          [TransformOptions.FlipX, TransformOptions.RotateCW] zeroMem = Outcome.ok tv ∧
        tv.Streams.length =
          (exampleChild [exampleWideStream, exampleTallStream] 16 true exampleFrame).Streams.length ∧
        ∀ (i : Nat) (s : StreamInfo) (k : TransformOptions),
          (exampleChild [exampleWideStream, exampleTallStream] 16 true
            exampleFrame).Streams[i]? = some s →
          [TransformOptions.FlipX, TransformOptions.RotateCW][i]? = some k →
          (k = TransformOptions.None ∨ k = TransformOptions.FlipX ∨
            k = TransformOptions.FlipY ∨ k = TransformOptions.FlipXY) →
          tv.Streams[i]? = some s :=
  ⟨by decide, by decide,
    C13_flip_kinds_keep_descriptor
      (exampleChild [exampleWideStream, exampleTallStream] 16 true exampleFrame)
      [TransformOptions.FlipX, TransformOptions.RotateCW] zeroMem (by decide) (by decide)⟩

/-- C14 (counterexample): a non-null child with one stream and a kind list of
length two: the lengths differ, and the constructor does not throw. -/
theorem C14_longer_kind_list_accepted :
    [TransformOptions.None, TransformOptions.FlipX].length ≠
        (exampleChild [exampleWideStream] 8 true exampleFrame).Streams.length ∧
      (TransformVideo_new (some (exampleChild [exampleWideStream] 8 true exampleFrame))
        [TransformOptions.None, TransformOptions.FlipX] zeroMem).isThrown = false := by
  refine ⟨by decide, ?_⟩
  obtain ⟨tv, h, _⟩ := TransformVideo_new_ok
    (exampleChild [exampleWideStream] 8 true exampleFrame)
    [TransformOptions.None, TransformOptions.FlipX] zeroMem (by decide)
  rw [h]
  rfl

/-- C14 (amended): a null child makes the constructor throw; with a non-null
child the constructor makes no length check, and whenever the kind list is at
least as long as the child's stream count (equal or longer) it produces a
driver that keeps the whole kind list. -/
theorem C14_no_length_check (flips : List TransformOptions) (buffer0 : Mem) :
    TransformVideo_new none flips buffer0 = Outcome.thrown ThrownError.videoException ∧
      ∀ videoin : VideoInterface, videoin.Streams.length ≤ flips.length →
        ∃ tv, TransformVideo_new (some videoin) flips buffer0 = Outcome.ok tv ∧
          tv.videoin = videoin ∧ tv.flips = flips := by
  refine ⟨rfl, ?_⟩
  intro videoin hlen
  obtain ⟨tv, h, hv, hf, _⟩ := TransformVideo_new_ok videoin flips buffer0 hlen
  exact ⟨tv, h, hv, hf⟩

/-- The statement of C14 (amended) instantiated at a one-stream child and a
kind list of length two, with its hypothesis discharged. -/
theorem C14_witness :
    (exampleChild [exampleWideStream] 8 true exampleFrame).Streams.length ≤
        [TransformOptions.None, TransformOptions.FlipX].length ∧
      ∃ tv, TransformVideo_new (some (exampleChild [exampleWideStream] 8 true exampleFrame))
          [TransformOptions.None, TransformOptions.FlipX] zeroMem = Outcome.ok tv ∧
        tv.videoin = exampleChild [exampleWideStream] 8 true exampleFrame ∧
        tv.flips = [TransformOptions.None, TransformOptions.FlipX] :=
  ⟨by decide,
    (C14_no_length_check [TransformOptions.None, TransformOptions.FlipX] zeroMem).2
      (exampleChild [exampleWideStream] 8 true exampleFrame) (by decide)⟩

/-! ## Process and the grabs -/

/-- The switch of `Process` completes normally unless `PitchedImageCopy` or
`FlipY` is handed views of different image size. -/
theorem TransformVideo_dispatch_ok (d0 : Scratch) (k : TransformOptions)
    (img_out img_in : ImageView) (bpp : Nat)
    (hsize : (k = TransformOptions.None ∨ k = TransformOptions.FlipY) →
      imageSize img_out = imageSize img_in) :
    ∃ v, TransformVideo_dispatch d0 k img_out img_in bpp = Outcome.ok v := by
  cases k
  case None =>
    have h := hsize (Or.inl rfl)
    obtain ⟨v, hv⟩ : ∃ v, PitchedImageCopy img_out img_in bpp = Except.ok v := by
      unfold PitchedImageCopy
      rw [if_neg (not_not.2 h)]
      exact ⟨_, rfl⟩
    exact ⟨v, by simp only [TransformVideo_dispatch, hv, Outcome.ofExcept]⟩
  case FlipY =>
    have h := hsize (Or.inr rfl)
    obtain ⟨v, hv⟩ : ∃ v, FlipY img_out img_in bpp = Except.ok v := by
      unfold FlipY
      rw [if_neg (not_not.2 h)]
      exact ⟨_, rfl⟩
    exact ⟨v, by simp only [TransformVideo_dispatch, hv, Outcome.ofExcept]⟩
  all_goals exact ⟨_, rfl⟩

/-- For a driver whose descriptors are the ones the constructor's switch
builds from named kinds, `Process` completes normally. -/
theorem TransformVideo_Process_ok (tv : TransformVideo)
    (hlen : tv.videoin.Streams.length ≤ tv.flips.length)
    (hnamed : ∀ k, k ∈ tv.flips → k.isNamed = true)
    (hl : tv.streams.length = tv.videoin.Streams.length)
    (hget : ∀ (i : Nat) (s : StreamInfo) (k : TransformOptions),
      tv.videoin.Streams[i]? = some s → tv.flips[i]? = some k →
      tv.streams[i]? = (TransformVideo_switch s k).head?)
    (d0 : Nat → Scratch) (buffer_out buffer_in : Mem) :
    ∃ out, tv.Process d0 buffer_out buffer_in = Outcome.ok out := by
  unfold TransformVideo.Process
  apply forLoop_pres (fun st : Outcome Mem => ∃ o, st = Outcome.ok o)
    tv.streams.length 1 _ (tv.streams.length - 0) 0 _ (Nat.le_refl _)
  · intro i st _ hi hst
    obtain ⟨o, rfl⟩ := hst
    obtain ⟨si, hsi⟩ : ∃ s, tv.videoin.Streams[i]? = some s :=
      ⟨tv.videoin.Streams[i], List.getElem?_eq_getElem (by omega)⟩
    obtain ⟨k, hk⟩ : ∃ k, tv.flips[i]? = some k :=
      ⟨tv.flips[i], List.getElem?_eq_getElem (by omega)⟩
    obtain ⟨x, hx⟩ := TransformVideo_switch_named si k (hnamed k (List.getElem?_mem hk))
    have hso : tv.streams[i]? = some x := by
      rw [hget i si k hsi hk, hx]
      rfl
    obtain ⟨v, hv⟩ := TransformVideo_dispatch_ok (d0 i) k (x.StreamImage o)
      (si.StreamImage buffer_in) x.format.bytesPerPixel (by
        intro hflip
        have h2 := TransformVideo_switch_flip si k (by
          rcases hflip with h | h
          · exact Or.inl h
          · exact Or.inr (Or.inr (Or.inl h)))
        rw [h2] at hx
        cases hx
        rfl)
    refine ⟨x.writeThrough o v, ?_⟩
    simp only [Outcome.bind, TransformVideo.ProcessStream, TransformVideo.Streams, hso, hsi,
      hk, hv]
  · exact ⟨buffer_out, rfl⟩

/-- C15: for a driver built from a non-null child with a named kind for every
child stream, for `GrabNext` and `GrabNewest` alike and for every wait flag:
if the child's grab returns false, the call returns false and the caller's
buffer is unchanged; if the child's grab returns true, `Process` applied to
the caller's buffer and the frame the child delivered completes, and the call
returns true with the caller's buffer holding the result of `Process`. -/
theorem C15_grab_forwards_to_Process (videoin : VideoInterface)
    (flips : List TransformOptions) (buffer0 : Mem)
    (hlen : videoin.Streams.length ≤ flips.length)
    (hnamed : ∀ k, k ∈ flips → k.isNamed = true) :
    ∃ tv, TransformVideo_new (some videoin) flips buffer0 = Outcome.ok tv ∧
      ∀ (d0 : Nat → Scratch) (image : Mem) (wait : Bool),
        ((tv.videoin.GrabNext tv.buffer wait).1 = false →
          tv.GrabNext d0 image wait = Outcome.ok
            { ret := false, image := image,
              buffer := (tv.videoin.GrabNext tv.buffer wait).2 }) ∧
        ((tv.videoin.GrabNext tv.buffer wait).1 = true →
          ∃ out, tv.Process d0 image (tv.videoin.GrabNext tv.buffer wait).2 =
              Outcome.ok out ∧
            tv.GrabNext d0 image wait = Outcome.ok
              { ret := true, image := out,
                buffer := (tv.videoin.GrabNext tv.buffer wait).2 }) ∧
        ((tv.videoin.GrabNewest tv.buffer wait).1 = false →
          tv.GrabNewest d0 image wait = Outcome.ok
            { ret := false, image := image,
              buffer := (tv.videoin.GrabNewest tv.buffer wait).2 }) ∧
        ((tv.videoin.GrabNewest tv.buffer wait).1 = true →
          ∃ out, tv.Process d0 image (tv.videoin.GrabNewest tv.buffer wait).2 =
              Outcome.ok out ∧
            tv.GrabNewest d0 image wait = Outcome.ok
              { ret := true, image := out,
                buffer := (tv.videoin.GrabNewest tv.buffer wait).2 }) := by
  obtain ⟨tv, hnew, hv, hf, _, hl, hget⟩ :=
    TransformVideo_new_named videoin flips buffer0 hlen hnamed
  have hproc := TransformVideo_Process_ok tv (by rw [hv, hf]; exact hlen)
    (by rw [hf]; exact hnamed) (by rw [hl, hv]) (by rw [hv, hf]; exact hget)
  refine ⟨tv, hnew, ?_⟩
  intro d0 image wait
  refine ⟨?_, ?_, ?_, ?_⟩
  · intro h
    simp only [TransformVideo.GrabNext, h, Bool.false_eq_true, if_false]
  · intro h
    obtain ⟨out, hout⟩ := hproc d0 image (tv.videoin.GrabNext tv.buffer wait).2
    refine ⟨out, hout, ?_⟩
    simp only [TransformVideo.GrabNext, h, if_true, hout, Outcome.bind]
  · intro h
    simp only [TransformVideo.GrabNewest, h, Bool.false_eq_true, if_false]
  · intro h
    obtain ⟨out, hout⟩ := hproc d0 image (tv.videoin.GrabNewest tv.buffer wait).2
    refine ⟨out, hout, ?_⟩
    simp only [TransformVideo.GrabNewest, h, if_true, hout, Outcome.bind]

/-- The statement of C15 instantiated at a one-stream child whose grabs
deliver a frame and the kind `FlipX`, with its hypotheses discharged. -/
theorem C15_witness :
    (exampleChild [exampleWideStream] 8 true exampleFrame).Streams.length ≤
        [TransformOptions.FlipX].length ∧
      (∀ k, k ∈ [TransformOptions.FlipX] → k.isNamed = true) ∧
      ∃ tv, TransformVideo_new (some (exampleChild [exampleWideStream] 8 true exampleFrame))
          [TransformOptions.FlipX] zeroMem = Outcome.ok tv ∧
        ∀ (d0 : Nat → Scratch) (image : Mem) (wait : Bool),
          ((tv.videoin.GrabNext tv.buffer wait).1 = false →
            tv.GrabNext d0 image wait = Outcome.ok
              { ret := false, image := image,
                buffer := (tv.videoin.GrabNext tv.buffer wait).2 }) ∧
          ((tv.videoin.GrabNext tv.buffer wait).1 = true →
            ∃ out, tv.Process d0 image (tv.videoin.GrabNext tv.buffer wait).2 =
                Outcome.ok out ∧
              tv.GrabNext d0 image wait = Outcome.ok
                { ret := true, image := out,
                  buffer := (tv.videoin.GrabNext tv.buffer wait).2 }) ∧
          ((tv.videoin.GrabNewest tv.buffer wait).1 = false →
            tv.GrabNewest d0 image wait = Outcome.ok
              { ret := false, image := image,
                buffer := (tv.videoin.GrabNewest tv.buffer wait).2 }) ∧
          ((tv.videoin.GrabNewest tv.buffer wait).1 = true →
            ∃ out, tv.Process d0 image (tv.videoin.GrabNewest tv.buffer wait).2 =
                Outcome.ok out ∧
              tv.GrabNewest d0 image wait = Outcome.ok
                { ret := true, image := out,
                  buffer := (tv.videoin.GrabNewest tv.buffer wait).2 }) :=
  ⟨by decide, by decide,
    C15_grab_forwards_to_Process (exampleChild [exampleWideStream] 8 true exampleFrame)
      [TransformOptions.FlipX] zeroMem (by decide) (by decide)⟩

/-- With equal image sizes `PitchedImageCopy` succeeds, keeps the destination
shape, and every destination pixel byte is the byte of the same source pixel. -/
theorem PitchedImageCopy_pix (img_out img_in : ImageView) (bpp : Nat)
    (hsize : imageSize img_out = imageSize img_in) (hp : ValidPitch img_out bpp) :
    ∃ res, PitchedImageCopy img_out img_in bpp = Except.ok res ∧
      res.width = img_out.width ∧ res.height = img_out.height ∧
      res.pitch = img_out.pitch ∧
      ∀ r c b, r < img_out.height → c < img_out.width → b < bpp →
        pixelByte res bpp r c b = pixelByte img_in bpp r c b := by
  have hw : img_out.width = img_in.width := congrArg Prod.fst hsize
  unfold PitchedImageCopy
  rw [if_neg (not_not.2 hsize)]
  refine ⟨_, rfl, rfl, rfl, rfl, ?_⟩
  intro r c b hr hc hb
  show forLoop 0 img_out.height 1 _ img_out.data (r * img_out.pitch + c * bpp + b) = _
  rw [← hw]
  apply forLoop_hit
    (fun t : Mem => t (r * img_out.pitch + c * bpp + b) = pixelByte img_in bpp r c b)
    img_out.height 1 Nat.one_pos _ r 0
  · omega
  · intro y t _ _ ht
    show memcpy t (y * img_out.pitch) img_in.data _ (bpp * img_out.width) _ = _
    rw [memcpy_row_pix t img_in.data img_out.pitch img_out.width bpp y _ r c b hp hc hb]
    by_cases hq : r = y
    · rw [if_pos hq, ← hq]
      unfold pixelByte
      rw [Nat.add_assoc]
    · rw [if_neg hq]
      exact ht
  · intro t
    have e : 0 + r * 1 = r := by omega
    show memcpy t ((0 + r * 1) * img_out.pitch) img_in.data _ (bpp * img_out.width) _ = _
    rw [e, memcpy_row_pix t img_in.data img_out.pitch img_out.width bpp r _ r c b hp hc hb,
      if_pos rfl]
    unfold pixelByte
    rw [Nat.add_assoc]

/-- The constructor's switch appends at most one descriptor. -/
theorem TransformVideo_switch_length_le (s : StreamInfo) (k : TransformOptions) :
    (TransformVideo_switch s k).length ≤ 1 := by
  cases k <;> simp [TransformVideo_switch]

/-- With a kind for every child stream the constructor's loop completes with
at most one descriptor per child stream. -/
theorem TransformVideo_ctorLoop_length_le (videoin : VideoInterface)
    (flips : List TransformOptions) (hlen : videoin.Streams.length ≤ flips.length) :
    ∃ l, forLoop 0 videoin.Streams.length 1 (TransformVideo_ctorStep videoin flips)
        (Outcome.ok []) = Outcome.ok l ∧ l.length ≤ videoin.Streams.length := by
  exact forLoop_inv
    (fun i (st : Outcome (List StreamInfo)) => ∃ l : List StreamInfo,
      st = Outcome.ok l ∧ l.length ≤ i)
    videoin.Streams.length (TransformVideo_ctorStep videoin flips)
    (videoin.Streams.length - 0) 0 (Outcome.ok []) (Nat.le_refl _) (Nat.zero_le _)
    ⟨[], rfl, Nat.le_refl _⟩
    (by
      intro i st _ hi hst
      obtain ⟨l, rfl, hl⟩ := hst
      obtain ⟨s, hs⟩ : ∃ s, videoin.Streams[i]? = some s :=
        ⟨videoin.Streams[i], List.getElem?_eq_getElem hi⟩
      obtain ⟨k, hk⟩ : ∃ k, flips[i]? = some k :=
        ⟨flips[i], List.getElem?_eq_getElem (by omega)⟩
      refine ⟨l ++ TransformVideo_switch s k, ?_, ?_⟩
      · simp only [TransformVideo_ctorStep, Outcome.bind, hs, hk]
      · have h1 := TransformVideo_switch_length_le s k
        rw [List.length_append]
        omega)

/-- Writing a stream's own view back through the stream leaves the buffer as it is. -/
theorem StreamInfo_writeThrough_StreamImage (so : StreamInfo) (buffer : Mem) :
    so.writeThrough buffer (so.StreamImage buffer) = buffer := by
  funext a
  unfold StreamInfo.writeThrough StreamInfo.StreamImage
  by_cases h : so.offsetBytes ≤ a
  · rw [if_pos h]
    show buffer (so.offsetBytes + (a - so.offsetBytes)) = buffer a
    rw [Nat.add_sub_cancel' h]
  · rw [if_neg h]

/-- An iteration of `Process` that meets an unnamed kind takes the default
branch and returns the output buffer as it was. -/
theorem TransformVideo_ProcessStream_unnamed (tv : TransformVideo) (d0 : Scratch) (s : Nat)
    (buffer_out buffer_in : Mem) (so si : StreamInfo) (value : Nat)
    (hso : tv.Streams[s]? = some so) (hsi : tv.videoin.Streams[s]? = some si)
    (hk : tv.flips[s]? = some (TransformOptions.other value)) :
    tv.ProcessStream d0 s buffer_out buffer_in = Outcome.ok buffer_out := by
  simp only [TransformVideo.ProcessStream, hso, hsi, hk, TransformVideo_dispatch,
    Outcome.bind, StreamInfo_writeThrough_StreamImage]

/-- A loop of three iterations. -/
theorem forLoop_three {σ : Type} (body : Nat → σ → σ) (s : σ) :
    forLoop 0 3 1 body s = body 2 (body 1 (body 0 s)) := by
  rw [forLoop_unfold, if_pos (by omega), forLoop_unfold, if_pos (by omega),
    forLoop_unfold, if_pos (by omega), forLoop_done _ _ _ _ _ (by omega)]

/-- A loop of two iterations. -/
theorem forLoop_two {σ : Type} (body : Nat → σ → σ) (s : σ) :
    forLoop 0 2 1 body s = body 1 (body 0 s) := by
  rw [forLoop_unfold, if_pos (by omega), forLoop_unfold, if_pos (by omega),
    forLoop_done _ _ _ _ _ (by omega)]

/-- C16 (counterexample).  First, a one-stream child (stream 4 wide, 2 high,
one byte per pixel) with the unnamed kind value 7: the constructor produces a
driver; `Process` on a zero-filled caller buffer and the frame `1..8`
completes and returns the caller buffer unchanged, so byte 0 of the stream's
region is 0, whereas `PitchedImageCopy` on the stream's two views would have
written the child's byte 1 there.  Second, a three-stream child (4 by 2, 2 by
4, 4 by 2) with the kinds 7, `None`, `None`: the constructor produces a driver
with the two descriptors 2 by 4 and 4 by 2, and `Process` fails with the
incompatible-image-sizes error. -/
theorem C16_unnamed_kind_not_copied :
    (∃ tv copy,
      TransformVideo_new (some (exampleChild [exampleWideStream] 8 true exampleFrame))
        [TransformOptions.other 7] zeroMem = Outcome.ok tv ∧
      tv.Process (fun _ => zeroScratch) zeroMem exampleFrame = Outcome.ok zeroMem ∧
      PitchedImageCopy (exampleWideStream.StreamImage zeroMem)
        (exampleWideStream.StreamImage exampleFrame) 1 = Except.ok copy ∧
      exampleWideStream.writeThrough zeroMem copy 0 = 1 ∧ zeroMem 0 = 0) ∧
    ∃ tv,
      TransformVideo_new
        (some (exampleChild [exampleWideStream, exampleTallStream, exampleWideStream] 8 true
          exampleFrame))
        [TransformOptions.other 7, TransformOptions.None, TransformOptions.None] zeroMem =
        Outcome.ok tv ∧
      tv.Streams = [exampleTallStream, exampleWideStream] ∧
      tv.Process (fun _ => zeroScratch) zeroMem exampleFrame =
        Outcome.thrown (ThrownError.runtimeError KernelError.incompatibleImageSizes) := by
  constructor
  · obtain ⟨copy, hcopy, _, _, hpitch, hpix⟩ := PitchedImageCopy_pix
      (exampleWideStream.StreamImage zeroMem) (exampleWideStream.StreamImage exampleFrame) 1
      rfl (by show 4 * 1 ≤ 4; decide)
    refine ⟨{ videoin := exampleChild [exampleWideStream] 8 true exampleFrame,
              flips := [TransformOptions.other 7], streams := [],
              size_bytes := 8, buffer := zeroMem }, copy, ?_, ?_, hcopy, ?_, rfl⟩
    · unfold TransformVideo_new
      show Outcome.bind (forLoop 0 1 1 _ (Outcome.ok ([] : List StreamInfo))) _ = _
      rw [forLoop_one]
      rfl
    · unfold TransformVideo.Process
      exact forLoop_done _ _ _ _ _ (Nat.le_refl _)
    · have h := hpix 0 0 0 (by show 0 < 2; decide) (by show 0 < 4; decide) (by decide)
      unfold pixelByte rowPtr at h
      rw [hpitch] at h
      exact h
  · refine ⟨{ videoin := exampleChild [exampleWideStream, exampleTallStream,
                exampleWideStream] 8 true exampleFrame,
              flips := [TransformOptions.other 7, TransformOptions.None,
                TransformOptions.None],
              streams := [exampleTallStream, exampleWideStream],
              size_bytes := 8, buffer := zeroMem }, ?_, rfl, ?_⟩
    · unfold TransformVideo_new
      show Outcome.bind (forLoop 0 3 1 _ (Outcome.ok ([] : List StreamInfo))) _ = _
      rw [forLoop_three]
      rfl
    · unfold TransformVideo.Process
      show forLoop 0 2 1 _ (Outcome.ok zeroMem) = _
      rw [forLoop_two]
      rfl

/-- C16 (amended): for a driver built by the constructor from a child with a
kind for each of its streams, an iteration of `Process` whose kind value
`flips[s]` is not one of the seven named values does not fail and writes
nothing: it completes with the output buffer exactly as it was (the default
branch only emits a diagnostic; no pass-through copy is made).  When every
iteration that `Process` runs has such a kind, `Process` as a whole completes
and returns the output buffer unchanged. -/
theorem C16_unnamed_iterations_leave_output (videoin : VideoInterface)
    (flips : List TransformOptions) (buffer0 : Mem)
    (hlen : videoin.Streams.length ≤ flips.length) :
    ∃ tv, TransformVideo_new (some videoin) flips buffer0 = Outcome.ok tv ∧
      (∀ (d0 : Scratch) (s value : Nat) (buffer_out buffer_in : Mem),
        s < tv.Streams.length → flips[s]? = some (TransformOptions.other value) →
        tv.ProcessStream d0 s buffer_out buffer_in = Outcome.ok buffer_out) ∧
      ((∀ s, s < tv.Streams.length →
          ∃ value, flips[s]? = some (TransformOptions.other value)) →
        ∀ (d0 : Nat → Scratch) (buffer_out buffer_in : Mem),
          tv.Process d0 buffer_out buffer_in = Outcome.ok buffer_out) := by
  obtain ⟨l, hl, hle⟩ := TransformVideo_ctorLoop_length_le videoin flips hlen
  have hiter : ∀ (d0 : Scratch) (s value : Nat) (buffer_out buffer_in : Mem),
      s < l.length → flips[s]? = some (TransformOptions.other value) →
      ({ videoin := videoin, flips := flips, streams := l,
         size_bytes := videoin.SizeBytes, buffer := buffer0 } :
        TransformVideo).ProcessStream d0 s buffer_out buffer_in = Outcome.ok buffer_out := by
    intro d0 s value buffer_out buffer_in hs hk
    have hs2 : s < videoin.Streams.length := by omega
    exact TransformVideo_ProcessStream_unnamed _ d0 s buffer_out buffer_in l[s]
      videoin.Streams[s] value (List.getElem?_eq_getElem hs)
      (List.getElem?_eq_getElem hs2) hk
  refine ⟨{ videoin := videoin, flips := flips, streams := l,
            size_bytes := videoin.SizeBytes, buffer := buffer0 }, ?_, hiter, ?_⟩
  · unfold TransformVideo_new
    simp only [hl, Outcome.bind]
  · intro hall d0 buffer_out buffer_in
    unfold TransformVideo.Process
    apply forLoop_pres (fun st : Outcome Mem => st = Outcome.ok buffer_out)
      l.length 1 _ (l.length - 0) 0 _ (Nat.le_refl _) _ rfl
    intro s st _ hs hst
    obtain ⟨value, hk⟩ := hall s hs
    rw [hst]
    exact hiter (d0 s) s value buffer_out buffer_in hs hk

/-- The statement of C16 (amended) instantiated at a child with two streams,
each 4 wide and 2 high, and the kinds 7 and `FlipX`, with its hypothesis
discharged.  The constructor builds a driver with one descriptor; the single
iteration of `Process` meets the kind 7, so the default branch is taken, and
`Process` returns the output buffer unchanged. -/
theorem C16_witness :
    (exampleChild [exampleWideStream, exampleWideStream] 8 true exampleFrame).Streams.length ≤
        [TransformOptions.other 7, TransformOptions.FlipX].length ∧
      ∃ tv, TransformVideo_new
          (some (exampleChild [exampleWideStream, exampleWideStream] 8 true exampleFrame))
          [TransformOptions.other 7, TransformOptions.FlipX] zeroMem = Outcome.ok tv ∧
        tv.Streams = [exampleWideStream] ∧
        tv.flips[0]? = some (TransformOptions.other 7) ∧
        (∀ (d0 : Scratch) (buffer_out buffer_in : Mem),
          tv.ProcessStream d0 0 buffer_out buffer_in = Outcome.ok buffer_out) ∧
        ∀ (d0 : Nat → Scratch) (buffer_out buffer_in : Mem),
          tv.Process d0 buffer_out buffer_in = Outcome.ok buffer_out := by
  obtain ⟨tv, hnew, hiter, hproc⟩ := C16_unnamed_iterations_leave_output
    (exampleChild [exampleWideStream, exampleWideStream] 8 true exampleFrame)
    [TransformOptions.other 7, TransformOptions.FlipX] zeroMem (by decide)
  have h0 : TransformVideo_new
      (some (exampleChild [exampleWideStream, exampleWideStream] 8 true exampleFrame))
      [TransformOptions.other 7, TransformOptions.FlipX] zeroMem =
      Outcome.ok { videoin := exampleChild [exampleWideStream, exampleWideStream] 8 true
                     exampleFrame,
                   flips := [TransformOptions.other 7, TransformOptions.FlipX],
                   streams := [exampleWideStream], size_bytes := 8, buffer := zeroMem } := by
    unfold TransformVideo_new
    show Outcome.bind (forLoop 0 2 1 _ (Outcome.ok ([] : List StreamInfo))) _ = _
    rw [forLoop_two]
    rfl
  have e := Outcome.ok.inj (hnew.symm.trans h0)
  subst e
  refine ⟨by decide, _, h0, rfl, rfl, ?_, ?_⟩
  · intro d0 buffer_out buffer_in
    exact hiter d0 0 7 buffer_out buffer_in (by decide) rfl
  · apply hproc
    intro s hs
    have hs1 : s < 1 := hs
    have e0 : s = 0 := by omega
    subst e0
    exact ⟨7, rfl⟩

/-- C20: for every driver built from a non-null child with a named kind for
every child stream, every call of `Process` completes normally, so the
incompatible-image-sizes error of `PitchedImageCopy` and `FlipY` is never
raised; and for every `None` or `FlipY` stream the output view and the input
view have equal image size. -/
theorem C20_size_mismatch_unreachable (videoin : VideoInterface)
    (flips : List TransformOptions) (buffer0 : Mem)
    (hlen : videoin.Streams.length ≤ flips.length)
    (hnamed : ∀ k, k ∈ flips → k.isNamed = true) :
    ∃ tv, TransformVideo_new (some videoin) flips buffer0 = Outcome.ok tv ∧
      (∀ (d0 : Nat → Scratch) (buffer_out buffer_in : Mem),
        ∃ out, tv.Process d0 buffer_out buffer_in = Outcome.ok out) ∧
      ∀ (s : Nat) (so si : StreamInfo) (k : TransformOptions) (buffer_out buffer_in : Mem),
        tv.Streams[s]? = some so → tv.videoin.Streams[s]? = some si →
        tv.flips[s]? = some k →
        (k = TransformOptions.None ∨ k = TransformOptions.FlipY) →
        imageSize (so.StreamImage buffer_out) = imageSize (si.StreamImage buffer_in) := by
  obtain ⟨tv, hnew, hv, hf, _, hl, hget⟩ :=
    TransformVideo_new_named videoin flips buffer0 hlen hnamed
  have hproc := TransformVideo_Process_ok tv (by rw [hv, hf]; exact hlen)
    (by rw [hf]; exact hnamed) (by rw [hl, hv]) (by rw [hv, hf]; exact hget)
  refine ⟨tv, hnew, hproc, ?_⟩
  intro s so si k buffer_out buffer_in hso hsi hk hflip
  rw [hv] at hsi
  rw [hf] at hk
  have h1 := hget s si k hsi hk
  rw [TransformVideo_switch_flip si k (by
    rcases hflip with h | h
    · exact Or.inl h
    · exact Or.inr (Or.inr (Or.inl h)))] at h1
  have h2 : some so = some si := hso.symm.trans h1
  cases h2
  rfl

/-- The statement of C20 instantiated at a two-stream child and the kinds
`None`, `FlipY`, with its hypotheses discharged. -/
theorem C20_witness :
    (exampleChild [exampleWideStream, exampleTallStream] 16 true exampleFrame).Streams.length ≤
        [TransformOptions.None, TransformOptions.FlipY].length ∧
      (∀ k, k ∈ [TransformOptions.None, TransformOptions.FlipY] → k.isNamed = true) ∧
      ∃ tv, TransformVideo_new
          (some (exampleChild [exampleWideStream, exampleTallStream] 16 true exampleFrame))
          [TransformOptions.None, TransformOptions.FlipY] zeroMem = Outcome.ok tv ∧
        (∀ (d0 : Nat → Scratch) (buffer_out buffer_in : Mem),
          ∃ out, tv.Process d0 buffer_out buffer_in = Outcome.ok out) ∧
        ∀ (s : Nat) (so si : StreamInfo) (k : TransformOptions) (buffer_out buffer_in : Mem),
          tv.Streams[s]? = some so → tv.videoin.Streams[s]? = some si →
          tv.flips[s]? = some k →
          (k = TransformOptions.None ∨ k = TransformOptions.FlipY) →
          imageSize (so.StreamImage buffer_out) = imageSize (si.StreamImage buffer_in) :=
  ⟨by decide, by decide,
    C20_size_mismatch_unreachable
      (exampleChild [exampleWideStream, exampleTallStream] 16 true exampleFrame)
      [TransformOptions.None, TransformOptions.FlipY] zeroMem (by decide) (by decide)⟩

/-! ## The kind list built by the factory -/

/-- The loop of `Open` builds one kind per stream index, in order. -/
theorem TransformVideoFactory_transforms_eq (uri : Uri) (n : Nat) :
    TransformVideoFactory_transforms uri n =
      (List.range n).map fun i =>
        ParamReader_Get uri (streamKey i) (TransformVideoFactory_default uri) := by
  unfold TransformVideoFactory_transforms
  exact forLoop_inv
    (fun i (l : List TransformOptions) => l = (List.range i).map fun j =>
      ParamReader_Get uri (streamKey j) (TransformVideoFactory_default uri))
    n _ (n - 0) 0 [] (Nat.le_refl _) (Nat.zero_le _) rfl
    (by
      intro i l _ _ hl
      rw [hl, List.range_succ, List.map_append]
      rfl)

theorem TransformVideoFactory_transforms_get (uri : Uri) (n N : Nat) (hN : N < n) :
    (TransformVideoFactory_transforms uri n)[N]? =
      some (ParamReader_Get uri (streamKey N) (TransformVideoFactory_default uri)) := by
  rw [TransformVideoFactory_transforms_eq]
  simp [List.getElem?_map, List.getElem?_range hN]

theorem toDigitsCore_length_ge (fuel n : Nat) (ds : List Char) :
    ds.length ≤ (Nat.toDigitsCore 10 fuel n ds).length := by
  induction fuel generalizing n ds with
  | zero => simp [Nat.toDigitsCore]
  | succ fuel ih =>
    simp only [Nat.toDigitsCore]
    split
    · simp
    · exact Nat.le_trans (by simp) (ih _ _)

theorem toDigitsCore_length_gt (fuel n : Nat) (ds : List Char) (hf : 0 < fuel) :
    ds.length + 1 ≤ (Nat.toDigitsCore 10 fuel n ds).length := by
  obtain ⟨f, rfl⟩ : ∃ f, fuel = f + 1 := ⟨fuel - 1, by omega⟩
  simp only [Nat.toDigitsCore]
  split
  · simp
  · exact Nat.le_trans (by simp) (toDigitsCore_length_ge f _ _)

/-- Only the index 0 has the decimal digits `0`. -/
theorem toDigits_eq_zero (j : Nat) (h : Nat.toDigits 10 j = ['0']) : j = 0 := by
  unfold Nat.toDigits at h
  simp only [Nat.toDigitsCore] at h
  split at h
  · have hj : j < 10 := by omega
    interval_cases j <;> first | rfl | (simp [Nat.digitChar] at h)
  · next hq =>
    have hj : 0 < j := by omega
    have h2 := toDigitsCore_length_gt j (j / 10) [Nat.digitChar (j % 10)] hj
    rw [h] at h2
    simp at h2

/-- No stream index other than 0 has the key `stream0`. -/
theorem streamKey_ne_zero (j : Nat) (hj : j ≠ 0) : (streamKey j == "stream0") = false := by
  rw [beq_eq_false_iff_ne]
  intro h
  apply hj
  apply toDigits_eq_zero
  have h2 := congrArg String.data h
  unfold streamKey at h2
  rw [String.data_append] at h2
  have h3 : ("stream0" : String).data = ("stream" : String).data ++ ['0'] := by decide
  rw [h3] at h2
  exact List.append_cancel_left h2

/-- A recognised name is one of the eleven keys of the map. -/
theorem StringToMirrorOptionMap_keys (v : String) (kind : TransformOptions)
    (h : StringToMirrorOptionMap.lookup v = some kind) :
    v = "none" ∨ v = "transform" ∨ v = "mirror" ∨ v = "flipx" ∨ v = "flip" ∨
      v = "flipy" ∨ v = "flipxy" ∨ v = "transpose" ∨ v = "rotate" ∨ v = "rotatecw" ∨
      v = "rotateccw" := by
  by_contra hne
  simp only [not_or] at hne
  obtain ⟨h1, h2, h3, h4, h5, h6, h7, h8, h9, h10, h11⟩ := hne
  have b1 : (v == "none") = false := by rw [beq_eq_false_iff_ne]; exact h1
  have b2 : (v == "transform") = false := by rw [beq_eq_false_iff_ne]; exact h2
  have b3 : (v == "mirror") = false := by rw [beq_eq_false_iff_ne]; exact h3
  have b4 : (v == "flipx") = false := by rw [beq_eq_false_iff_ne]; exact h4
  have b5 : (v == "flip") = false := by rw [beq_eq_false_iff_ne]; exact h5
  have b6 : (v == "flipy") = false := by rw [beq_eq_false_iff_ne]; exact h6
  have b7 : (v == "flipxy") = false := by rw [beq_eq_false_iff_ne]; exact h7
  have b8 : (v == "transpose") = false := by rw [beq_eq_false_iff_ne]; exact h8
  have b9 : (v == "rotate") = false := by rw [beq_eq_false_iff_ne]; exact h9
  have b10 : (v == "rotatecw") = false := by rw [beq_eq_false_iff_ne]; exact h10
  have b11 : (v == "rotateccw") = false := by rw [beq_eq_false_iff_ne]; exact h11
  simp only [StringToMirrorOptionMap, List.lookup, b1, b2, b3, b4, b5, b6, b7, b8, b9, b10,
    b11] at h
  cases h

/-- A recognised name holds no whitespace: it is the token read from it. -/
theorem istreamToken_recognised (v : String) (kind : TransformOptions)
    (h : StringToMirrorOptionMap.lookup v = some kind) : istreamToken v = v := by
  rcases StringToMirrorOptionMap_keys v kind h with
    rfl | rfl | rfl | rfl | rfl | rfl | rfl | rfl | rfl | rfl | rfl <;> decide

/-- The extraction operator turns a recognised name into its kind. -/
theorem TransformOptions_extract_recognised (v : String) (kind : TransformOptions)
    (h : StringToMirrorOptionMap.lookup v = some kind) :
    TransformOptions_extract v = kind := by
  simp only [TransformOptions_extract, istreamToken_recognised v kind h,
    StringToMirrorOption, h]

/-- The extraction operator reads one token: what follows the first
whitespace, and whitespace in front, does not reach the lookup; a token that
is not a key gives `None`. -/
theorem TransformOptions_extract_token :
    TransformOptions_extract "rotatecw x" = TransformOptions.RotateCW ∧
      TransformOptions_extract " flipx" = TransformOptions.FlipX ∧
      TransformOptions_extract "bogus" = TransformOptions.None ∧
      TransformOptions_extract "" = TransformOptions.None := by
  decide

/-- C18: an explicit per-stream parameter beats the scheme default and affects
only its own stream.  For scheme `flipx` with the single parameter
`stream0=rotatecw` and a child with `n + 1` streams the kind list is `RotateCW`
followed by `n` times `FlipX`.  In general, for every recognised name `v` with
kind `kind` and every index `N` below the stream count, a parameter
`stream<N>=v` makes the kind at index `N` equal to `kind`, and every index
without a parameter gets the scheme's default kind. -/
theorem C18_stream_parameter_overrides_default :
    (∀ (url : String) (n : Nat),
      TransformVideoFactory_transforms
          { scheme := "flipx", url := url, params := [("stream0", "rotatecw")] } (n + 1) =
        TransformOptions.RotateCW :: List.replicate n TransformOptions.FlipX) ∧
      (∀ (uri : Uri) (n N : Nat) (v : String) (kind : TransformOptions), N < n →
        uri.params.lookup (streamKey N) = some v →
        StringToMirrorOptionMap.lookup v = some kind →
        (TransformVideoFactory_transforms uri n)[N]? = some kind) ∧
      ∀ (uri : Uri) (n j : Nat), j < n → uri.params.lookup (streamKey j) = none →
        (TransformVideoFactory_transforms uri n)[j]? =
          some (TransformVideoFactory_default uri) := by
  refine ⟨?_, ?_, ?_⟩
  · intro url n
    rw [TransformVideoFactory_transforms_eq, List.range_succ_eq_map, List.map_cons,
      List.map_map]
    have h0 : ParamReader_Get
        { scheme := "flipx", url := url, params := [("stream0", "rotatecw")] } (streamKey 0)
        (TransformVideoFactory_default
          { scheme := "flipx", url := url, params := [("stream0", "rotatecw")] }) =
        TransformOptions.RotateCW := by
      have hk : streamKey 0 = "stream0" := by decide
      have hl : List.lookup "stream0" [("stream0", "rotatecw")] = some "rotatecw" := by decide
      have hs : (StringToMirrorOptionMap.lookup "rotatecw").isSome = true := by decide
      have hv : TransformOptions_extract "rotatecw" = TransformOptions.RotateCW := by decide
      simp only [ParamReader_Get, hk, hl, hs, hv, if_true]
    have hrest : ∀ j, j ∈ List.range n →
        ((fun i => ParamReader_Get
            { scheme := "flipx", url := url, params := [("stream0", "rotatecw")] }
            (streamKey i)
            (TransformVideoFactory_default
              { scheme := "flipx", url := url, params := [("stream0", "rotatecw")] })) ∘
          Nat.succ) j = (fun _ => TransformOptions.FlipX) j := by
      intro j _
      have hd : TransformVideoFactory_default
          { scheme := "flipx", url := url, params := [("stream0", "rotatecw")] } =
          TransformOptions.FlipX := by
        show StringToMirrorOption "flipx" = TransformOptions.FlipX
        decide
      simp only [Function.comp, ParamReader_Get, List.lookup,
        streamKey_ne_zero (Nat.succ j) (Nat.succ_ne_zero j), hd]
    rw [h0, List.map_congr_left hrest, List.map_const', List.length_range]
  · intro uri n N v kind hN hparam hv
    rw [TransformVideoFactory_transforms_get uri n N hN]
    simp only [ParamReader_Get, hparam, hv, Option.isSome_some, if_true,
      TransformOptions_extract_recognised v kind hv]
  · intro uri n j hj hparam
    rw [TransformVideoFactory_transforms_get uri n j hj]
    simp only [ParamReader_Get, hparam]

/-- The general parts of C18 instantiated at scheme `flipx` with the single
parameter `stream1=rotateccw` and three streams, with their hypotheses
discharged. -/
theorem C18_witness :
    (1 < 3 ∧
      ({ scheme := "flipx", url := "", params := [("stream1", "rotateccw")] } :
        Uri).params.lookup (streamKey 1) = some "rotateccw" ∧
      StringToMirrorOptionMap.lookup "rotateccw" = some TransformOptions.RotateCCW ∧
      (TransformVideoFactory_transforms
        { scheme := "flipx", url := "", params := [("stream1", "rotateccw")] } 3)[1]? =
        some TransformOptions.RotateCCW) ∧
    (2 < 3 ∧
      ({ scheme := "flipx", url := "", params := [("stream1", "rotateccw")] } :
        Uri).params.lookup (streamKey 2) = none ∧
      (TransformVideoFactory_transforms
        { scheme := "flipx", url := "", params := [("stream1", "rotateccw")] } 3)[2]? =
        some (TransformVideoFactory_default
          { scheme := "flipx", url := "", params := [("stream1", "rotateccw")] })) :=
  ⟨⟨by decide, by decide, by decide,
      C18_stream_parameter_overrides_default.2.1
        { scheme := "flipx", url := "", params := [("stream1", "rotateccw")] } 3 1
        "rotateccw" TransformOptions.RotateCCW (by decide) (by decide) (by decide)⟩,
    ⟨by decide, by decide,
      C18_stream_parameter_overrides_default.2.2
        { scheme := "flipx", url := "", params := [("stream1", "rotateccw")] } 3 2
        (by decide) (by decide)⟩⟩

/-- C19 (counterexample): `none` is one of the eleven names of the mapping, but
it is not a scheme name of the transform factory. -/
theorem C19_none_is_no_scheme :
    StringToMirrorOptionMap.lookup "none" = some TransformOptions.None ∧
      TransformVideoFactory_Schemes.lookup "none" = none := by
  decide

/-- C19 (amended): the name-to-kind mapping is exactly the table (`none` and
`transform` give `None`; `mirror` and `flipx` give `FlipX`; `flip` and `flipy`
give `FlipY`; `flipxy` gives `FlipXY`; `transpose` gives `Transpose`; `rotate`
and `rotatecw` give `RotateCW`; `rotateccw` gives `RotateCCW`; there are no
other names); the scheme names of the transform factory are the ten names
other than `none`, each with precedence 10; `none` is not a scheme name. -/
theorem C19_scheme_table :
    (StringToMirrorOptionMap.lookup "none" = some TransformOptions.None ∧
      StringToMirrorOptionMap.lookup "transform" = some TransformOptions.None ∧
      StringToMirrorOptionMap.lookup "mirror" = some TransformOptions.FlipX ∧
      StringToMirrorOptionMap.lookup "flipx" = some TransformOptions.FlipX ∧
      StringToMirrorOptionMap.lookup "flip" = some TransformOptions.FlipY ∧
      StringToMirrorOptionMap.lookup "flipy" = some TransformOptions.FlipY ∧
      StringToMirrorOptionMap.lookup "flipxy" = some TransformOptions.FlipXY ∧
      StringToMirrorOptionMap.lookup "transpose" = some TransformOptions.Transpose ∧
      StringToMirrorOptionMap.lookup "rotate" = some TransformOptions.RotateCW ∧
      StringToMirrorOptionMap.lookup "rotatecw" = some TransformOptions.RotateCW ∧
      StringToMirrorOptionMap.lookup "rotateccw" = some TransformOptions.RotateCCW) ∧
    StringToMirrorOptionMap.length = 11 ∧
    (TransformVideoFactory_Schemes.lookup "transform" = some 10 ∧
      TransformVideoFactory_Schemes.lookup "mirror" = some 10 ∧
      TransformVideoFactory_Schemes.lookup "flipx" = some 10 ∧
      TransformVideoFactory_Schemes.lookup "flip" = some 10 ∧
      TransformVideoFactory_Schemes.lookup "flipy" = some 10 ∧
      TransformVideoFactory_Schemes.lookup "flipxy" = some 10 ∧
      TransformVideoFactory_Schemes.lookup "transpose" = some 10 ∧
      TransformVideoFactory_Schemes.lookup "rotate" = some 10 ∧
      TransformVideoFactory_Schemes.lookup "rotatecw" = some 10 ∧
      TransformVideoFactory_Schemes.lookup "rotateccw" = some 10) ∧
    TransformVideoFactory_Schemes.length = 10 ∧
    TransformVideoFactory_Schemes.lookup "none" = none := by
  decide


/-! ## Bounds of the recorded accesses -/

/-- A loop that only appends accesses with a property keeps the property of the log. -/
theorem appendLoop_all (P : Access → Prop) (lo hi step : Nat) (f : Nat → List Access)
    (log : List Access) (h0 : ∀ a ∈ log, P a)
    (hf : ∀ i, lo ≤ i → i < hi → ∀ a ∈ f i, P a) :
    ∀ a ∈ forLoop lo hi step (fun i log => log ++ f i) log, P a := by
  apply forLoop_pres (fun l : List Access => ∀ a ∈ l, P a) hi step _ (hi - lo) lo log
    (Nat.le_refl _) _ h0
  intro i l h1 h2 hl a ha
  rcases List.mem_append.1 ha with h | h
  · exact hl a h
  · exact hf i h1 h2 a h

/-- The two-level form of `appendLoop_all`. -/
theorem appendLoop2_all (P : Access → Prop) (lo hi : Nat) (lo2 hi2 : Nat → Nat)
    (f : Nat → Nat → List Access) (log : List Access) (h0 : ∀ a ∈ log, P a)
    (hf : ∀ i j, lo ≤ i → i < hi → lo2 i ≤ j → j < hi2 i → ∀ a ∈ f i j, P a) :
    ∀ a ∈ forLoop lo hi 1 (fun i log =>
      forLoop (lo2 i) (hi2 i) 1 (fun j log => log ++ f i j) log) log, P a := by
  apply forLoop_pres (fun l : List Access => ∀ a ∈ l, P a) hi 1 _ (hi - lo) lo log
    (Nat.le_refl _) _ h0
  intro i l h1 h2 hl
  exact appendLoop_all P (lo2 i) (hi2 i) 1 (f i) l hl (fun j hj1 hj2 => hf i j h1 h2 hj1 hj2)

/-- The tile loops keep a property of the log that every visited tile keeps. -/
theorem tileLoops_all (P : Access → Prop) (w h TSZ : Nat)
    (tile : Nat → Nat → List Access → List Access)
    (ht : ∀ xin yin log, xin < w → yin < h → (∀ a ∈ log, P a) →
      ∀ a ∈ tile xin yin log, P a) :
    ∀ a ∈ forLoop 0 w TSZ (fun xin log =>
      forLoop 0 h TSZ (fun yin log => tile xin yin log) log) [], P a := by
  apply forLoop_pres (fun l : List Access => ∀ a ∈ l, P a) w TSZ _ (w - 0) 0 []
    (Nat.le_refl _)
  · intro xin l _ hx hl
    apply forLoop_pres (fun l : List Access => ∀ a ∈ l, P a) h TSZ _ (h - 0) 0 l
      (Nat.le_refl _) _ hl
    intro yin l' _ hy hl'
    exact ht xin yin l' hx hy hl'
  · intro a ha
    cases ha

theorem usub_exact (a b : Nat) (hb : b ≤ a) (ha : a < SIZE_MOD) : usub a b = a - b := by
  unfold usub SIZE_MOD at *
  omega

theorem uadd_exact (a b : Nat) (h : a + b < SIZE_MOD) : uadd a b = a + b := by
  unfold uadd
  exact Nat.mod_eq_of_lt h

theorem umul_exact (a W BPP : Nat) (ha : a ≤ W) (hW : W * BPP < SIZE_MOD) :
    umul a BPP = a * BPP := by
  unfold umul
  apply Nat.mod_eq_of_lt
  have := Nat.mul_le_mul_right BPP ha
  omega

theorem run_le (a n W BPP : Nat) (h : a + n ≤ W) : a * BPP + n * BPP ≤ W * BPP := by
  rw [← Nat.add_mul]
  exact Nat.mul_le_mul_right _ h

/-- The size of an image whose row bytes fit in `size_t` fits as well. -/
theorem dim_lt (n BPP : Nat) (hB : 0 < BPP) (hn : n * BPP < SIZE_MOD) : n < SIZE_MOD := by
  have h1 : n ≤ n * BPP := Nat.le_mul_of_pos_right n hB
  omega

theorem usub_pred (T x : Nat) (hT : T < SIZE_MOD) (hx : x < T) :
    usub (usub T 1) x = T - 1 - x := by
  unfold usub SIZE_MOD at *
  omega

/-- The accesses of the load loop are in bounds. -/
theorem loadTile_accesses_inBounds (BPP TSZ w h wout hout xin yin xspan yspan : Nat)
    (hB : 0 < BPP) (hxs : xspan ≤ TSZ) (hxw : xin + xspan ≤ w) (hys : yspan ≤ TSZ)
    (hyh : yin + yspan ≤ h)
    (hw : w * BPP < SIZE_MOD) (hh : h * BPP < SIZE_MOD) (log : List Access)
    (h0 : ∀ a ∈ log, a.inBounds BPP TSZ w h wout hout) :
    ∀ a ∈ loadTile_accesses BPP xin yin xspan yspan log,
      a.inBounds BPP TSZ w h wout hout := by
  have hh1 := dim_lt h BPP hB hh
  unfold loadTile_accesses
  apply appendLoop_all _ _ _ _ _ _ h0
  intro y _ hy2 a ha
  have e1 : uadd yin y = yin + y := uadd_exact _ _ (by omega)
  have e2 : umul xin BPP = xin * BPP := umul_exact xin w BPP (by omega) hw
  have e3 : umul xspan BPP = xspan * BPP := umul_exact _ w BPP (by omega) hw
  have r1 := run_le xin xspan w BPP hxw
  have r2 := run_le 0 xspan TSZ BPP (by omega)
  rw [e1, e2, e3] at ha
  simp only [List.mem_cons, List.mem_singleton, List.not_mem_nil, or_false] at ha
  rcases ha with rfl | rfl
  · exact ⟨by omega, r1⟩
  · exact ⟨by omega, r2⟩

theorem TiledFlipX_permute_accesses_inBounds (BPP TSZ w h wout hout : Nat)
    (hT : TSZ < SIZE_MOD) (log : List Access)
    (h0 : ∀ a ∈ log, a.inBounds BPP TSZ w h wout hout) :
    ∀ a ∈ TiledFlipX_permute_accesses TSZ log, a.inBounds BPP TSZ w h wout hout := by
  unfold TiledFlipX_permute_accesses
  apply appendLoop2_all _ 0 TSZ (fun _ => 0) (fun _ => TSZ / 2) _ log h0
  intro y x _ hy _ hx a ha
  rw [usub_pred TSZ x hT (by omega)] at ha
  simp only [List.mem_cons, List.mem_singleton, List.not_mem_nil, or_false] at ha
  rcases ha with rfl | rfl
  · exact ⟨hy, by omega⟩
  · exact ⟨hy, by omega⟩

theorem TiledRotate180_permute_accesses_inBounds (BPP TSZ w h wout hout : Nat)
    (hT : TSZ < SIZE_MOD) (log : List Access)
    (h0 : ∀ a ∈ log, a.inBounds BPP TSZ w h wout hout) :
    ∀ a ∈ TiledRotate180_permute_accesses TSZ log, a.inBounds BPP TSZ w h wout hout := by
  unfold TiledRotate180_permute_accesses
  apply appendLoop2_all _ 0 (TSZ / 2) (fun _ => 0) (fun _ => TSZ) _ log h0
  intro y x _ hy _ hx a ha
  rw [usub_pred TSZ x hT hx, usub_pred TSZ y hT (by omega)] at ha
  simp only [List.mem_cons, List.mem_singleton, List.not_mem_nil, or_false] at ha
  rcases ha with rfl | rfl
  · exact ⟨by omega, hx⟩
  · exact ⟨by omega, by omega⟩

theorem TiledTranspose_permute_accesses_inBounds (BPP TSZ w h wout hout dmin dmax : Nat)
    (hmin : dmin ≤ TSZ) (hmax : dmax ≤ TSZ) (log : List Access)
    (h0 : ∀ a ∈ log, a.inBounds BPP TSZ w h wout hout) :
    ∀ a ∈ TiledTranspose_permute_accesses dmin dmax log,
      a.inBounds BPP TSZ w h wout hout := by
  unfold TiledTranspose_permute_accesses
  apply appendLoop2_all _ 0 dmin (fun x => x + 1) (fun _ => dmax) _ log h0
  intro x y _ hx _ hy a ha
  simp only [List.mem_cons, List.mem_singleton, List.not_mem_nil, or_false] at ha
  rcases ha with rfl | rfl
  · exact ⟨by omega, by omega⟩
  · exact ⟨by omega, by omega⟩

theorem TiledRotateCW_permute_accesses_inBounds (BPP TSZ w h wout hout : Nat)
    (hT : TSZ < SIZE_MOD) (log : List Access)
    (h0 : ∀ a ∈ log, a.inBounds BPP TSZ w h wout hout) :
    ∀ a ∈ TiledRotateCW_permute_accesses TSZ log, a.inBounds BPP TSZ w h wout hout := by
  unfold TiledRotateCW_permute_accesses
  apply appendLoop2_all _ 0 (TSZ / 2) (fun _ => 0) (fun _ => TSZ / 2) _ log h0
  intro y x _ hy _ hx a ha
  rw [usub_pred TSZ x hT (by omega), usub_pred TSZ y hT (by omega)] at ha
  simp only [List.mem_cons, List.mem_singleton, List.not_mem_nil, or_false] at ha
  rcases ha with rfl | rfl | rfl | rfl
  · exact ⟨by omega, by omega⟩
  · exact ⟨by omega, by omega⟩
  · exact ⟨by omega, by omega⟩
  · exact ⟨by omega, by omega⟩

theorem TiledRotateCCW_permute_accesses_inBounds (BPP TSZ w h wout hout : Nat)
    (hT : TSZ < SIZE_MOD) (log : List Access)
    (h0 : ∀ a ∈ log, a.inBounds BPP TSZ w h wout hout) :
    ∀ a ∈ TiledRotateCCW_permute_accesses TSZ log, a.inBounds BPP TSZ w h wout hout := by
  unfold TiledRotateCCW_permute_accesses
  apply appendLoop2_all _ 0 (TSZ / 2) (fun _ => 0) (fun _ => TSZ / 2) _ log h0
  intro y x _ hy _ hx a ha
  rw [usub_pred TSZ x hT (by omega), usub_pred TSZ y hT (by omega)] at ha
  simp only [List.mem_cons, List.mem_singleton, List.not_mem_nil, or_false] at ha
  rcases ha with rfl | rfl | rfl | rfl
  · exact ⟨by omega, by omega⟩
  · exact ⟨by omega, by omega⟩
  · exact ⟨by omega, by omega⟩
  · exact ⟨by omega, by omega⟩

theorem span_exact (T n x : Nat) (hx : x < n) (hn : n < SIZE_MOD) :
    min T (usub n x) = min T (n - x) := by
  rw [usub_exact n x (by omega) hn]

/-- Every access of `TiledFlipX` in a visited tile is in bounds. -/
theorem TiledFlipX_tile_accesses_inBounds (BPP TSZ w h xin yin : Nat)
    (hB : 0 < BPP) (hT : TSZ < SIZE_MOD) (hx : xin < w) (hy : yin < h)
    (hw : w * BPP < SIZE_MOD) (hh : h * BPP < SIZE_MOD) (log : List Access)
    (h0 : ∀ a ∈ log, a.inBounds BPP TSZ w h w h) :
    ∀ a ∈ TiledFlipX_tile_accesses BPP TSZ w h xin yin log,
      a.inBounds BPP TSZ w h w h := by
  have hw1 := dim_lt w BPP hB hw
  have hh1 := dim_lt h BPP hB hh
  unfold TiledFlipX_tile_accesses
  dsimp only
  rw [span_exact TSZ w xin hx hw1, span_exact TSZ h yin hy hh1]
  have l1 := loadTile_accesses_inBounds BPP TSZ w h w h xin yin (min TSZ (w - xin))
    (min TSZ (h - yin)) hB (by omega) (by omega) (by omega) (by omega) hw hh log h0
  have l2 := TiledFlipX_permute_accesses_inBounds BPP TSZ w h w h hT _ l1
  apply appendLoop_all _ _ _ _ _ _ l2
  intro y _ hy2 a ha
  have e1 : uadd yin y = yin + y := uadd_exact _ _ (by omega)
  have e2 := trailing_off w xin TSZ (min TSZ (w - xin)) BPP hx rfl hB hw hT
  have e3 : umul (min TSZ (w - xin)) BPP = min TSZ (w - xin) * BPP :=
    umul_exact _ w BPP (by omega) hw
  have r1 := run_le (w - xin - min TSZ (w - xin)) (min TSZ (w - xin)) w BPP (by omega)
  have r2 := run_le (TSZ - min TSZ (w - xin)) (min TSZ (w - xin)) TSZ BPP (by omega)
  rw [e1, e2, e3] at ha
  simp only [List.mem_cons, List.mem_singleton, List.not_mem_nil, or_false] at ha
  rcases ha with rfl | rfl
  · exact ⟨by omega, r1⟩
  · exact ⟨by omega, r2⟩

/-- Every access of `TiledRotate180` in a visited tile is in bounds. -/
theorem TiledRotate180_tile_accesses_inBounds (BPP TSZ w h xin yin : Nat)
    (hB : 0 < BPP) (hT : TSZ < SIZE_MOD) (hx : xin < w) (hy : yin < h)
    (hw : w * BPP < SIZE_MOD) (hh : h * BPP < SIZE_MOD) (log : List Access)
    (h0 : ∀ a ∈ log, a.inBounds BPP TSZ w h w h) :
    ∀ a ∈ TiledRotate180_tile_accesses BPP TSZ w h xin yin log,
      a.inBounds BPP TSZ w h w h := by
  have hw1 := dim_lt w BPP hB hw
  have hh1 := dim_lt h BPP hB hh
  unfold TiledRotate180_tile_accesses
  dsimp only
  rw [span_exact TSZ w xin hx hw1, span_exact TSZ h yin hy hh1,
    usub_exact TSZ (min TSZ (h - yin)) (by omega) hT]
  have l1 := loadTile_accesses_inBounds BPP TSZ w h w h xin yin (min TSZ (w - xin))
    (min TSZ (h - yin)) hB (by omega) (by omega) (by omega) (by omega) hw hh log h0
  have l2 := TiledRotate180_permute_accesses_inBounds BPP TSZ w h w h hT _ l1
  apply appendLoop_all _ _ _ _ _ _ l2
  intro y hy1 hy2 a ha
  have e1 := trailing_row h yin TSZ (min TSZ (h - yin)) y hy rfl hh1 hT hy1 hy2
  have e2 := trailing_off w xin TSZ (min TSZ (w - xin)) BPP hx rfl hB hw hT
  have e3 : umul (min TSZ (w - xin)) BPP = min TSZ (w - xin) * BPP :=
    umul_exact _ w BPP (by omega) hw
  have r1 := run_le (w - xin - min TSZ (w - xin)) (min TSZ (w - xin)) w BPP (by omega)
  have r2 := run_le (TSZ - min TSZ (w - xin)) (min TSZ (w - xin)) TSZ BPP (by omega)
  rw [e1, e2, e3] at ha
  simp only [List.mem_cons, List.mem_singleton, List.not_mem_nil, or_false] at ha
  rcases ha with rfl | rfl
  · exact ⟨by omega, r1⟩
  · exact ⟨by omega, r2⟩

/-- Every access of `TiledTranspose` in a visited tile is in bounds. -/
theorem TiledTranspose_tile_accesses_inBounds (BPP TSZ w h xin yin : Nat)
    (hB : 0 < BPP) (hx : xin < w) (hy : yin < h)
    (hw : w * BPP < SIZE_MOD) (hh : h * BPP < SIZE_MOD) (log : List Access)
    (h0 : ∀ a ∈ log, a.inBounds BPP TSZ w h h w) :
    ∀ a ∈ TiledTranspose_tile_accesses BPP TSZ w h xin yin log,
      a.inBounds BPP TSZ w h h w := by
  have hw1 := dim_lt w BPP hB hw
  have hh1 := dim_lt h BPP hB hh
  unfold TiledTranspose_tile_accesses
  dsimp only
  rw [span_exact TSZ w xin hx hw1, span_exact TSZ h yin hy hh1]
  have l1 := loadTile_accesses_inBounds BPP TSZ w h h w xin yin (min TSZ (w - xin))
    (min TSZ (h - yin)) hB (by omega) (by omega) (by omega) (by omega) hw hh log h0
  have l2 := TiledTranspose_permute_accesses_inBounds BPP TSZ w h h w
    (min (min TSZ (w - xin)) (min TSZ (h - yin)))
    (max (min TSZ (w - xin)) (min TSZ (h - yin))) (by omega) (by omega) _ l1
  apply appendLoop_all _ _ _ _ _ _ l2
  intro y _ hy2 a ha
  have e1 : uadd xin y = xin + y := uadd_exact _ _ (by omega)
  have e2 : umul yin BPP = yin * BPP := umul_exact yin h BPP (by omega) hh
  have e3 : umul (min TSZ (h - yin)) BPP = min TSZ (h - yin) * BPP :=
    umul_exact _ h BPP (by omega) hh
  have r1 := run_le yin (min TSZ (h - yin)) h BPP (by omega)
  have r2 := run_le 0 (min TSZ (h - yin)) TSZ BPP (by omega)
  rw [e1, e2, e3] at ha
  simp only [List.mem_cons, List.mem_singleton, List.not_mem_nil, or_false] at ha
  rcases ha with rfl | rfl
  · exact ⟨by omega, r1⟩
  · exact ⟨by omega, r2⟩

/-- Every access of `TiledRotateCW` in a visited tile is in bounds. -/
theorem TiledRotateCW_tile_accesses_inBounds (BPP TSZ w h xin yin : Nat)
    (hB : 0 < BPP) (hT : TSZ < SIZE_MOD) (hx : xin < w) (hy : yin < h)
    (hw : w * BPP < SIZE_MOD) (hh : h * BPP < SIZE_MOD) (log : List Access)
    (h0 : ∀ a ∈ log, a.inBounds BPP TSZ w h h w) :
    ∀ a ∈ TiledRotateCW_tile_accesses BPP TSZ w h xin yin log,
      a.inBounds BPP TSZ w h h w := by
  have hw1 := dim_lt w BPP hB hw
  have hh1 := dim_lt h BPP hB hh
  unfold TiledRotateCW_tile_accesses
  dsimp only
  rw [span_exact TSZ w xin hx hw1, span_exact TSZ h yin hy hh1]
  have l1 := loadTile_accesses_inBounds BPP TSZ w h h w xin yin (min TSZ (w - xin))
    (min TSZ (h - yin)) hB (by omega) (by omega) (by omega) (by omega) hw hh log h0
  have l2 := TiledRotateCW_permute_accesses_inBounds BPP TSZ w h h w hT _ l1
  apply appendLoop_all _ _ _ _ _ _ l2
  intro y _ hy2 a ha
  have e1 : uadd xin y = xin + y := uadd_exact _ _ (by omega)
  have e2 := trailing_off h yin TSZ (min TSZ (h - yin)) BPP hy rfl hB hh hT
  have e3 : umul (min TSZ (h - yin)) BPP = min TSZ (h - yin) * BPP :=
    umul_exact _ h BPP (by omega) hh
  have r1 := run_le (h - yin - min TSZ (h - yin)) (min TSZ (h - yin)) h BPP (by omega)
  have r2 := run_le (TSZ - min TSZ (h - yin)) (min TSZ (h - yin)) TSZ BPP (by omega)
  rw [e1, e2, e3] at ha
  simp only [List.mem_cons, List.mem_singleton, List.not_mem_nil, or_false] at ha
  rcases ha with rfl | rfl
  · exact ⟨by omega, r1⟩
  · exact ⟨by omega, r2⟩

/-- Every access of `TiledRotateCCW` in a visited tile is in bounds. -/
theorem TiledRotateCCW_tile_accesses_inBounds (BPP TSZ w h xin yin : Nat)
    (hB : 0 < BPP) (hT : TSZ < SIZE_MOD) (hx : xin < w) (hy : yin < h)
    (hw : w * BPP < SIZE_MOD) (hh : h * BPP < SIZE_MOD) (log : List Access)
    (h0 : ∀ a ∈ log, a.inBounds BPP TSZ w h h w) :
    ∀ a ∈ TiledRotateCCW_tile_accesses BPP TSZ w h xin yin log,
      a.inBounds BPP TSZ w h h w := by
  have hw1 := dim_lt w BPP hB hw
  have hh1 := dim_lt h BPP hB hh
  unfold TiledRotateCCW_tile_accesses
  dsimp only
  rw [span_exact TSZ w xin hx hw1, span_exact TSZ h yin hy hh1,
    usub_exact TSZ (min TSZ (w - xin)) (by omega) hT]
  have l1 := loadTile_accesses_inBounds BPP TSZ w h h w xin yin (min TSZ (w - xin))
    (min TSZ (h - yin)) hB (by omega) (by omega) (by omega) (by omega) hw hh log h0
  have l2 := TiledRotateCCW_permute_accesses_inBounds BPP TSZ w h h w hT _ l1
  apply appendLoop_all _ _ _ _ _ _ l2
  intro y hy1 hy2 a ha
  have e1 := trailing_row w xin TSZ (min TSZ (w - xin)) y hx rfl hw1 hT hy1 hy2
  have e2 : umul yin BPP = yin * BPP := umul_exact yin h BPP (by omega) hh
  have e3 : umul (min TSZ (h - yin)) BPP = min TSZ (h - yin) * BPP :=
    umul_exact _ h BPP (by omega) hh
  have r1 := run_le yin (min TSZ (h - yin)) h BPP (by omega)
  have r2 := run_le 0 (min TSZ (h - yin)) TSZ BPP (by omega)
  rw [e1, e2, e3] at ha
  simp only [List.mem_cons, List.mem_singleton, List.not_mem_nil, or_false] at ha
  rcases ha with rfl | rfl
  · exact ⟨by omega, r1⟩
  · exact ⟨by omega, r2⟩

/-! ## Destination bytes outside the pixel rows -/

/-- A copy out of a scratch row leaves every byte outside the copied run untouched. -/
theorem memcpyFromRow_outside (BPP : Nat) (o : Mem) (doff : Nat) (d : Scratch)
    (y k n a : Nat) (ha : ¬ (doff ≤ a ∧ a < doff + n)) :
    memcpyFromRow BPP o doff d y k n a = o a := by
  unfold memcpyFromRow
  rw [if_neg ha]

/-- The tile loops keep a destination byte that every visited tile keeps. -/
theorem tileLoops_keep (tile : Nat → Nat → TileState → TileState) (w h TSZ a : Nat)
    (hk : ∀ xin yin st, xin < w → yin < h → (tile xin yin st).out a = st.out a)
    (st0 : TileState) :
    (forLoop 0 w TSZ (fun xin st =>
      forLoop 0 h TSZ (fun yin st => tile xin yin st) st) st0).out a = st0.out a := by
  apply forLoop_keep (fun st : TileState => st.out a) 0 w TSZ
  intro xin st _ hx
  apply forLoop_keep (fun st : TileState => st.out a) 0 h TSZ
  intro yin st' _ hy
  exact hk xin yin st' hx hy

/-- A byte outside the pixel rows of the destination is outside every run of a
row `r` below the height that ends inside the row's pixel bytes. -/
theorem outside_run (img_out : ImageView) (BPP a r col len : Nat)
    (ha : ∀ r, r < img_out.height →
      ¬ (rowPtr img_out r ≤ a ∧ a < rowPtr img_out r + img_out.width * BPP))
    (hr : r < img_out.height) (hc : col + len ≤ img_out.width * BPP) :
    ¬ (rowPtr img_out r + col ≤ a ∧ a < rowPtr img_out r + col + len) := by
  intro h
  exact ha r hr ⟨by omega, by omega⟩

theorem TiledFlipX_tile_frame (BPP TSZ : Nat) (img_out img_in : ImageView)
    (xin yin : Nat) (st : TileState) (a : Nat) (hB : 0 < BPP) (hT : TSZ < SIZE_MOD)
    (hx : xin < img_in.width) (hy : yin < img_in.height)
    (hw : img_in.width * BPP < SIZE_MOD)
    (hwo : img_out.width = img_in.width) (hho : img_out.height = img_in.height)
    (ha : ∀ r, r < img_out.height →
      ¬ (rowPtr img_out r ≤ a ∧ a < rowPtr img_out r + img_out.width * BPP)) :
    (TiledFlipX_tile BPP TSZ img_out img_in xin yin st).out a = st.out a := by
  unfold TiledFlipX_tile
  dsimp only
  apply forLoop_keep (fun o : Mem => o a)
  intro y o _ hy2
  apply memcpyFromRow_outside
  rw [trailing_off img_in.width xin TSZ _ BPP hx rfl hB hw hT]
  apply outside_run img_out BPP a _ _ _ ha (by omega)
  rw [hwo]
  exact run_le _ _ _ BPP (by omega)

theorem TiledRotate180_tile_frame (BPP TSZ : Nat) (img_out img_in : ImageView)
    (xin yin : Nat) (st : TileState) (a : Nat) (hB : 0 < BPP) (hT : TSZ < SIZE_MOD)
    (hx : xin < img_in.width) (hy : yin < img_in.height)
    (hw : img_in.width * BPP < SIZE_MOD) (hh : img_in.height < SIZE_MOD)
    (hwo : img_out.width = img_in.width) (hho : img_out.height = img_in.height)
    (ha : ∀ r, r < img_out.height →
      ¬ (rowPtr img_out r ≤ a ∧ a < rowPtr img_out r + img_out.width * BPP)) :
    (TiledRotate180_tile BPP TSZ img_out img_in xin yin st).out a = st.out a := by
  unfold TiledRotate180_tile
  dsimp only
  apply forLoop_keep (fun o : Mem => o a)
  intro y o hy1 hy2
  apply memcpyFromRow_outside
  rw [trailing_off img_in.width xin TSZ _ BPP hx rfl hB hw hT,
    trailing_row img_in.height yin TSZ _ y hy rfl hh hT hy1 hy2]
  apply outside_run img_out BPP a _ _ _ ha (by omega)
  rw [hwo]
  exact run_le _ _ _ BPP (by omega)

theorem TiledTranspose_tile_frame (BPP TSZ : Nat) (img_out img_in : ImageView)
    (xin yin : Nat) (st : TileState) (a : Nat)
    (hx : xin < img_in.width) (hy : yin < img_in.height)
    (hwo : img_out.width = img_in.height) (hho : img_out.height = img_in.width)
    (ha : ∀ r, r < img_out.height →
      ¬ (rowPtr img_out r ≤ a ∧ a < rowPtr img_out r + img_out.width * BPP)) :
    (TiledTranspose_tile BPP TSZ img_out img_in xin yin st).out a = st.out a := by
  unfold TiledTranspose_tile
  dsimp only
  apply forLoop_keep (fun o : Mem => o a)
  intro y o _ hy2
  apply memcpyFromRow_outside
  apply outside_run img_out BPP a _ _ _ ha (by omega)
  rw [hwo]
  exact run_le _ _ _ BPP (by omega)

theorem TiledRotateCW_tile_frame (BPP TSZ : Nat) (img_out img_in : ImageView)
    (xin yin : Nat) (st : TileState) (a : Nat) (hB : 0 < BPP) (hT : TSZ < SIZE_MOD)
    (hx : xin < img_in.width) (hy : yin < img_in.height)
    (hh : img_in.height * BPP < SIZE_MOD)
    (hwo : img_out.width = img_in.height) (hho : img_out.height = img_in.width)
    (ha : ∀ r, r < img_out.height →
      ¬ (rowPtr img_out r ≤ a ∧ a < rowPtr img_out r + img_out.width * BPP)) :
    (TiledRotateCW_tile BPP TSZ img_out img_in xin yin st).out a = st.out a := by
  unfold TiledRotateCW_tile
  dsimp only
  apply forLoop_keep (fun o : Mem => o a)
  intro y o _ hy2
  apply memcpyFromRow_outside
  rw [trailing_off img_in.height yin TSZ _ BPP hy rfl hB hh hT]
  apply outside_run img_out BPP a _ _ _ ha (by omega)
  rw [hwo]
  exact run_le _ _ _ BPP (by omega)

theorem TiledRotateCCW_tile_frame (BPP TSZ : Nat) (img_out img_in : ImageView)
    (xin yin : Nat) (st : TileState) (a : Nat) (hT : TSZ < SIZE_MOD)
    (hx : xin < img_in.width) (hy : yin < img_in.height)
    (hw : img_in.width < SIZE_MOD)
    (hwo : img_out.width = img_in.height) (hho : img_out.height = img_in.width)
    (ha : ∀ r, r < img_out.height →
      ¬ (rowPtr img_out r ≤ a ∧ a < rowPtr img_out r + img_out.width * BPP)) :
    (TiledRotateCCW_tile BPP TSZ img_out img_in xin yin st).out a = st.out a := by
  unfold TiledRotateCCW_tile
  dsimp only
  apply forLoop_keep (fun o : Mem => o a)
  intro y o hy1 hy2
  apply memcpyFromRow_outside
  rw [trailing_row img_in.width xin TSZ _ y hx rfl hw hT hy1 hy2]
  apply outside_run img_out BPP a _ _ _ ha (by omega)
  rw [hwo]
  exact run_le _ _ _ BPP (by omega)

/-- Claim C21. For every instantiation `(BPP, TSZ)` of the dispatch table and
every source of `w` by `h` pixels whose row bytes are representable in
`size_t`, every access recorded for a tiled kernel, over all visited tile
origins, is inside its rectangle: each source read lies in rows `[0, h)` and
byte columns `[0, w * BPP)`; each destination write lies in the rows and byte
columns of a `w` by `h` destination for `TiledFlipX` and `TiledRotate180` (the
kernel of `FlipXY`) and of an `h` by `w` destination for `TiledTranspose`,
`TiledRotateCW` and `TiledRotateCCW`; each scratch row and element index is
below `TSZ`. The trailing-edge offsets, computed modulo `2 ^ 64` from the
wrapping `xout = w - xin - TSZ` and `yout = h - yin - TSZ`, equal the in-range
values `w - xin - xspan`, `h - yin - yspan` and, for the `k`-th stored row,
`h - yin - yspan + k` and `w - xin - xspan + k`. Accordingly each kernel,
run on a destination of that shape from any scratch contents, leaves every
destination byte outside the destination's pixel rows as it was. -/
theorem C21_tiled_accesses_in_bounds (BPP TSZ : Nat) (hmem : (BPP, TSZ) ∈ tileTable)
    (img_in : ImageView) (hw : img_in.width * BPP < SIZE_MOD)
    (hh : img_in.height * BPP < SIZE_MOD) :
    (∀ a ∈ TiledFlipX_accesses BPP TSZ img_in,
      a.inBounds BPP TSZ img_in.width img_in.height img_in.width img_in.height) ∧
    (∀ a ∈ TiledRotate180_accesses BPP TSZ img_in,
      a.inBounds BPP TSZ img_in.width img_in.height img_in.width img_in.height) ∧
    (∀ a ∈ TiledTranspose_accesses BPP TSZ img_in,
      a.inBounds BPP TSZ img_in.width img_in.height img_in.height img_in.width) ∧
    (∀ a ∈ TiledRotateCW_accesses BPP TSZ img_in,
      a.inBounds BPP TSZ img_in.width img_in.height img_in.height img_in.width) ∧
    (∀ a ∈ TiledRotateCCW_accesses BPP TSZ img_in,
      a.inBounds BPP TSZ img_in.width img_in.height img_in.height img_in.width) ∧
    (∀ xin, xin < img_in.width →
      xin + min TSZ (img_in.width - xin) ≤ img_in.width ∧
      usub (uadd (usub (usub img_in.width xin) TSZ) TSZ) (min TSZ (img_in.width - xin)) =
        img_in.width - xin - min TSZ (img_in.width - xin)) ∧
    (∀ yin, yin < img_in.height →
      yin + min TSZ (img_in.height - yin) ≤ img_in.height ∧
      usub (uadd (usub (usub img_in.height yin) TSZ) TSZ) (min TSZ (img_in.height - yin)) =
        img_in.height - yin - min TSZ (img_in.height - yin)) ∧
    (∀ yin k, yin < img_in.height → k < min TSZ (img_in.height - yin) →
      uadd (usub (usub img_in.height yin) TSZ) (TSZ - min TSZ (img_in.height - yin) + k) =
        img_in.height - yin - min TSZ (img_in.height - yin) + k) ∧
    (∀ xin k, xin < img_in.width → k < min TSZ (img_in.width - xin) →
      uadd (usub (usub img_in.width xin) TSZ) (TSZ - min TSZ (img_in.width - xin) + k) =
        img_in.width - xin - min TSZ (img_in.width - xin) + k) ∧
    (∀ (d0 : Scratch) (img_out : ImageView), img_out.width = img_in.width →
      img_out.height = img_in.height → ∀ a, (∀ r, r < img_out.height →
        ¬ (rowPtr img_out r ≤ a ∧ a < rowPtr img_out r + img_out.width * BPP)) →
      (TiledFlipX BPP TSZ d0 img_out img_in).data a = img_out.data a) ∧
    (∀ (d0 : Scratch) (img_out : ImageView), img_out.width = img_in.width →
      img_out.height = img_in.height → ∀ a, (∀ r, r < img_out.height →
        ¬ (rowPtr img_out r ≤ a ∧ a < rowPtr img_out r + img_out.width * BPP)) →
      (TiledRotate180 BPP TSZ d0 img_out img_in).data a = img_out.data a) ∧
    (∀ (d0 : Scratch) (img_out : ImageView), img_out.width = img_in.height →
      img_out.height = img_in.width → ∀ a, (∀ r, r < img_out.height →
        ¬ (rowPtr img_out r ≤ a ∧ a < rowPtr img_out r + img_out.width * BPP)) →
      (TiledTranspose BPP TSZ d0 img_out img_in).data a = img_out.data a) ∧
    (∀ (d0 : Scratch) (img_out : ImageView), img_out.width = img_in.height →
      img_out.height = img_in.width → ∀ a, (∀ r, r < img_out.height →
        ¬ (rowPtr img_out r ≤ a ∧ a < rowPtr img_out r + img_out.width * BPP)) →
      (TiledRotateCW BPP TSZ d0 img_out img_in).data a = img_out.data a) ∧
    (∀ (d0 : Scratch) (img_out : ImageView), img_out.width = img_in.height →
      img_out.height = img_in.width → ∀ a, (∀ r, r < img_out.height →
        ¬ (rowPtr img_out r ≤ a ∧ a < rowPtr img_out r + img_out.width * BPP)) →
      (TiledRotateCCW BPP TSZ d0 img_out img_in).data a = img_out.data a) := by
  obtain ⟨hB, _, hT, _⟩ := tileTable_props BPP TSZ hmem
  have hw1 := dim_lt img_in.width BPP hB hw
  have hh1 := dim_lt img_in.height BPP hB hh
  refine ⟨?_, ?_, ?_, ?_, ?_, ?_, ?_, ?_, ?_, ?_, ?_, ?_, ?_, ?_⟩
  · unfold TiledFlipX_accesses
    exact tileLoops_all _ _ _ TSZ _ (fun xin yin log hx hy h0 =>
      TiledFlipX_tile_accesses_inBounds BPP TSZ _ _ xin yin hB hT hx hy hw hh log h0)
  · unfold TiledRotate180_accesses
    exact tileLoops_all _ _ _ TSZ _ (fun xin yin log hx hy h0 =>
      TiledRotate180_tile_accesses_inBounds BPP TSZ _ _ xin yin hB hT hx hy hw hh log h0)
  · unfold TiledTranspose_accesses
    exact tileLoops_all _ _ _ TSZ _ (fun xin yin log hx hy h0 =>
      TiledTranspose_tile_accesses_inBounds BPP TSZ _ _ xin yin hB hx hy hw hh log h0)
  · unfold TiledRotateCW_accesses
    exact tileLoops_all _ _ _ TSZ _ (fun xin yin log hx hy h0 =>
      TiledRotateCW_tile_accesses_inBounds BPP TSZ _ _ xin yin hB hT hx hy hw hh log h0)
  · unfold TiledRotateCCW_accesses
    exact tileLoops_all _ _ _ TSZ _ (fun xin yin log hx hy h0 =>
      TiledRotateCCW_tile_accesses_inBounds BPP TSZ _ _ xin yin hB hT hx hy hw hh log h0)
  · intro xin hx
    exact ⟨by omega, trailing_col _ xin TSZ _ hx rfl hw1 hT⟩
  · intro yin hy
    exact ⟨by omega, trailing_col _ yin TSZ _ hy rfl hh1 hT⟩
  · intro yin k hy hk
    rw [trailing_row _ yin TSZ _ _ hy rfl hh1 hT (by omega) (by omega)]
    omega
  · intro xin k hx hk
    rw [trailing_row _ xin TSZ _ _ hx rfl hw1 hT (by omega) (by omega)]
    omega
  · intro d0 img_out hwo hho a ha
    exact tileLoops_keep (TiledFlipX_tile BPP TSZ img_out img_in) _ _ TSZ a
      (fun xin yin st hx hy =>
        TiledFlipX_tile_frame BPP TSZ img_out img_in xin yin st a hB hT hx hy hw hwo hho ha) _
  · intro d0 img_out hwo hho a ha
    exact tileLoops_keep (TiledRotate180_tile BPP TSZ img_out img_in) _ _ TSZ a
      (fun xin yin st hx hy =>
        TiledRotate180_tile_frame BPP TSZ img_out img_in xin yin st a hB hT hx hy hw hh1
          hwo hho ha) _
  · intro d0 img_out hwo hho a ha
    exact tileLoops_keep (TiledTranspose_tile BPP TSZ img_out img_in) _ _ TSZ a
      (fun xin yin st hx hy =>
        TiledTranspose_tile_frame BPP TSZ img_out img_in xin yin st a hx hy hwo hho ha) _
  · intro d0 img_out hwo hho a ha
    exact tileLoops_keep (TiledRotateCW_tile BPP TSZ img_out img_in) _ _ TSZ a
      (fun xin yin st hx hy =>
        TiledRotateCW_tile_frame BPP TSZ img_out img_in xin yin st a hB hT hx hy hh hwo hho ha) _
  · intro d0 img_out hwo hho a ha
    exact tileLoops_keep (TiledRotateCCW_tile BPP TSZ img_out img_in) _ _ TSZ a
      (fun xin yin st hx hy =>
        TiledRotateCCW_tile_frame BPP TSZ img_out img_in xin yin st a hT hx hy hw1 hwo hho ha) _

/-- An access appended by some iteration of a loop is in the final log. -/
theorem appendLoop_mem (a : Access) (lo hi step : Nat) (hstep : 0 < step)
    (f : Nat → List Access) (log : List Access) (k : Nat) (hk : lo + k * step < hi)
    (ha : a ∈ f (lo + k * step)) :
    a ∈ forLoop lo hi step (fun i log => log ++ f i) log := by
  apply forLoop_hit (fun l : List Access => a ∈ l) hi step hstep _ k lo log hk
  · intro i l _ _ hl
    exact List.mem_append_left _ hl
  · intro l
    exact List.mem_append_right _ ha

/-- A loop whose step covers the whole range runs its body once. -/
theorem forLoop_first {σ : Type} (hi step : Nat) (body : Nat → σ → σ) (s : σ)
    (h0 : 0 < hi) (hs : hi ≤ step) : forLoop 0 hi step body s = body 0 s := by
  rw [forLoop_unfold, if_pos ⟨h0, by omega⟩, forLoop_done _ _ _ _ _ (by omega)]

/-- On the 4 by 2 example image `TiledFlipX<1,160>` records the write of the
four bytes of destination row 0 from byte column 0, an offset obtained from a
wrapped `xout`. -/
theorem TiledFlipX_accesses_example :
    Access.dstWrite 0 0 4 ∈ TiledFlipX_accesses 1 160 exampleImage := by
  show _ ∈ forLoop 0 4 160 (fun xin log => forLoop 0 2 160 (fun yin log =>
    TiledFlipX_tile_accesses 1 160 4 2 xin yin log) log) []
  rw [forLoop_first 4 160 _ _ (by decide) (by decide),
    forLoop_first 2 160 _ _ (by decide) (by decide)]
  unfold TiledFlipX_tile_accesses
  dsimp only
  exact appendLoop_mem _ _ _ 1 Nat.one_pos _ _ 0 (by decide) (by decide)

/-- On the 4 by 2 example image `TiledRotateCCW<1,160>` records the write of the
two bytes of destination row 0 from byte column 0, a row obtained from a
wrapped `yout`. -/
theorem TiledRotateCCW_accesses_example :
    Access.dstWrite 0 0 2 ∈ TiledRotateCCW_accesses 1 160 exampleImage := by
  show _ ∈ forLoop 0 4 160 (fun xin log => forLoop 0 2 160 (fun yin log =>
    TiledRotateCCW_tile_accesses 1 160 4 2 xin yin log) log) []
  rw [forLoop_first 4 160 _ _ (by decide) (by decide),
    forLoop_first 2 160 _ _ (by decide) (by decide)]
  unfold TiledRotateCCW_tile_accesses
  dsimp only
  exact appendLoop_mem _ _ _ 1 Nat.one_pos _ _ 0 (by decide) (by decide)

/-- Claim C21 at the 4 by 2 example image with `BPP = 1`, `TSZ = 160`: the
hypotheses hold, the logs of `TiledFlipX` and `TiledRotateCCW` are not empty,
and the statement of the claim follows. -/
theorem C21_witness :
    (1, 160) ∈ tileTable ∧ exampleImage.width * 1 < SIZE_MOD ∧
    exampleImage.height * 1 < SIZE_MOD ∧
    Access.dstWrite 0 0 4 ∈ TiledFlipX_accesses 1 160 exampleImage ∧
    Access.dstWrite 0 0 2 ∈ TiledRotateCCW_accesses 1 160 exampleImage ∧
    ((∀ a ∈ TiledFlipX_accesses 1 160 exampleImage,
        a.inBounds 1 160 exampleImage.width exampleImage.height exampleImage.width exampleImage.height) ∧
      (∀ a ∈ TiledRotate180_accesses 1 160 exampleImage,
        a.inBounds 1 160 exampleImage.width exampleImage.height exampleImage.width exampleImage.height) ∧
      (∀ a ∈ TiledTranspose_accesses 1 160 exampleImage,
        a.inBounds 1 160 exampleImage.width exampleImage.height exampleImage.height exampleImage.width) ∧
      (∀ a ∈ TiledRotateCW_accesses 1 160 exampleImage,
        a.inBounds 1 160 exampleImage.width exampleImage.height exampleImage.height exampleImage.width) ∧
      (∀ a ∈ TiledRotateCCW_accesses 1 160 exampleImage,
        a.inBounds 1 160 exampleImage.width exampleImage.height exampleImage.height exampleImage.width) ∧
      (∀ xin, xin < exampleImage.width →
        xin + min 160 (exampleImage.width - xin) ≤ exampleImage.width ∧
        usub (uadd (usub (usub exampleImage.width xin) 160) 160) (min 160 (exampleImage.width - xin)) =
          exampleImage.width - xin - min 160 (exampleImage.width - xin)) ∧
      (∀ yin, yin < exampleImage.height →
        yin + min 160 (exampleImage.height - yin) ≤ exampleImage.height ∧
        usub (uadd (usub (usub exampleImage.height yin) 160) 160) (min 160 (exampleImage.height - yin)) =
          exampleImage.height - yin - min 160 (exampleImage.height - yin)) ∧
      (∀ yin k, yin < exampleImage.height → k < min 160 (exampleImage.height - yin) →
        uadd (usub (usub exampleImage.height yin) 160) (160 - min 160 (exampleImage.height - yin) + k) =
          exampleImage.height - yin - min 160 (exampleImage.height - yin) + k) ∧
      (∀ xin k, xin < exampleImage.width → k < min 160 (exampleImage.width - xin) →
        uadd (usub (usub exampleImage.width xin) 160) (160 - min 160 (exampleImage.width - xin) + k) =
          exampleImage.width - xin - min 160 (exampleImage.width - xin) + k) ∧
      (∀ (d0 : Scratch) (img_out : ImageView), img_out.width = exampleImage.width →
        img_out.height = exampleImage.height → ∀ a, (∀ r, r < img_out.height →
          ¬ (rowPtr img_out r ≤ a ∧ a < rowPtr img_out r + img_out.width * 1)) →
        (TiledFlipX 1 160 d0 img_out exampleImage).data a = img_out.data a) ∧
      (∀ (d0 : Scratch) (img_out : ImageView), img_out.width = exampleImage.width →
        img_out.height = exampleImage.height → ∀ a, (∀ r, r < img_out.height →
          ¬ (rowPtr img_out r ≤ a ∧ a < rowPtr img_out r + img_out.width * 1)) →
        (TiledRotate180 1 160 d0 img_out exampleImage).data a = img_out.data a) ∧
      (∀ (d0 : Scratch) (img_out : ImageView), img_out.width = exampleImage.height →
        img_out.height = exampleImage.width → ∀ a, (∀ r, r < img_out.height →
          ¬ (rowPtr img_out r ≤ a ∧ a < rowPtr img_out r + img_out.width * 1)) →
        (TiledTranspose 1 160 d0 img_out exampleImage).data a = img_out.data a) ∧
      (∀ (d0 : Scratch) (img_out : ImageView), img_out.width = exampleImage.height →
        img_out.height = exampleImage.width → ∀ a, (∀ r, r < img_out.height →
          ¬ (rowPtr img_out r ≤ a ∧ a < rowPtr img_out r + img_out.width * 1)) →
        (TiledRotateCW 1 160 d0 img_out exampleImage).data a = img_out.data a) ∧
      (∀ (d0 : Scratch) (img_out : ImageView), img_out.width = exampleImage.height →
        img_out.height = exampleImage.width → ∀ a, (∀ r, r < img_out.height →
          ¬ (rowPtr img_out r ≤ a ∧ a < rowPtr img_out r + img_out.width * 1)) →
        (TiledRotateCCW 1 160 d0 img_out exampleImage).data a = img_out.data a)) :=
  ⟨by decide, by decide, by decide, TiledFlipX_accesses_example,
    TiledRotateCCW_accesses_example,
    C21_tiled_accesses_in_bounds 1 160 (by decide) exampleImage (by decide) (by decide)⟩

/-! ## FlipY at byte level -/

/-- One row copy of `FlipY` observed at byte `k` of destination row `r`: the
byte is taken from the source when `r` is the copied row and `k` lies in the
pixel part of the row; otherwise the destination byte is kept. -/
theorem memcpy_row_byte (o src : Mem) (p n R soff r k : Nat) (hn : n ≤ p) (hk : k < p) :
    memcpy o (R * p) src soff n (r * p + k) =
      if r = R ∧ k < n then src (soff + k) else o (r * p + k) := by
  unfold memcpy
  have h := row_mem_iff p r R k 0 n hk (by omega)
  simp only [Nat.add_zero, Nat.zero_le, true_and, Nat.zero_add] at h
  by_cases hq : r = R ∧ k < n
  · rw [if_pos (h.2 hq), if_pos hq]
    obtain ⟨rfl, _⟩ := hq
    rw [Nat.add_sub_cancel_left]
  · rw [if_neg (fun h2 => hq (h.1 h2)), if_neg hq]

/-- A row copy leaves every byte outside the copied run untouched. -/
theorem memcpy_outside (o src : Mem) (doff soff n a : Nat)
    (ha : ¬ (doff ≤ a ∧ a < doff + n)) :
    memcpy o doff src soff n a = o a := by
  unfold memcpy
  rw [if_neg ha]

/-- Claim C22. `FlipY` fails with the size error, returning no written image,
when the output and input image sizes differ. When they agree and the
destination pitch covers a pixel row, it succeeds and keeps the destination
shape; for every output row `y_out` below the height the first
`width * bytes_per_pixel` bytes of that row equal the corresponding bytes of
input row `height - 1 - y_out`; and every destination byte outside those row
prefixes (the row padding up to the pitch included) keeps its old value. -/
theorem C22_FlipY_rows_mirrored_padding_kept (img_out img_in : ImageView) (bpp : Nat) :
    (imageSize img_out ≠ imageSize img_in →
      FlipY img_out img_in bpp = Except.error KernelError.incompatibleImageSizes) ∧
    (imageSize img_out = imageSize img_in → ValidPitch img_out bpp →
      ∃ res, FlipY img_out img_in bpp = Except.ok res ∧
        res.width = img_out.width ∧ res.height = img_out.height ∧
        res.pitch = img_out.pitch ∧
        (∀ y_out k, y_out < img_out.height → k < img_out.width * bpp →
          res.data (rowPtr res y_out + k) =
            img_in.data (rowPtr img_in (img_in.height - 1 - y_out) + k)) ∧
        (∀ a, (∀ y_out, y_out < img_out.height →
            ¬ (rowPtr img_out y_out ≤ a ∧
              a < rowPtr img_out y_out + img_out.width * bpp)) →
          res.data a = img_out.data a)) := by
  constructor
  · intro hne
    unfold FlipY
    rw [if_pos hne]
  · intro hsize hp
    have hw : img_out.width = img_in.width := congrArg Prod.fst hsize
    have hp' : bpp * img_out.width ≤ img_out.pitch := by
      unfold ValidPitch at hp
      rw [Nat.mul_comm]
      exact hp
    unfold FlipY
    rw [if_neg (not_not.2 hsize)]
    refine ⟨_, rfl, rfl, rfl, rfl, ?_, ?_⟩
    · intro r k hr hk
      have hkn : k < bpp * img_out.width := by rw [Nat.mul_comm]; exact hk
      have hkp : k < img_out.pitch := by omega
      show forLoop 0 img_out.height 1 _ img_out.data (r * img_out.pitch + k) = _
      rw [← hw]
      apply forLoop_hit
        (fun t : Mem => t (r * img_out.pitch + k) =
          img_in.data (rowPtr img_in (img_in.height - 1 - r) + k))
        img_out.height 1 Nat.one_pos _ r 0
      · omega
      · intro y t _ _ ht
        show memcpy t (y * img_out.pitch) img_in.data _ (bpp * img_out.width) _ = _
        rw [memcpy_row_byte t img_in.data img_out.pitch _ y _ r k hp' hkp]
        by_cases hq : r = y
        · rw [if_pos ⟨hq, hkn⟩, ← hq]
        · rw [if_neg (fun h2 => hq h2.1)]
          exact ht
      · intro t
        have e : 0 + r * 1 = r := by omega
        show memcpy t ((0 + r * 1) * img_out.pitch) img_in.data _ (bpp * img_out.width) _ = _
        rw [e, memcpy_row_byte t img_in.data img_out.pitch _ r _ r k hp' hkp,
          if_pos ⟨rfl, hkn⟩]
    · intro a ha
      show forLoop 0 img_out.height 1 _ img_out.data a = _
      apply forLoop_keep (fun t : Mem => t a) 0 img_out.height 1
      intro y t _ hy
      show memcpy t (rowPtr img_out y) img_in.data _ (bpp * img_in.width) a = t a
      apply memcpy_outside
      have h := ha y hy
      rw [← hw, Nat.mul_comm bpp]
      exact h

/-- Claim C22 at the example image: a 2 by 4 destination differs in size from
the example source and gives the error, and a 4 by 2 destination of pitch 4
satisfies both hypotheses of the success case. -/
theorem C22_witness :
    (imageSize (exampleOutSwapped zeroMem) ≠ imageSize exampleImage ∧
      FlipY (exampleOutSwapped zeroMem) exampleImage 1 =
        Except.error KernelError.incompatibleImageSizes) ∧
    imageSize (exampleOutSame zeroMem) = imageSize exampleImage ∧
    ValidPitch (exampleOutSame zeroMem) 1 ∧
    ∃ res, FlipY (exampleOutSame zeroMem) exampleImage 1 = Except.ok res ∧
      res.width = (exampleOutSame zeroMem).width ∧
      res.height = (exampleOutSame zeroMem).height ∧
      res.pitch = (exampleOutSame zeroMem).pitch ∧
      (∀ y_out k, y_out < (exampleOutSame zeroMem).height →
        k < (exampleOutSame zeroMem).width * 1 →
        res.data (rowPtr res y_out + k) =
          exampleImage.data (rowPtr exampleImage (exampleImage.height - 1 - y_out) + k)) ∧
      (∀ a, (∀ y_out, y_out < (exampleOutSame zeroMem).height →
          ¬ (rowPtr (exampleOutSame zeroMem) y_out ≤ a ∧
            a < rowPtr (exampleOutSame zeroMem) y_out +
              (exampleOutSame zeroMem).width * 1)) →
        res.data a = (exampleOutSame zeroMem).data a) :=
  ⟨⟨by decide,
      (C22_FlipY_rows_mirrored_padding_kept (exampleOutSwapped zeroMem) exampleImage 1).1
        (by decide)⟩,
    by decide, by decide,
    (C22_FlipY_rows_mirrored_padding_kept (exampleOutSame zeroMem) exampleImage 1).2
      (by decide) (by decide)⟩

/-! ## Independence of the initial scratch contents -/

/-- A relation preserved by corresponding iterations of two loops over the
same range relates their results. -/
theorem forLoop_rel {σ τ : Type} (R : σ → τ → Prop) (hi step : Nat)
    (body : Nat → σ → σ) (body' : Nat → τ → τ) :
    ∀ (n lo : Nat) (s : σ) (s' : τ), hi - lo ≤ n →
      (∀ i s s', lo ≤ i → i < hi → R s s' → R (body i s) (body' i s')) → R s s' →
      R (forLoop lo hi step body s) (forLoop lo hi step body' s')
  | 0, lo, s, s', hn, _, hs => by
      rw [forLoop_unfold, forLoop_unfold lo hi step body', if_neg (by omega),
        if_neg (by omega)]
      exact hs
  | n + 1, lo, s, s', hn, hp, hs => by
      rw [forLoop_unfold, forLoop_unfold lo hi step body']
      split
      · next hc =>
        apply forLoop_rel R hi step body body' n
        · omega
        · intro i t t' h1 h2
          exact hp i t t' (by omega) h2
        · exact hp lo s s' (Nat.le_refl _) hc.1 hs
      · exact hs

/-- A copy out of a scratch row depends only on the elements of the copied run. -/
theorem memcpyFromRow_congr (BPP : Nat) (hB : 0 < BPP) (o : Mem) (doff : Nat)
    (d d' : Scratch) (y k n : Nat)
    (h : ∀ x b, k ≤ x → x < k + n → b < BPP → d (y, x) b = d' (y, x) b) :
    memcpyFromRow BPP o doff d y k (n * BPP) = memcpyFromRow BPP o doff d' y k (n * BPP) := by
  funext a
  unfold memcpyFromRow
  by_cases ha : doff ≤ a ∧ a < doff + n * BPP
  · rw [if_pos ha, if_pos ha]
    have h1 : (a - doff) / BPP < n := by
      apply Nat.div_lt_of_lt_mul
      rw [Nat.mul_comm]
      omega
    exact h _ _ (Nat.le_add_right _ _) (by omega) (Nat.mod_lt _ hB)
  · rw [if_neg ha, if_neg ha]

/-- Two store loops over the same rows agree when the stored scratch elements agree. -/
theorem storeLoop_congr (BPP : Nat) (hB : 0 < BPP) (lo hi : Nat) (addr : Nat → Nat)
    (d d' : Scratch) (k n : Nat) (o : Mem)
    (h : ∀ y x b, lo ≤ y → y < hi → k ≤ x → x < k + n → b < BPP →
      d (y, x) b = d' (y, x) b) :
    forLoop lo hi 1 (fun y o => memcpyFromRow BPP o (addr y) d y k (n * BPP)) o =
      forLoop lo hi 1 (fun y o => memcpyFromRow BPP o (addr y) d' y k (n * BPP)) o := by
  apply forLoop_congr hi 1 _ _ (hi - lo) lo o (Nat.le_refl _)
  intro y t hy1 hy2
  exact memcpyFromRow_congr BPP hB t (addr y) d d' y k n
    (fun x b hx1 hx2 hb => h y x b hy1 hy2 hx1 hx2 hb)

/-- The loaded part of the scratch tile does not depend on what the tile held before. -/
theorem loadTile_indep (BPP : Nat) (img_in : ImageView) (xin yin xspan yspan : Nat)
    (d d' : Scratch) (y x b : Nat) (hy : y < yspan) (hx : x < xspan) (hb : b < BPP) :
    loadTile BPP img_in xin yin xspan yspan d (y, x) b =
      loadTile BPP img_in xin yin xspan yspan d' (y, x) b := by
  rw [loadTile_cell BPP img_in xin yin xspan yspan d y x b hy hx hb,
    loadTile_cell BPP img_in xin yin xspan yspan d' y x b hy hx hb]

/-- Tile loops whose tile step maps equal destinations to equal destinations
do so themselves. -/
theorem tileLoops_out_indep (tile : Nat → Nat → TileState → TileState) (w h TSZ : Nat)
    (hind : ∀ xin yin st st', st.out = st'.out →
      (tile xin yin st).out = (tile xin yin st').out)
    (st0 st0' : TileState) (h0 : st0.out = st0'.out) :
    (forLoop 0 w TSZ (fun xin st =>
      forLoop 0 h TSZ (fun yin st => tile xin yin st) st) st0).out =
    (forLoop 0 w TSZ (fun xin st =>
      forLoop 0 h TSZ (fun yin st => tile xin yin st) st) st0').out := by
  apply forLoop_rel (fun s s' : TileState => s.out = s'.out) w TSZ _ _ (w - 0) 0 st0 st0'
    (Nat.le_refl _) _ h0
  intro xin s s' _ _ hs
  apply forLoop_rel (fun s s' : TileState => s.out = s'.out) h TSZ _ _ (h - 0) 0 s s'
    (Nat.le_refl _) _ hs
  intro yin t t' _ _ ht
  exact hind xin yin t t' ht

theorem TiledFlipX_tile_out_indep (BPP TSZ : Nat) (hB : 0 < BPP)
    (img_out img_in : ImageView) (xin yin : Nat) (st st' : TileState)
    (ho : st.out = st'.out) :
    (TiledFlipX_tile BPP TSZ img_out img_in xin yin st).out =
      (TiledFlipX_tile BPP TSZ img_out img_in xin yin st').out := by
  unfold TiledFlipX_tile
  dsimp only
  rw [ho]
  apply storeLoop_congr BPP hB
  intro y x b _ hy hx1 hx2 hb
  rw [TiledFlipX_permute_cell TSZ _ y x (by omega) (by omega),
    TiledFlipX_permute_cell TSZ _ y x (by omega) (by omega)]
  exact loadTile_indep BPP img_in xin yin _ _ st.d st'.d y _ b hy (by omega) hb

theorem TiledRotate180_tile_out_indep (BPP TSZ : Nat) (hB : 0 < BPP) (hT : TSZ % 2 = 0)
    (img_out img_in : ImageView) (xin yin : Nat) (st st' : TileState)
    (ho : st.out = st'.out) :
    (TiledRotate180_tile BPP TSZ img_out img_in xin yin st).out =
      (TiledRotate180_tile BPP TSZ img_out img_in xin yin st').out := by
  unfold TiledRotate180_tile
  dsimp only
  rw [ho]
  apply storeLoop_congr BPP hB
  intro y x b hy1 hy2 hx1 hx2 hb
  rw [TiledRotate180_permute_cell TSZ hT _ y x (by omega) (by omega),
    TiledRotate180_permute_cell TSZ hT _ y x (by omega) (by omega)]
  exact loadTile_indep BPP img_in xin yin _ _ st.d st'.d _ _ b (by omega) (by omega) hb

theorem TiledTranspose_tile_out_indep (BPP TSZ : Nat) (hB : 0 < BPP)
    (img_out img_in : ImageView) (xin yin : Nat) (st st' : TileState)
    (ho : st.out = st'.out) :
    (TiledTranspose_tile BPP TSZ img_out img_in xin yin st).out =
      (TiledTranspose_tile BPP TSZ img_out img_in xin yin st').out := by
  unfold TiledTranspose_tile
  dsimp only
  rw [ho]
  apply storeLoop_congr BPP hB
  intro y x b _ hy hx1 hx2 hb
  rw [TiledTranspose_permute_cell _ _ _ y x (by omega) (by omega),
    TiledTranspose_permute_cell _ _ _ y x (by omega) (by omega)]
  exact loadTile_indep BPP img_in xin yin _ _ st.d st'.d x y b (by omega) hy hb

theorem TiledRotateCW_tile_out_indep (BPP TSZ : Nat) (hB : 0 < BPP) (hT : TSZ % 2 = 0)
    (img_out img_in : ImageView) (xin yin : Nat) (st st' : TileState)
    (ho : st.out = st'.out) :
    (TiledRotateCW_tile BPP TSZ img_out img_in xin yin st).out =
      (TiledRotateCW_tile BPP TSZ img_out img_in xin yin st').out := by
  unfold TiledRotateCW_tile
  dsimp only
  rw [ho]
  apply storeLoop_congr BPP hB
  intro y x b _ hy hx1 hx2 hb
  rw [TiledRotateCW_permute_cell TSZ hT _ y x (by omega) (by omega),
    TiledRotateCW_permute_cell TSZ hT _ y x (by omega) (by omega)]
  exact loadTile_indep BPP img_in xin yin _ _ st.d st'.d _ y b (by omega) hy hb

theorem TiledRotateCCW_tile_out_indep (BPP TSZ : Nat) (hB : 0 < BPP) (hT : TSZ % 2 = 0)
    (img_out img_in : ImageView) (xin yin : Nat) (st st' : TileState)
    (ho : st.out = st'.out) :
    (TiledRotateCCW_tile BPP TSZ img_out img_in xin yin st).out =
      (TiledRotateCCW_tile BPP TSZ img_out img_in xin yin st').out := by
  unfold TiledRotateCCW_tile
  dsimp only
  rw [ho]
  apply storeLoop_congr BPP hB
  intro y x b hy1 hy2 hx1 hx2 hb
  rw [TiledRotateCCW_permute_cell TSZ hT _ y x (by omega) (by omega),
    TiledRotateCCW_permute_cell TSZ hT _ y x (by omega) (by omega)]
  exact loadTile_indep BPP img_in xin yin _ _ st.d st'.d x _ b (by omega) (by omega) hb

/-- The scratch elements that `TiledFlipX` stores for a tile hold source bytes
loaded in the same tile iteration. -/
theorem TiledFlipX_tile_stored (BPP TSZ : Nat)
    (img_out img_in : ImageView) (xin yin : Nat) (st : TileState) (y x b : Nat) :
    y < min TSZ (img_in.height - yin) →
      TSZ - min TSZ (img_in.width - xin) ≤ x → x < TSZ → b < BPP →
      (TiledFlipX_tile BPP TSZ img_out img_in xin yin st).d (y, x) b =
        img_in.data (rowPtr img_in (yin + y) + xin * BPP + ((TSZ - 1 - x) * BPP + b)) := by
  intro hy hx1 hx2 hb
  show TiledFlipX_permute TSZ _ (y, x) b = _
  rw [TiledFlipX_permute_cell TSZ _ y x (by omega) (by omega)]
  exact loadTile_cell BPP img_in xin yin _ _ st.d _ _ b (by omega) (by omega) hb

/-- The scratch elements that `TiledRotate180` stores for a tile hold source bytes
loaded in the same tile iteration. -/
theorem TiledRotate180_tile_stored (BPP TSZ : Nat) (hT : TSZ % 2 = 0)
    (img_out img_in : ImageView) (xin yin : Nat) (st : TileState) (y x b : Nat) :
    TSZ - min TSZ (img_in.height - yin) ≤ y → y < TSZ →
      TSZ - min TSZ (img_in.width - xin) ≤ x → x < TSZ → b < BPP →
      (TiledRotate180_tile BPP TSZ img_out img_in xin yin st).d (y, x) b =
        img_in.data (rowPtr img_in (yin + (TSZ - 1 - y)) + xin * BPP + ((TSZ - 1 - x) * BPP + b)) := by
  intro hy1 hy2 hx1 hx2 hb
  show TiledRotate180_permute TSZ _ (y, x) b = _
  rw [TiledRotate180_permute_cell TSZ hT _ y x (by omega) (by omega)]
  exact loadTile_cell BPP img_in xin yin _ _ st.d _ _ b (by omega) (by omega) hb

/-- The scratch elements that `TiledTranspose` stores for a tile hold source bytes
loaded in the same tile iteration. -/
theorem TiledTranspose_tile_stored (BPP TSZ : Nat)
    (img_out img_in : ImageView) (xin yin : Nat) (st : TileState) (y x b : Nat) :
    y < min TSZ (img_in.width - xin) →
      x < min TSZ (img_in.height - yin) → b < BPP →
      (TiledTranspose_tile BPP TSZ img_out img_in xin yin st).d (y, x) b =
        img_in.data (rowPtr img_in (yin + x) + xin * BPP + (y * BPP + b)) := by
  intro hy hx hb
  show TiledTranspose_permute _ _ _ (y, x) b = _
  rw [TiledTranspose_permute_cell _ _ _ y x (by omega) (by omega)]
  exact loadTile_cell BPP img_in xin yin _ _ st.d _ _ b (by omega) (by omega) hb

/-- The scratch elements that `TiledRotateCW` stores for a tile hold source bytes
loaded in the same tile iteration. -/
theorem TiledRotateCW_tile_stored (BPP TSZ : Nat) (hT : TSZ % 2 = 0)
    (img_out img_in : ImageView) (xin yin : Nat) (st : TileState) (y x b : Nat) :
    y < min TSZ (img_in.width - xin) →
      TSZ - min TSZ (img_in.height - yin) ≤ x → x < TSZ → b < BPP →
      (TiledRotateCW_tile BPP TSZ img_out img_in xin yin st).d (y, x) b =
        img_in.data (rowPtr img_in (yin + (TSZ - 1 - x)) + xin * BPP + (y * BPP + b)) := by
  intro hy hx1 hx2 hb
  show TiledRotateCW_permute TSZ _ (y, x) b = _
  rw [TiledRotateCW_permute_cell TSZ hT _ y x (by omega) (by omega)]
  exact loadTile_cell BPP img_in xin yin _ _ st.d _ _ b (by omega) (by omega) hb

/-- The scratch elements that `TiledRotateCCW` stores for a tile hold source bytes
loaded in the same tile iteration. -/
theorem TiledRotateCCW_tile_stored (BPP TSZ : Nat) (hT : TSZ % 2 = 0)
    (img_out img_in : ImageView) (xin yin : Nat) (st : TileState) (y x b : Nat) :
    TSZ - min TSZ (img_in.width - xin) ≤ y → y < TSZ →
      x < min TSZ (img_in.height - yin) → b < BPP →
      (TiledRotateCCW_tile BPP TSZ img_out img_in xin yin st).d (y, x) b =
        img_in.data (rowPtr img_in (yin + x) + xin * BPP + ((TSZ - 1 - y) * BPP + b)) := by
  intro hy1 hy2 hx hb
  show TiledRotateCCW_permute TSZ _ (y, x) b = _
  rw [TiledRotateCCW_permute_cell TSZ hT _ y x (by omega) (by omega)]
  exact loadTile_cell BPP img_in xin yin _ _ st.d _ _ b (by omega) (by omega) hb

/-- Claim C23. For every instantiation `(BPP, TSZ)` of the dispatch table and
every source and destination, each of the five tiled kernels started from two
arbitrary initial contents `d0` and `d0'` of its scratch tile produces the
same destination image: every destination byte is identical in the two runs.
Moreover, in every tile iteration and whatever the scratch tile held before,
each scratch byte that the store loop copies out is a source byte loaded in
that same iteration. -/
theorem C23_destination_independent_of_scratch (BPP TSZ : Nat)
    (hmem : (BPP, TSZ) ∈ tileTable) (d0 d0' : Scratch) (img_out img_in : ImageView) :
    (TiledFlipX BPP TSZ d0 img_out img_in = TiledFlipX BPP TSZ d0' img_out img_in ∧
      TiledRotate180 BPP TSZ d0 img_out img_in = TiledRotate180 BPP TSZ d0' img_out img_in ∧
      TiledTranspose BPP TSZ d0 img_out img_in = TiledTranspose BPP TSZ d0' img_out img_in ∧
      TiledRotateCW BPP TSZ d0 img_out img_in = TiledRotateCW BPP TSZ d0' img_out img_in ∧
      TiledRotateCCW BPP TSZ d0 img_out img_in =
        TiledRotateCCW BPP TSZ d0' img_out img_in) ∧
    (∀ xin yin (st : TileState) y x b, y < min TSZ (img_in.height - yin) →
          TSZ - min TSZ (img_in.width - xin) ≤ x → x < TSZ → b < BPP →
          (TiledFlipX_tile BPP TSZ img_out img_in xin yin st).d (y, x) b =
            img_in.data (rowPtr img_in (yin + y) + xin * BPP + ((TSZ - 1 - x) * BPP + b))) ∧
    (∀ xin yin (st : TileState) y x b, TSZ - min TSZ (img_in.height - yin) ≤ y → y < TSZ →
          TSZ - min TSZ (img_in.width - xin) ≤ x → x < TSZ → b < BPP →
          (TiledRotate180_tile BPP TSZ img_out img_in xin yin st).d (y, x) b =
            img_in.data (rowPtr img_in (yin + (TSZ - 1 - y)) + xin * BPP + ((TSZ - 1 - x) * BPP + b))) ∧
    (∀ xin yin (st : TileState) y x b, y < min TSZ (img_in.width - xin) →
          x < min TSZ (img_in.height - yin) → b < BPP →
          (TiledTranspose_tile BPP TSZ img_out img_in xin yin st).d (y, x) b =
            img_in.data (rowPtr img_in (yin + x) + xin * BPP + (y * BPP + b))) ∧
    (∀ xin yin (st : TileState) y x b, y < min TSZ (img_in.width - xin) →
          TSZ - min TSZ (img_in.height - yin) ≤ x → x < TSZ → b < BPP →
          (TiledRotateCW_tile BPP TSZ img_out img_in xin yin st).d (y, x) b =
            img_in.data (rowPtr img_in (yin + (TSZ - 1 - x)) + xin * BPP + (y * BPP + b))) ∧
    (∀ xin yin (st : TileState) y x b, TSZ - min TSZ (img_in.width - xin) ≤ y → y < TSZ →
          x < min TSZ (img_in.height - yin) → b < BPP →
          (TiledRotateCCW_tile BPP TSZ img_out img_in xin yin st).d (y, x) b =
            img_in.data (rowPtr img_in (yin + x) + xin * BPP + ((TSZ - 1 - y) * BPP + b))) := by
  obtain ⟨hB, _, _, hT⟩ := tileTable_props BPP TSZ hmem
  refine ⟨⟨?_, ?_, ?_, ?_, ?_⟩, ?_, ?_, ?_, ?_, ?_⟩
  · unfold TiledFlipX
    dsimp only
    rw [tileLoops_out_indep (TiledFlipX_tile BPP TSZ img_out img_in) _ _ TSZ
      (TiledFlipX_tile_out_indep BPP TSZ hB img_out img_in)
      { d := d0, out := img_out.data } { d := d0', out := img_out.data } rfl]
  · unfold TiledRotate180
    dsimp only
    rw [tileLoops_out_indep (TiledRotate180_tile BPP TSZ img_out img_in) _ _ TSZ
      (TiledRotate180_tile_out_indep BPP TSZ hB hT img_out img_in)
      { d := d0, out := img_out.data } { d := d0', out := img_out.data } rfl]
  · unfold TiledTranspose
    dsimp only
    rw [tileLoops_out_indep (TiledTranspose_tile BPP TSZ img_out img_in) _ _ TSZ
      (TiledTranspose_tile_out_indep BPP TSZ hB img_out img_in)
      { d := d0, out := img_out.data } { d := d0', out := img_out.data } rfl]
  · unfold TiledRotateCW
    dsimp only
    rw [tileLoops_out_indep (TiledRotateCW_tile BPP TSZ img_out img_in) _ _ TSZ
      (TiledRotateCW_tile_out_indep BPP TSZ hB hT img_out img_in)
      { d := d0, out := img_out.data } { d := d0', out := img_out.data } rfl]
  · unfold TiledRotateCCW
    dsimp only
    rw [tileLoops_out_indep (TiledRotateCCW_tile BPP TSZ img_out img_in) _ _ TSZ
      (TiledRotateCCW_tile_out_indep BPP TSZ hB hT img_out img_in)
      { d := d0, out := img_out.data } { d := d0', out := img_out.data } rfl]
  · intro xin yin st y x b
    exact TiledFlipX_tile_stored BPP TSZ img_out img_in xin yin st y x b
  · intro xin yin st y x b
    exact TiledRotate180_tile_stored BPP TSZ hT img_out img_in xin yin st y x b
  · intro xin yin st y x b
    exact TiledTranspose_tile_stored BPP TSZ img_out img_in xin yin st y x b
  · intro xin yin st y x b
    exact TiledRotateCW_tile_stored BPP TSZ hT img_out img_in xin yin st y x b
  · intro xin yin st y x b
    exact TiledRotateCCW_tile_stored BPP TSZ hT img_out img_in xin yin st y x b

/-- Claim C23 at the example image with `BPP = 1`, `TSZ = 160`: an all-zero
scratch tile and a scratch tile filled with 255 differ, and give the same
destination for each of the five tiled kernels; the stored scratch bytes are
source bytes of the same tile iteration. -/
theorem C23_witness :
    (1, 160) ∈ tileTable ∧ zeroScratch (0, 0) 0 ≠ (fun _ _ => 255 : Scratch) (0, 0) 0 ∧
    ((TiledFlipX 1 160 zeroScratch (exampleOutSame zeroMem) exampleImage =
          TiledFlipX 1 160 (fun _ _ => 255) (exampleOutSame zeroMem) exampleImage ∧
        TiledRotate180 1 160 zeroScratch (exampleOutSame zeroMem) exampleImage =
          TiledRotate180 1 160 (fun _ _ => 255) (exampleOutSame zeroMem) exampleImage ∧
        TiledTranspose 1 160 zeroScratch (exampleOutSame zeroMem) exampleImage =
          TiledTranspose 1 160 (fun _ _ => 255) (exampleOutSame zeroMem) exampleImage ∧
        TiledRotateCW 1 160 zeroScratch (exampleOutSame zeroMem) exampleImage =
          TiledRotateCW 1 160 (fun _ _ => 255) (exampleOutSame zeroMem) exampleImage ∧
        TiledRotateCCW 1 160 zeroScratch (exampleOutSame zeroMem) exampleImage =
          TiledRotateCCW 1 160 (fun _ _ => 255) (exampleOutSame zeroMem) exampleImage) ∧
      (∀ xin yin (st : TileState) y x b, y < min 160 (exampleImage.height - yin) →
            160 - min 160 (exampleImage.width - xin) ≤ x → x < 160 → b < 1 →
            (TiledFlipX_tile 1 160 (exampleOutSame zeroMem) exampleImage xin yin st).d (y, x) b =
              exampleImage.data (rowPtr exampleImage (yin + y) + xin * 1 + ((160 - 1 - x) * 1 + b))) ∧
      (∀ xin yin (st : TileState) y x b, 160 - min 160 (exampleImage.height - yin) ≤ y → y < 160 →
            160 - min 160 (exampleImage.width - xin) ≤ x → x < 160 → b < 1 →
            (TiledRotate180_tile 1 160 (exampleOutSame zeroMem) exampleImage xin yin st).d (y, x) b =
              exampleImage.data (rowPtr exampleImage (yin + (160 - 1 - y)) + xin * 1 + ((160 - 1 - x) * 1 + b))) ∧
      (∀ xin yin (st : TileState) y x b, y < min 160 (exampleImage.width - xin) →
            x < min 160 (exampleImage.height - yin) → b < 1 →
            (TiledTranspose_tile 1 160 (exampleOutSame zeroMem) exampleImage xin yin st).d (y, x) b =
              exampleImage.data (rowPtr exampleImage (yin + x) + xin * 1 + (y * 1 + b))) ∧
      (∀ xin yin (st : TileState) y x b, y < min 160 (exampleImage.width - xin) →
            160 - min 160 (exampleImage.height - yin) ≤ x → x < 160 → b < 1 →
            (TiledRotateCW_tile 1 160 (exampleOutSame zeroMem) exampleImage xin yin st).d (y, x) b =
              exampleImage.data (rowPtr exampleImage (yin + (160 - 1 - x)) + xin * 1 + (y * 1 + b))) ∧
      (∀ xin yin (st : TileState) y x b, 160 - min 160 (exampleImage.width - xin) ≤ y → y < 160 →
            x < min 160 (exampleImage.height - yin) → b < 1 →
            (TiledRotateCCW_tile 1 160 (exampleOutSame zeroMem) exampleImage xin yin st).d (y, x) b =
              exampleImage.data (rowPtr exampleImage (yin + x) + xin * 1 + ((160 - 1 - y) * 1 + b)))) :=
  ⟨by decide, by decide,
    C23_destination_independent_of_scratch 1 160 (by decide) zeroScratch (fun _ _ => 255)
      (exampleOutSame zeroMem) exampleImage⟩
end Pangolin
